import Mathlib

/-!
# Echo nodes: the windowed peak detector

A shallow embedding of `adcBufCallback` as it appears in `rfEchoTx.c`,
`rfEchoRx.c` (four passes, thresholds 50000 and 15000, window bound 23) and
in `adcBufContinuousSampling.c` (one pass, threshold 150000).

Machine integers are natural numbers reduced modulo `2^w` at every store.
C `while` loops are run by `whileLoop` with a fuel bound; a loop that runs out
of fuel yields `none`.  The fields `reads` and `log` are ghost state: they
record which indices of `microVoltBuffer` each bin read and what each bin
evaluation saw, and they influence no computed value.
-/

namespace Engs86

/-! ## Machine arithmetic -/

/-- Conversion of a `uint32_t` value to `int` (two's complement, 32 bits;
`4294967296 = 2^32`, `2147483648 = 2^31`). -/
def toInt32 (x : Nat) : Int :=
  if x % 4294967296 < 2147483648 then Int.ofNat (x % 4294967296)
  else Int.ofNat (x % 4294967296) - 4294967296

/-- The C library `abs` on a 32-bit `int`; negating `INT_MIN = -2147483648`
wraps to `INT_MIN`, as two's complement hardware does. -/
def abs32 (i : Int) : Int :=
  if i = -2147483648 then -2147483648 else if i < 0 then -i else i

/-- Conversion of an `int` to `uint64_t` (`18446744073709551616 = 2^64`). -/
def toUInt64 (i : Int) : Nat := (i % 18446744073709551616).toNat

/-- The term `abs(microVoltBuffer[b])` as it is added to the `uint64_t` sum. -/
def absSample (x : Nat) : Nat := toUInt64 (abs32 (toInt32 x))

/-! ## Loops -/

/-- A C `while (cond) body` loop; `none` when the fuel runs out or the body
fails. -/
def whileLoop {σ : Type} (cond : σ → Bool) (body : σ → Option σ) : Nat → σ → Option σ
  | 0, _ => none
  | fuel + 1, s =>
    if cond s then
      match body s with
      | none => none
      | some s1 => whileLoop cond body fuel s1
    else some s

/-- The locals the innermost loop writes (`b`, `sum`) and the ghost list of
indices it read. -/
structure SampleAcc where
  b : Nat
  sum : Nat
  reads : List Nat
deriving DecidableEq, Repr

/-- Body of `while (b < (ADCBUFFERSIZE/10 + 50*a))`:
`sum = sum + abs(microVoltBuffer[b]); b++;`. -/
def sampleBody (microVoltBuffer : List Nat) (t : SampleAcc) : Option SampleAcc :=
  some { b := (t.b + 1) % 2 ^ 16
         sum := (t.sum + absSample (microVoltBuffer.getD t.b 0)) % 2 ^ 64
         reads := t.reads ++ [t.b] }

/-- The innermost loop, `while (b < (ADCBUFFERSIZE/10 + 50*a))`. -/
def sampleLoop (ADCBUFFERSIZE : Nat) (microVoltBuffer : List Nat) (a fuel : Nat)
    (t : SampleAcc) : Option SampleAcc :=
  whileLoop (fun t => decide (t.b < ADCBUFFERSIZE / 10 + 50 * a))
    (sampleBody microVoltBuffer) fuel t

/-- Ghost record of one bin evaluation. -/
structure BinRecord where
  run_number : Nat
  a : Nat
  bin_number : Nat
  reads : List Nat
  bin_average : Nat
deriving DecidableEq, Repr

/-! ## The four-pass detector of `rfEchoTx.c` and `rfEchoRx.c` -/

/-- Locals of `adcBufCallback` in `rfEchoTx.c` / `rfEchoRx.c`, and the ghost
`log` of bin evaluations. -/
structure DetState where
  a : Nat
  b : Nat
  sum : Nat
  bin_average : Nat
  run_number : Nat
  run_max : Nat
  bin_number : Nat
  saved_bin_number : Nat
  total_max : Nat
  log : List BinRecord
deriving DecidableEq, Repr

/-- The declarations at the head of the added code: every local is 0. -/
def DetState.init : DetState :=
  { a := 0, b := 0, sum := 0, bin_average := 0, run_number := 0, run_max := 0,
    bin_number := 0, saved_bin_number := 0, total_max := 0, log := [] }

/-- Body of `while (a < (ADCBUFFERSIZE/50))`: the sample loop, then
`bin_average = sum / 500`, the running-maximum test, `a++`, `bin_number++`. -/
def binBody (ADCBUFFERSIZE : Nat) (microVoltBuffer : List Nat) (fuel : Nat)
    (s : DetState) : Option DetState :=
  match sampleLoop ADCBUFFERSIZE microVoltBuffer s.a fuel
      { b := s.b, sum := s.sum, reads := [] } with
  | none => none
  | some t =>
    let bin_average := (t.sum / 500) % 2 ^ 32
    some { a := (s.a + 1) % 2 ^ 16
           b := t.b
           sum := t.sum
           bin_average := bin_average
           run_number := s.run_number
           run_max := if bin_average > s.run_max then bin_average else s.run_max
           bin_number := (s.bin_number + 1) % 2 ^ 16
           saved_bin_number :=
             if bin_average > s.run_max then s.bin_number else s.saved_bin_number
           total_max := s.total_max
           log := s.log ++ [{ run_number := s.run_number, a := s.a,
                              bin_number := s.bin_number, reads := t.reads,
                              bin_average := bin_average }] }

/-- The loop over the bins of one pass, `while (a < (ADCBUFFERSIZE/50))`. -/
def binLoop (ADCBUFFERSIZE : Nat) (microVoltBuffer : List Nat) (fuel : Nat)
    (s : DetState) : Option DetState :=
  whileLoop (fun s => decide (s.a < ADCBUFFERSIZE / 50))
    (binBody ADCBUFFERSIZE microVoltBuffer fuel) fuel s

/-- Body of `while (run_number < 4)`: the bin loop, the resets
`a = 0; b = 0; sum = 0; bin_average = 0;`, the update of `total_max`, and
`run_number++`.  `run_max`, `bin_number` and `saved_bin_number` are not reset. -/
def passBody (ADCBUFFERSIZE : Nat) (microVoltBuffer : List Nat) (fuel : Nat)
    (s : DetState) : Option DetState :=
  match binLoop ADCBUFFERSIZE microVoltBuffer fuel s with
  | none => none
  | some s1 =>
    some { s1 with
           a := 0
           b := 0
           sum := 0
           bin_average := 0
           total_max := if s1.run_max > s1.total_max then s1.run_max else s1.total_max
           run_number := (s1.run_number + 1) % 2 ^ 16 }

/-- The outer loop, `while (run_number < 4)`. -/
def passLoop (ADCBUFFERSIZE : Nat) (microVoltBuffer : List Nat) (fuel : Nat)
    (s : DetState) : Option DetState :=
  whileLoop (fun s => decide (s.run_number < 4))
    (passBody ADCBUFFERSIZE microVoltBuffer fuel) fuel s

/-! ## Pins and driver calls -/

/-- The output pins the callbacks drive. -/
inductive Pin
  | Board_DIO15
  | Board_PIN_LED1
  | Board_PIN_LED2
deriving DecidableEq, Repr

/-- Driver calls made by `adcBufCallback` after the detection loops, in
program order. -/
inductive Effect
  | PIN_setOutputValue (pin : Pin) (value : Nat)
  | ADCBuf_convertCancel
deriving DecidableEq, Repr

/-- The decision step,
`if (total_max > threshold && saved_bin_number <= max_bin_index)` with
`PIN_setOutputValue(pinHandle, Board_DIO15, 1)` in the then-branch and
`PIN_setOutputValue(pinHandle, Board_DIO15, 0)` in the else-branch. -/
def alarmStep (threshold max_bin_index total_max saved_bin_number : Nat) : List Effect :=
  if total_max > threshold ∧ saved_bin_number ≤ max_bin_index then
    [Effect.PIN_setOutputValue Pin.Board_DIO15 1]
  else
    [Effect.PIN_setOutputValue Pin.Board_DIO15 0]

/-- The detector of `rfEchoTx.c` / `rfEchoRx.c` with its constants as
parameters: the passes, the decision step, then `ADCBuf_convertCancel`.
Returns the final locals and the driver calls made. -/
def detectorCallback (ADCBUFFERSIZE threshold max_bin_index : Nat)
    (microVoltBuffer : List Nat) (fuel : Nat) : Option (DetState × List Effect) :=
  match passLoop ADCBUFFERSIZE microVoltBuffer fuel DetState.init with
  | none => none
  | some s =>
    some (s, alarmStep threshold max_bin_index s.total_max s.saved_bin_number
              ++ [Effect.ADCBuf_convertCancel])

/-- The buffer length `ADCBUFFERSIZE` of all three files. -/
def ADCBUFFERSIZE : Nat := 500

namespace rfEchoTx

/-- The detector part of `adcBufCallback` in `rfEchoTx.c`:
`total_max > 50000 && saved_bin_number <= 23`. -/
def adcBufCallback (microVoltBuffer : List Nat) (fuel : Nat) :
    Option (DetState × List Effect) :=
  detectorCallback ADCBUFFERSIZE 50000 23 microVoltBuffer fuel

end rfEchoTx

namespace rfEchoRx

/-- The detector part of `adcBufCallback` in `rfEchoRx.c`:
`total_max > 15000 && saved_bin_number <= 23`. -/
def adcBufCallback (microVoltBuffer : List Nat) (fuel : Nat) :
    Option (DetState × List Effect) :=
  detectorCallback ADCBUFFERSIZE 15000 23 microVoltBuffer fuel

end rfEchoRx

/-! ## The single-pass detector of `adcBufContinuousSampling.c` -/

namespace dvt

/-- Locals of `adcBufCallback` in `adcBufContinuousSampling.c`, and the ghost
`log` of bin evaluations. -/
structure State where
  a : Nat
  b : Nat
  sum : Nat
  average : Nat
  max : Nat
  log : List BinRecord
deriving DecidableEq, Repr

/-- The declarations at the head of the added code. -/
def State.init : State :=
  { a := 0, b := 0, sum := 0, average := 0, max := 0, log := [] }

/-- Body of `while (a < (ADCBUFFERSIZE/50))`: the sample loop, then
`average = sum / 500`, the maximum test and `a++`.  This variant has no
`run_number` or `bin_number`; the ghost record carries run 0 and bin index `a`. -/
def binBody (ADCBUFFERSIZE : Nat) (microVoltBuffer : List Nat) (fuel : Nat)
    (s : State) : Option State :=
  match sampleLoop ADCBUFFERSIZE microVoltBuffer s.a fuel
      { b := s.b, sum := s.sum, reads := [] } with
  | none => none
  | some t =>
    let average := (t.sum / 500) % 2 ^ 32
    some { a := (s.a + 1) % 2 ^ 16
           b := t.b
           sum := t.sum
           average := average
           max := if average > s.max then average else s.max
           log := s.log ++ [{ run_number := 0, a := s.a, bin_number := s.a,
                              reads := t.reads, bin_average := average }] }

/-- The only loop over bins, `while (a < (ADCBUFFERSIZE/50))`. -/
def binLoop (ADCBUFFERSIZE : Nat) (microVoltBuffer : List Nat) (fuel : Nat)
    (s : State) : Option State :=
  whileLoop (fun s => decide (s.a < ADCBUFFERSIZE / 50))
    (binBody ADCBUFFERSIZE microVoltBuffer fuel) fuel s

/-- The decision step `if (max > threshold)` with its two pin writes. -/
def alarmStep (threshold max : Nat) : List Effect :=
  if max > threshold then
    [Effect.PIN_setOutputValue Pin.Board_DIO15 1]
  else
    [Effect.PIN_setOutputValue Pin.Board_DIO15 0]

/-- The detector with its constants as parameters. -/
def detectorCallback (ADCBUFFERSIZE threshold : Nat) (microVoltBuffer : List Nat)
    (fuel : Nat) : Option (State × List Effect) :=
  match binLoop ADCBUFFERSIZE microVoltBuffer fuel State.init with
  | none => none
  | some s => some (s, alarmStep threshold s.max)

/-- The detector part of `adcBufCallback` in `adcBufContinuousSampling.c`:
`max > 150000`. -/
def adcBufCallback (microVoltBuffer : List Nat) (fuel : Nat) :
    Option (State × List Effect) :=
  detectorCallback Engs86.ADCBUFFERSIZE 150000 microVoltBuffer fuel

end dvt

/-! ## Closed forms and observations used to state the results -/

/-- Sum of `abs(microVoltBuffer[i])` over the indices `i < n`. -/
def prefixSum (microVoltBuffer : List Nat) : Nat → Nat
  | 0 => 0
  | n + 1 => prefixSum microVoltBuffer n + absSample (microVoltBuffer.getD n 0)

/-- Exclusive upper bound of the sample loop of bin `a`. -/
def binEnd (N a : Nat) : Nat := N / 10 + 50 * a

/-- The records `n` consecutive bin evaluations leave in the log, starting at
bin `a` with sample index `b` and continuous bin index `bn`. -/
def binRecords (N : Nat) (buf : List Nat) (run : Nat) : Nat → Nat → Nat → Nat → List BinRecord
  | 0, _, _, _ => []
  | n + 1, a, b, bn =>
    { run_number := run, a := a, bin_number := bn,
      reads := List.range' b (binEnd N a - b),
      bin_average := prefixSum buf (binEnd N a) % 2 ^ 64 / 500 % 2 ^ 32 }
      :: binRecords N buf run n (a + 1) (binEnd N a) (bn + 1)

/-- One step of the running maximum: `if (bin_average > run_max)`. -/
def track (p : Nat × Nat) (r : BinRecord) : Nat × Nat :=
  if r.bin_average > p.1 then (r.bin_average, r.bin_number) else p

/-- The record bin `s.a` leaves in the log when entered in state `s`. -/
def binRecordOf (N : Nat) (buf : List Nat) (s : DetState) : BinRecord :=
  { run_number := s.run_number, a := s.a, bin_number := s.bin_number,
    reads := List.range' s.b (binEnd N s.a - s.b),
    bin_average := prefixSum buf (binEnd N s.a) % 2 ^ 64 / 500 % 2 ^ 32 }

/-- The state one iteration of the bin loop leaves, in closed form. -/
def binNext (N : Nat) (buf : List Nat) (s : DetState) : DetState :=
  { a := (s.a + 1) % 2 ^ 16
    b := binEnd N s.a
    sum := prefixSum buf (binEnd N s.a) % 2 ^ 64
    bin_average := prefixSum buf (binEnd N s.a) % 2 ^ 64 / 500 % 2 ^ 32
    run_number := s.run_number
    run_max := (track (s.run_max, s.saved_bin_number) (binRecordOf N buf s)).1
    bin_number := (s.bin_number + 1) % 2 ^ 16
    saved_bin_number := (track (s.run_max, s.saved_bin_number) (binRecordOf N buf s)).2
    total_max := s.total_max
    log := s.log ++ [binRecordOf N buf s] }

/-- The records `n` consecutive passes leave in the log, starting with pass
`run` at continuous bin index `bn`. -/
def passRecords (N : Nat) (buf : List Nat) : Nat → Nat → Nat → List BinRecord
  | 0, _, _ => []
  | n + 1, run, bn =>
    binRecords N buf run (N / 50) 0 0 bn ++ passRecords N buf n (run + 1) (bn + N / 50)

/-- One step of the running maximum of the single-pass detector:
`if (average > max)`. -/
def trackMax (m : Nat) (r : BinRecord) : Nat :=
  if r.bin_average > m then r.bin_average else m

/-- The state one iteration of the single-pass bin loop leaves, in closed form. -/
def dvt.binNext (N : Nat) (buf : List Nat) (s : dvt.State) : dvt.State :=
  { a := (s.a + 1) % 2 ^ 16
    b := binEnd N s.a
    sum := prefixSum buf (binEnd N s.a) % 2 ^ 64
    average := prefixSum buf (binEnd N s.a) % 2 ^ 64 / 500 % 2 ^ 32
    max := trackMax s.max
      { run_number := 0, a := s.a, bin_number := s.a,
        reads := List.range' s.b (binEnd N s.a - s.b),
        bin_average := prefixSum buf (binEnd N s.a) % 2 ^ 64 / 500 % 2 ^ 32 }
    log := s.log ++ [{ run_number := 0, a := s.a, bin_number := s.a,
                       reads := List.range' s.b (binEnd N s.a - s.b),
                       bin_average := prefixSum buf (binEnd N s.a) % 2 ^ 64 / 500 % 2 ^ 32 }] }

/-- The value the code stores in `bin_average` for bin `a` when
`ADCBUFFERSIZE = 500`: the running sum over the indices below `50 * (a + 1)`,
divided by 500. -/
def binAverage (buf : List Nat) (a : Nat) : Nat :=
  prefixSum buf (50 * (a + 1)) % 2 ^ 64 / 500 % 2 ^ 32

/-- The log of the four-pass detector at `ADCBUFFERSIZE = 500`. -/
def fourPassLog (buf : List Nat) : List BinRecord :=
  (List.range 40).map fun j =>
    { run_number := j / 10, a := j % 10, bin_number := j,
      reads := List.range' (50 * (j % 10)) 50, bin_average := binAverage buf (j % 10) }

/-- The log of the single-pass detector at `ADCBUFFERSIZE = 500`. -/
def onePassLog (buf : List Nat) : List BinRecord :=
  (List.range 10).map fun j =>
    { run_number := 0, a := j, bin_number := j,
      reads := List.range' (50 * j) 50, bin_average := binAverage buf j }

/-- The buffer of the single-bin scenario: samples `50k .. 50k+49` equal `V`,
every other of the 500 samples is 0. -/
def oneBinBuffer (k V : Nat) : List Nat :=
  (List.range 500).map fun i => if 50 * k ≤ i ∧ i < 50 * k + 50 then V else 0

/-- The bin average as the per-bin reading has it: the sum of
`abs(microVoltBuffer[i])` over the bin's own indices `50k .. 50k+49`, divided
by 500. -/
def ownBinAverage (buf : List Nat) (k : Nat) : Nat :=
  ((List.range' (50 * k) 50).map fun i => absSample (buf.getD i 0)).sum / 500

/-- The indices read during pass `p`, in the order they were read. -/
def passReads (log : List BinRecord) (p : Nat) : List Nat :=
  (log.filter fun r => r.run_number = p).foldr (fun r acc => r.reads ++ acc) []

/-! ## Constants the driver headers define -/

/-- Values that the SDK headers define and the sources only name: the radio
event bits, the command status codes, the PWM full-scale duty and the ADC
success code.  They are parameters of the model. -/
structure SdkConsts where
  RF_EventCmdDone : Nat
  RF_EventLastCmdDone : Nat
  RF_EventRxEntryDone : Nat
  RF_EventCmdCancelled : Nat
  RF_EventCmdAborted : Nat
  RF_EventCmdStopped : Nat
  PROP_DONE_OK : Nat
  PROP_DONE_RXTIMEOUT : Nat
  PROP_DONE_BREAK : Nat
  PROP_DONE_ENDED : Nat
  PROP_DONE_STOPPED : Nat
  PROP_DONE_ABORT : Nat
  PROP_DONE_RXERR : Nat
  PROP_ERROR_PAR : Nat
  PROP_ERROR_RXBUF : Nat
  PROP_ERROR_RXFULL : Nat
  PROP_ERROR_NO_SETUP : Nat
  PROP_ERROR_NO_FS : Nat
  PROP_ERROR_RXOVF : Nat
  PROP_ERROR_TXUNF : Nat
  PWM_DUTY_FRACTION_MAX : Nat
  ADCBuf_STATUS_SUCCESS : Int

/-- A sample instance with pairwise distinct case labels, following the
SimpleLink SDK headers (`RF.h`, `rf_prop_mailbox.h`, `PWM.h`, `ADCBuf.h`).  It is
used for concrete inputs only; the general results hold for every instance. -/
def simplelink : SdkConsts :=
  { RF_EventCmdDone := 1
    RF_EventLastCmdDone := 2
    RF_EventRxEntryDone := 8388608
    RF_EventCmdCancelled := 1152921504606846976
    RF_EventCmdAborted := 2305843009213693952
    RF_EventCmdStopped := 4611686018427387904
    PROP_DONE_OK := 13312
    PROP_DONE_RXTIMEOUT := 13313
    PROP_DONE_BREAK := 13314
    PROP_DONE_ENDED := 13315
    PROP_DONE_STOPPED := 13316
    PROP_DONE_ABORT := 13317
    PROP_DONE_RXERR := 13318
    PROP_ERROR_PAR := 14336
    PROP_ERROR_RXBUF := 14337
    PROP_ERROR_RXFULL := 14338
    PROP_ERROR_NO_SETUP := 14339
    PROP_ERROR_NO_FS := 14340
    PROP_ERROR_RXOVF := 14341
    PROP_ERROR_TXUNF := 14342
    PWM_DUTY_FRACTION_MAX := 4294967295
    ADCBuf_STATUS_SUCCESS := 0 }

/-- The packet length `PAYLOAD_LENGTH` of both nodes. -/
def PAYLOAD_LENGTH : Nat := 30

/-! ## Float constants

The two delay macros are `float` products cast to `uint32_t`.  They are
evaluated in binary32 with round to nearest, ties to even: a positive value
`num / den` is rounded at the scale `2^k` at which its significand has 24 bits. -/

/-- Round `num / den` to the nearest natural number, ties to even. -/
def roundNearestEven (num den : Nat) : Nat :=
  if 2 * (num % den) > den ∨ (2 * (num % den) = den ∧ (num / den) % 2 = 1) then num / den + 1
  else num / den

/-- The 24-bit significand of the binary32 value nearest to `num / den`, at
scale `2^k`: the value is `binary32 num den k / 2^k`. -/
def binary32 (num den k : Nat) : Nat := roundNearestEven (num * 2 ^ k) den

/-- Truncation of the binary32 value `m / 2^k` to `uint32_t`. -/
def floatToUInt32 (m k : Nat) : Nat := m / 2 ^ k % 2 ^ 32

/-! ## The foreground loops -/

/-- Start trigger types of a radio command. -/
inductive TriggerType
  | TRIG_NOW
  | TRIG_ABSTIME
  | TRIG_REL_PREVEND
deriving DecidableEq, Repr

/-- The radio operation handed to `RF_runCmd`, with the fields of
`RF_cmdPropTx` the loops set. -/
inductive RadioOp
  | RF_cmdPropTx (triggerType : TriggerType) (startTime : Nat) (pPkt : List Nat)
  | RF_cmdPropRx
deriving DecidableEq, Repr

/-- Driver calls made by the foreground loops, in program order. -/
inductive Call
  | delay_cycles (n : Nat)
  | RF_getCurrentTime
  | PWM_setDuty (duty : Nat)
  | RF_runCmd (op : RadioOp)
  | PINCC26XX_setMux (ioid : Nat)
  | ADCBuf_convert
deriving DecidableEq, Repr

/-- Outcome of one pass through a `while(1)` body: the loop goes on in state
`s`, or it reached a `while(1);` and the node halts.  Both carry the calls made. -/
inductive Step (σ : Type)
  | next (s : σ) (trace : List Call)
  | halt (trace : List Call)
deriving DecidableEq, Repr

/-- The calls made during a step. -/
def Step.trace {σ : Type} : Step σ → List Call
  | Step.next _ t => t
  | Step.halt t => t

/-- Whether the step reached a `while(1);`. -/
def Step.halted {σ : Type} : Step σ → Bool
  | Step.next _ _ => false
  | Step.halt _ => true

/-- The body of `while(1)` run over a script of per-iteration inputs, as long
as no iteration halts: the calls made and the final state (`none` once halted). -/
def runLoop {ι σ : Type} (body : ι → σ → Step σ) : List ι → σ → List Call × Option σ
  | [], s => ([], some s)
  | i :: rest, s =>
    match body i s with
    | Step.halt t => (t, none)
    | Step.next s1 t => (t ++ (runLoop body rest s1).1, (runLoop body rest s1).2)

/-- The computation
`duty = (uint32_t) (((uint64_t) PWM_DUTY_FRACTION_MAX * 50) / 100)`. -/
def burstDuty (PWM_DUTY_FRACTION_MAX : Nat) : Nat :=
  (PWM_DUTY_FRACTION_MAX * 50 % 2 ^ 64 / 100) % 2 ^ 32

/-- The burst: `PWM_setDuty(pwm2, duty); _delay_cycles(47300-1);
PWM_setDuty(pwm2, 0);`. -/
def burst (c : SdkConsts) : List Call :=
  [Call.PWM_setDuty (burstDuty c.PWM_DUTY_FRACTION_MAX), Call.delay_cycles 47299,
   Call.PWM_setDuty 0]

/-- The first `switch(terminationReason)`: the four cases that `break`. -/
def terminationRecognised (c : SdkConsts) (terminationReason : Nat) : Bool :=
  decide (terminationReason = c.RF_EventLastCmdDone ∨
    terminationReason = c.RF_EventCmdCancelled ∨
    terminationReason = c.RF_EventCmdAborted ∨
    terminationReason = c.RF_EventCmdStopped)

namespace rfEchoTx

/-- The offset `(uint32_t)(4000000*0.0001f)`: the literal `0.0001f` has
significand `binary32 1 10000 37` at scale `2^37`, the product is rounded at
scale `2^15`. -/
def txOffset : Nat :=
  floatToUInt32 (binary32 (4000000 * binary32 1 10000 37) (2 ^ 37) 15) 15

/-- Loop-carried globals of the transmitter loop. -/
structure LoopState where
  seqNumber : Nat
  txPacket : List Nat
deriving DecidableEq, Repr

/-- The statics before the first iteration: `seqNumber` and `txPacket` are
zero-initialised. -/
def LoopState.init : LoopState :=
  { seqNumber := 0, txPacket := List.replicate PAYLOAD_LENGTH 0 }

/-- What the environment returns during one iteration: `RF_getCurrentTime()`,
the successive `rand()` results, the termination reason of `RF_runCmd`,
`RF_cmdPropTx.status` and the result of `ADCBuf_convert`. -/
structure Inputs where
  curtime : Nat
  rand : List Nat
  terminationReason : Nat
  cmdStatus : Nat
  convertStatus : Int
deriving DecidableEq, Repr

/-- Packet construction: `txPacket[0] = (uint8_t)(seqNumber >> 8);
txPacket[1] = (uint8_t)(seqNumber++);` then
`for (i = 2; i < PAYLOAD_LENGTH; i++) txPacket[i] = rand();`. -/
def buildPacket (rand : List Nat) (s : LoopState) : LoopState :=
  { seqNumber := (s.seqNumber + 1) % 2 ^ 16
    txPacket :=
      (List.range' 2 (PAYLOAD_LENGTH - 2)).foldl
        (fun pkt i => pkt.set i (rand.getD (i - 2) 0 % 256))
        (((s.txPacket.set 0 ((s.seqNumber >>> 8) % 256)).set 1 (s.seqNumber % 256))) }

/-- The second `switch(cmdStatus)` of the transmitter: the cases that `break`. -/
def statusListed (c : SdkConsts) (cmdStatus : Nat) : Bool :=
  decide (cmdStatus = c.PROP_DONE_OK ∨ cmdStatus = c.PROP_DONE_STOPPED ∨
    cmdStatus = c.PROP_DONE_ABORT ∨ cmdStatus = c.PROP_ERROR_PAR ∨
    cmdStatus = c.PROP_ERROR_NO_SETUP ∨ cmdStatus = c.PROP_ERROR_NO_FS ∨
    cmdStatus = c.PROP_ERROR_TXUNF)

/-- The calls of an iteration up to the return of `RF_runCmd` and the two
`PINCC26XX_setMux` calls that follow it. -/
def prefixCalls (c : SdkConsts) (inp : Inputs) (s1 : LoopState) : List Call :=
  [Call.delay_cycles 47299999, Call.RF_getCurrentTime]
    ++ burst c
    ++ [Call.RF_runCmd (RadioOp.RF_cmdPropTx TriggerType.TRIG_ABSTIME
          ((inp.curtime + txOffset) % 2 ^ 32) s1.txPacket),
        Call.PINCC26XX_setMux 24, Call.PINCC26XX_setMux 26]

/-- One pass through the body of `while(1)` in `mainThread` of `rfEchoTx.c`;
`adcBufOpen` tells whether `adcBuf` is non-null. -/
def iteration (c : SdkConsts) (adcBufOpen : Bool) (inp : Inputs) (s : LoopState) :
    Step LoopState :=
  let s1 := buildPacket inp.rand s
  if ¬ terminationRecognised c inp.terminationReason then
    Step.halt (prefixCalls c inp s1)
  else if ¬ statusListed c inp.cmdStatus then
    Step.halt (prefixCalls c inp s1)
  else if ¬ adcBufOpen then
    Step.halt (prefixCalls c inp s1)
  else if inp.convertStatus ≠ c.ADCBuf_STATUS_SUCCESS then
    Step.halt (prefixCalls c inp s1 ++ [Call.ADCBuf_convert])
  else
    Step.next s1 (prefixCalls c inp s1 ++ [Call.ADCBuf_convert])

/-- The transmitter loop over a script of inputs. -/
def mainLoop (c : SdkConsts) (adcBufOpen : Bool) (script : List Inputs) :
    List Call × Option LoopState :=
  runLoop (iteration c adcBufOpen) script LoopState.init

end rfEchoTx

namespace rfEchoRx

/-- The macro `TX_DELAY`, `(uint32_t)(4000000*0.1f)`: the literal `0.1f` has
significand `binary32 1 10 27` at scale `2^27`, the product is rounded at
scale `2^5`. -/
def TX_DELAY : Nat :=
  floatToUInt32 (binary32 (4000000 * binary32 1 10 27) (2 ^ 27) 5) 5

/-- What the environment returns during one iteration: the termination reason
of the receive `RF_runCmd`, `RF_cmdPropRx.status`, `rxStatistics.timeStamp`,
the result of `ADCBuf_convert`, and the contents of `txPacket` when the echo
is run. -/
structure Inputs where
  terminationReason : Nat
  cmdStatus : Nat
  timeStamp : Nat
  convertStatus : Int
  txPacket : List Nat
deriving DecidableEq, Repr

/-- The cases of the second `switch(cmdStatus)` of the receiver other than
`PROP_DONE_OK` that `break`. -/
def statusListed (c : SdkConsts) (cmdStatus : Nat) : Bool :=
  decide (cmdStatus = c.PROP_DONE_RXERR ∨ cmdStatus = c.PROP_DONE_RXTIMEOUT ∨
    cmdStatus = c.PROP_DONE_BREAK ∨ cmdStatus = c.PROP_DONE_ENDED ∨
    cmdStatus = c.PROP_DONE_STOPPED ∨ cmdStatus = c.PROP_DONE_ABORT ∨
    cmdStatus = c.PROP_ERROR_RXBUF ∨ cmdStatus = c.PROP_ERROR_RXFULL ∨
    cmdStatus = c.PROP_ERROR_PAR ∨ cmdStatus = c.PROP_ERROR_NO_SETUP ∨
    cmdStatus = c.PROP_ERROR_NO_FS ∨ cmdStatus = c.PROP_ERROR_RXOVF)

/-- The calls of an iteration up to the return of the receive `RF_runCmd` and
the two `PINCC26XX_setMux` calls that follow it. -/
def prefixCalls : List Call :=
  [Call.RF_runCmd RadioOp.RF_cmdPropRx, Call.PINCC26XX_setMux 24, Call.PINCC26XX_setMux 26]

/-- The code after the status switch: the echo transmit with
`triggerType = TRIG_ABSTIME` and
`startTime = rxStatistics.timeStamp + TX_DELAY`, then the burst. -/
def echoAndBurst (c : SdkConsts) (inp : Inputs) : List Call :=
  [Call.RF_runCmd (RadioOp.RF_cmdPropTx TriggerType.TRIG_ABSTIME
      ((inp.timeStamp + TX_DELAY) % 2 ^ 32) inp.txPacket)]
    ++ burst c

/-- One pass through the body of `while(1)` in `mainThread` of `rfEchoRx.c`;
`adcBufOpen` tells whether `adcBuf` is non-null.  The case `PROP_DONE_OK`
starts the conversion and falls through to the `break` of `PROP_DONE_RXERR`. -/
def iteration (c : SdkConsts) (adcBufOpen : Bool) (inp : Inputs) (_s : Unit) : Step Unit :=
  if ¬ terminationRecognised c inp.terminationReason then
    Step.halt prefixCalls
  else if inp.cmdStatus = c.PROP_DONE_OK then
    if ¬ adcBufOpen then
      Step.halt prefixCalls
    else if inp.convertStatus ≠ c.ADCBuf_STATUS_SUCCESS then
      Step.halt (prefixCalls ++ [Call.ADCBuf_convert])
    else
      Step.next () (prefixCalls ++ [Call.ADCBuf_convert] ++ echoAndBurst c inp)
  else if statusListed c inp.cmdStatus then
    Step.next () (prefixCalls ++ echoAndBurst c inp)
  else
    Step.halt prefixCalls

/-- The receiver loop over a script of inputs. -/
def mainLoop (c : SdkConsts) (adcBufOpen : Bool) (script : List Inputs) :
    List Call × Option Unit :=
  runLoop (iteration c adcBufOpen) script ()

end rfEchoRx

namespace pwmled2

/-- One pass through the body of `while (1)` in `mainThread` of `pwmled2.c`:
the burst, then `_delay_cycles(47300000-1)`. -/
def iteration (c : SdkConsts) (_inp : Unit) (_s : Unit) : Step Unit :=
  Step.next () (burst c ++ [Call.delay_cycles 47299999])

end pwmled2

/-- The `PWM_setDuty` calls of a trace. -/
def pwmCalls (trace : List Call) : List Call :=
  trace.filter fun call =>
    match call with
    | Call.PWM_setDuty _ => true
    | _ => false

/-- Whether sampling is started in a trace. -/
def startsSampling (trace : List Call) : Bool := trace.contains Call.ADCBuf_convert

/-- The calls that follow the first `RF_runCmd` of a trace. -/
def afterRunCmd : List Call → List Call
  | [] => []
  | Call.RF_runCmd _ :: rest => rest
  | _ :: rest => afterRunCmd rest

/-- The PWM duty in force after a trace, starting from `duty`. -/
def dutyAfter (duty : Nat) : List Call → Nat
  | [] => duty
  | Call.PWM_setDuty v :: rest => dutyAfter v rest
  | _ :: rest => dutyAfter duty rest

/-- Starting from `duty`, every `RF_runCmd` of the trace is made at duty 0 and
every nonzero `PWM_setDuty` is made at duty 0. -/
def radioQuiet (duty : Nat) : List Call → Bool
  | [] => true
  | Call.PWM_setDuty v :: rest => (decide (v = 0) || decide (duty = 0)) && radioQuiet v rest
  | Call.RF_runCmd _ :: rest => decide (duty = 0) && radioQuiet duty rest
  | _ :: rest => radioQuiet duty rest

/-! ## The radio callbacks -/

/-- Output levels of the three pins. -/
structure PinState where
  Board_DIO15 : Nat
  Board_PIN_LED1 : Nat
  Board_PIN_LED2 : Nat
deriving DecidableEq, Repr

/-- The call `PIN_getOutputValue(pin)`. -/
def PinState.get (p : PinState) : Pin → Nat
  | Pin.Board_DIO15 => p.Board_DIO15
  | Pin.Board_PIN_LED1 => p.Board_PIN_LED1
  | Pin.Board_PIN_LED2 => p.Board_PIN_LED2

/-- The effect of `PIN_setOutputValue(pinHandle, pin, v)` on the pins. -/
def PinState.set (p : PinState) : Pin → Nat → PinState
  | Pin.Board_DIO15, v => { p with Board_DIO15 := v }
  | Pin.Board_PIN_LED1, v => { p with Board_PIN_LED1 := v }
  | Pin.Board_PIN_LED2, v => { p with Board_PIN_LED2 := v }

/-- The pins after one driver call.  `ADCBuf_convertCancel` is a call into the
ADC driver, which is handed no pin, and it leaves the pins as they are. -/
def applyEffect (p : PinState) : Effect → PinState
  | Effect.PIN_setOutputValue pin v => p.set pin v
  | Effect.ADCBuf_convertCancel => p

/-- The pins after a sequence of driver calls. -/
def applyEffects (p : PinState) (effects : List Effect) : PinState :=
  effects.foldl applyEffect p

/-- The C operator `!` on a pin level. -/
def lnot (v : Nat) : Nat := if v = 0 then 1 else 0

/-- The call `memcpy(dst, src, n)` on byte arrays, for `n` up to the size of
`dst`.  A C call with `n` above the size of the destination array writes past
it; this function then returns a list longer than `dst`, which is not what the
program does, and nothing is stated below about such a call. -/
def memcpy (dst src : List Nat) (n : Nat) : List Nat :=
  (List.range n).map (fun i => src.getD i 0) ++ dst.drop n

/-- The call `memcmp(a, b, n)`: 0 when the first `n` bytes agree, else the
difference of the first pair of bytes that differ. -/
def memcmp (a b : List Nat) (n : Nat) : Int :=
  match (List.range n).find? (fun i => decide (a.getD i 0 ≠ b.getD i 0)) with
  | none => 0
  | some i => Int.ofNat (a.getD i 0) - Int.ofNat (b.getD i 0)

/-- Conversion of an `int` to `int16_t`. -/
def toInt16 (x : Int) : Int := (x + 32768) % 65536 - 32768

/-- Whether a bit of the event mask is set: the C test `e & bit`. -/
def eventSet (e bit : Nat) : Bool := decide (e &&& bit ≠ 0)

namespace rfEchoTx

/-- Globals the transmitter's `echoCallback` reads and writes. -/
structure CallbackState where
  pins : PinState
  bRxSuccess : Bool
  txPacket : List Nat
  rxPacket : List Nat
  packetLength : Nat
deriving DecidableEq, Repr

/-- The LED writes of the branches "toggle LED1, clear LED2". -/
def toggleLed1 (p : PinState) : List Effect :=
  [Effect.PIN_setOutputValue Pin.Board_PIN_LED1 (lnot (p.get Pin.Board_PIN_LED1)),
   Effect.PIN_setOutputValue Pin.Board_PIN_LED2 0]

/-- The LED writes of the branches "set both LEDs". -/
def bothLeds : List Effect :=
  [Effect.PIN_setOutputValue Pin.Board_PIN_LED1 1,
   Effect.PIN_setOutputValue Pin.Board_PIN_LED2 1]

/-- The LED writes of the time-out branch "set LED2, clear LED1". -/
def timeoutLeds : List Effect :=
  [Effect.PIN_setOutputValue Pin.Board_PIN_LED1 0,
   Effect.PIN_setOutputValue Pin.Board_PIN_LED2 1]

/-- The function `echoCallback` of `rfEchoTx.c` for event mask `e`; `data` is
the data field of the current queue entry (length byte, payload, status byte).
Returns the globals afterwards and the pin writes made.  `txPacket` has
`PAYLOAD_LENGTH` = 30 bytes and `rxPacket` 31; the copy and the comparison stay
inside them for a length byte up to 30, the largest that the receive command
admits (`RF_cmdPropRx.maxPktLen = PAYLOAD_LENGTH`).  For a larger length byte
the C code writes past `rxPacket` and reads past `txPacket`, and the `rxPacket`
and comparison computed here are not those of the program. -/
def echoCallback (c : SdkConsts) (e : Nat) (data : List Nat) (s : CallbackState) :
    CallbackState × List Effect :=
  if eventSet e c.RF_EventCmdDone ∧ ¬ eventSet e c.RF_EventLastCmdDone then
    ({ s with pins := applyEffects s.pins (toggleLed1 s.pins) }, toggleLed1 s.pins)
  else if eventSet e c.RF_EventRxEntryDone then
    let packetLength := data.headD 0
    let rxPacket := memcpy s.rxPacket data.tail (packetLength + 1)
    let status := toInt16 (memcmp s.txPacket rxPacket packetLength)
    if status = 0 then
      ({ s with pins := applyEffects s.pins (toggleLed1 s.pins), bRxSuccess := true,
                rxPacket := rxPacket, packetLength := packetLength }, toggleLed1 s.pins)
    else
      ({ s with pins := applyEffects s.pins bothLeds, bRxSuccess := true,
                rxPacket := rxPacket, packetLength := packetLength }, bothLeds)
  else if eventSet e c.RF_EventLastCmdDone ∧ ¬ eventSet e c.RF_EventRxEntryDone then
    if s.bRxSuccess = true then
      ({ s with bRxSuccess := false }, [])
    else
      ({ s with pins := applyEffects s.pins timeoutLeds }, timeoutLeds)
  else
    ({ s with pins := applyEffects s.pins bothLeds }, bothLeds)

end rfEchoTx

namespace rfEchoRx

/-- Globals the receiver's `echoCallback` reads and writes. -/
structure CallbackState where
  pins : PinState
  txPacket : List Nat
  packetLength : Nat
deriving DecidableEq, Repr

/-- The LED writes "clear LED1, toggle LED2". -/
def toggleLed2 (p : PinState) : List Effect :=
  [Effect.PIN_setOutputValue Pin.Board_PIN_LED1 0,
   Effect.PIN_setOutputValue Pin.Board_PIN_LED2 (lnot (p.get Pin.Board_PIN_LED2))]

/-- The LED writes of the last branch "set LED1, clear LED2". -/
def errorLeds : List Effect :=
  [Effect.PIN_setOutputValue Pin.Board_PIN_LED1 1,
   Effect.PIN_setOutputValue Pin.Board_PIN_LED2 0]

/-- The function `echoCallback` of `rfEchoRx.c` for event mask `e`; `data` is
the data field of the current queue entry.  Returns the globals afterwards and
the pin writes made. -/
def echoCallback (c : SdkConsts) (e : Nat) (data : List Nat) (s : CallbackState) :
    CallbackState × List Effect :=
  if eventSet e c.RF_EventRxEntryDone then
    ({ pins := applyEffects s.pins (toggleLed2 s.pins)
       txPacket := memcpy s.txPacket data.tail (data.headD 0)
       packetLength := data.headD 0 }, toggleLed2 s.pins)
  else if eventSet e c.RF_EventLastCmdDone then
    ({ s with pins := applyEffects s.pins (toggleLed2 s.pins) }, toggleLed2 s.pins)
  else
    ({ s with pins := applyEffects s.pins errorLeds }, errorLeds)

end rfEchoRx

/-! ## Start-up of the three programs -/

/-- The capabilities `mainThread` opens. -/
inductive Capability
  | PIN
  | PWM
  | ADCBuf
  | UART
  | RF
deriving DecidableEq, Repr

/-- What the open calls return: `true` for a non-null handle.
`defineQueueFails` is the result of `RFQueue_defineQueue`, `convertFails` that of
the `ADCBuf_convert` in the start-up of `adcBufContinuousSampling.c`. -/
structure OpenResults where
  pinHandle : Bool
  pwm2 : Bool
  adcBuf : Bool
  uart : Bool
  rfHandle : Bool
  defineQueueFails : Bool
  convertFails : Bool
deriving DecidableEq, Repr

/-- Start-up events: an open call, and a driver call that is handed the handle
of a capability (`handleValid = false` when that handle is null). -/
inductive SetupCall
  | opened (cap : Capability)
  | used (cap : Capability) (handleValid : Bool)
deriving DecidableEq, Repr

/-- How the start-up ends: in a `while(1);` or by entering the main loop. -/
inductive SetupEnd
  | halted
  | running
deriving DecidableEq, Repr

namespace rfEchoTx

/-- The start-up part of `mainThread` in `rfEchoTx.c`, up to `while(1)`:
`PWM_open` (checked), `PWM_start`, `UART_open`, `ADCBuf_open`, `PIN_open`
(checked), `RFQueue_defineQueue`, `RF_open`, `RF_postCmd`. -/
def setup (r : OpenResults) : List SetupCall × SetupEnd :=
  if ¬ r.pwm2 then
    ([SetupCall.opened Capability.PWM], SetupEnd.halted)
  else if ¬ r.pinHandle then
    ([SetupCall.opened Capability.PWM, SetupCall.used Capability.PWM r.pwm2,
      SetupCall.opened Capability.UART, SetupCall.opened Capability.ADCBuf,
      SetupCall.opened Capability.PIN], SetupEnd.halted)
  else if r.defineQueueFails then
    ([SetupCall.opened Capability.PWM, SetupCall.used Capability.PWM r.pwm2,
      SetupCall.opened Capability.UART, SetupCall.opened Capability.ADCBuf,
      SetupCall.opened Capability.PIN, SetupCall.used Capability.PIN r.pinHandle,
      SetupCall.used Capability.PIN r.pinHandle], SetupEnd.halted)
  else
    ([SetupCall.opened Capability.PWM, SetupCall.used Capability.PWM r.pwm2,
      SetupCall.opened Capability.UART, SetupCall.opened Capability.ADCBuf,
      SetupCall.opened Capability.PIN, SetupCall.opened Capability.RF,
      SetupCall.used Capability.RF r.rfHandle], SetupEnd.running)

/-- One callback invocation after another: the event masks with their queue
entries, in order; returns the globals afterwards and the pin writes of each
invocation. -/
def echoCallbacks (c : SdkConsts) :
    List (Nat × List Nat) → CallbackState → CallbackState × List (List Effect)
  | [], s => (s, [])
  | (e, data) :: rest, s =>
    ((echoCallbacks c rest (echoCallback c e data s).1).1,
      (echoCallback c e data s).2 :: (echoCallbacks c rest (echoCallback c e data s).1).2)

end rfEchoTx

namespace rfEchoRx

/-- The start-up part of `mainThread` in `rfEchoRx.c`, up to `while(1)`:
`PIN_open` (checked), `UART_open`, `ADCBuf_open`, `PWM_open` (checked),
`PWM_start`, `RFQueue_defineQueue`, `RF_open`, `RF_postCmd`. -/
def setup (r : OpenResults) : List SetupCall × SetupEnd :=
  if ¬ r.pinHandle then
    ([SetupCall.opened Capability.PIN], SetupEnd.halted)
  else if ¬ r.pwm2 then
    ([SetupCall.opened Capability.PIN, SetupCall.opened Capability.UART,
      SetupCall.opened Capability.ADCBuf, SetupCall.opened Capability.PWM],
      SetupEnd.halted)
  else if r.defineQueueFails then
    ([SetupCall.opened Capability.PIN, SetupCall.opened Capability.UART,
      SetupCall.opened Capability.ADCBuf, SetupCall.opened Capability.PWM,
      SetupCall.used Capability.PWM r.pwm2, SetupCall.used Capability.PIN r.pinHandle,
      SetupCall.used Capability.PIN r.pinHandle], SetupEnd.halted)
  else
    ([SetupCall.opened Capability.PIN, SetupCall.opened Capability.UART,
      SetupCall.opened Capability.ADCBuf, SetupCall.opened Capability.PWM,
      SetupCall.used Capability.PWM r.pwm2, SetupCall.opened Capability.RF,
      SetupCall.used Capability.RF r.rfHandle], SetupEnd.running)

end rfEchoRx

namespace dvt

/-- The function `mainThread` of `adcBufContinuousSampling.c` up to its sleep
loop: `PIN_open` (checked), `UART_open`, `ADCBuf_open` (checked),
`ADCBuf_convert` (checked). -/
def setup (r : OpenResults) : List SetupCall × SetupEnd :=
  if ¬ r.pinHandle then
    ([SetupCall.opened Capability.PIN], SetupEnd.halted)
  else if ¬ r.adcBuf then
    ([SetupCall.opened Capability.PIN, SetupCall.opened Capability.UART,
      SetupCall.opened Capability.ADCBuf], SetupEnd.halted)
  else if r.convertFails then
    ([SetupCall.opened Capability.PIN, SetupCall.opened Capability.UART,
      SetupCall.opened Capability.ADCBuf, SetupCall.used Capability.ADCBuf r.adcBuf],
      SetupEnd.halted)
  else
    ([SetupCall.opened Capability.PIN, SetupCall.opened Capability.UART,
      SetupCall.opened Capability.ADCBuf, SetupCall.used Capability.ADCBuf r.adcBuf],
      SetupEnd.running)

end dvt

/-- The capability handles `adcBufCallback` hands to driver calls while the
program runs: `pinHandle` to `PIN_setOutputValue` and `uart` to `UART_write`. -/
def adcBufCallbackUses (r : OpenResults) : List SetupCall :=
  [SetupCall.used Capability.PIN r.pinHandle, SetupCall.used Capability.UART r.uart]

/-! ## The telemetry step of `adcBufCallback` -/

/-- The buffer size `UARTBUFFERSIZE` of all three files. -/
def UARTBUFFERSIZE : Nat := 500

/-- Number of characters `%u` prints for a value (at most `fuel + 1` digits). -/
def decimalLength : Nat → Nat → Nat
  | 0, _ => 1
  | fuel + 1, n => if n < 10 then 1 else 1 + decimalLength fuel (n / 10)

/-- Locals of the telemetry step, and the ghost list of index ranges
(first, last) of `uartTxBuffer` that were stored to. -/
structure UartState where
  i : Nat
  uartTxBufferOffset : Nat
  stores : List (Nat × Nat)
deriving DecidableEq, Repr

/-- The call `snprintf(uartTxBuffer + offset, size, ...)` whose full output
has `len` characters: it stores `min len (size - 1)` characters and a
terminating zero when `size > 0`, and returns `len`. -/
def snprintfStores (offset size len : Nat) : List (Nat × Nat) :=
  if size = 0 then [] else [(offset, offset + min len (size - 1))]

/-- Body of `for (i = 0; i < ADCBUFFERSIZE && uartTxBufferOffset <
UARTBUFFERSIZE; i++)`: one `snprintf` of `"%u,"` and `i++`. -/
def uartBody (microVoltBuffer : List Nat) (u : UartState) : Option UartState :=
  some { i := u.i + 1
         uartTxBufferOffset :=
           u.uartTxBufferOffset + (decimalLength 9 (microVoltBuffer.getD u.i 0 % 2 ^ 32) + 1)
         stores := u.stores ++
           snprintfStores u.uartTxBufferOffset (UARTBUFFERSIZE - u.uartTxBufferOffset)
             (decimalLength 9 (microVoltBuffer.getD u.i 0 % 2 ^ 32) + 1) }

/-- The telemetry step of `adcBufCallback` (the same text in all three files):
the header with `buffersCompletedCounter`, the microvolt values while there is
room, the final newline.  Returns the byte count handed to `UART_write` and
the stores made into `uartTxBuffer`. -/
def uartTelemetry (microVoltBuffer : List Nat) (buffersCompletedCounter fuel : Nat) :
    Option (Nat × List (Nat × Nat)) :=
  let headerLen := 19 + decimalLength 9 (buffersCompletedCounter % 2 ^ 32)
  let u0 : UartState :=
    { i := 0, uartTxBufferOffset := headerLen,
      stores := snprintfStores 0 UARTBUFFERSIZE headerLen }
  let afterValues : Option UartState :=
    if u0.uartTxBufferOffset < UARTBUFFERSIZE then
      whileLoop
        (fun u => decide (u.i < ADCBUFFERSIZE ∧ u.uartTxBufferOffset < UARTBUFFERSIZE))
        (uartBody microVoltBuffer) fuel
        { i := 0, uartTxBufferOffset := u0.uartTxBufferOffset + 14,
          stores := u0.stores ++
            snprintfStores u0.uartTxBufferOffset (UARTBUFFERSIZE - u0.uartTxBufferOffset) 14 }
    else some u0
  match afterValues with
  | none => none
  | some u =>
    if u.uartTxBufferOffset < UARTBUFFERSIZE then
      some (u.uartTxBufferOffset + 1, u.stores ++ [(u.uartTxBufferOffset, u.uartTxBufferOffset)])
    else
      some (u.uartTxBufferOffset, u.stores ++ [(UARTBUFFERSIZE - 1, UARTBUFFERSIZE - 1)])

/-! ## The whole of `adcBufCallback` -/

/-- What the two conversion functions of the ADC driver compute.  The sources
only call them, so they are parameters: `ADCBuf_adjustRawValues(handle,
completedADCBuffer, ADCBUFFERSIZE, completedChannel)` rewrites the sample buffer
it is handed in place, and `ADCBuf_convertAdjustedToMicroVolts(handle,
completedChannel, completedADCBuffer, microVoltBuffer, ADCBUFFERSIZE)` reads
that buffer and fills `microVoltBuffer`.  Each field maps the buffer contents
and the channel to the contents written. -/
structure AdcDriver where
  ADCBuf_adjustRawValues : List Nat → Nat → List Nat
  ADCBuf_convertAdjustedToMicroVolts : List Nat → Nat → List Nat

/-- A sample driver, used for concrete inputs only: a gain adjustment by 3/2
with rounding that saturates at the 12-bit full scale 4095, and a conversion to
microvolts against a 4.3 V reference. -/
def gainDriver : AdcDriver :=
  { ADCBuf_adjustRawValues := fun buf _ =>
      buf.map fun v => min 4095 ((v * 49152 + 16384) / 32768)
    ADCBuf_convertAdjustedToMicroVolts := fun buf _ =>
      buf.map fun v => (v * 4300000 + 2047) / 4095 }

/-- The statics `adcBufCallback` reads or writes, with the output pins. -/
structure AdcGlobals where
  pins : PinState
  microVoltBuffer : List Nat
  buffersCompletedCounter : Nat
deriving DecidableEq, Repr

/-- What one run of `adcBufCallback` leaves: the statics, the contents of the
sample buffer it was handed, the pin and cancel calls it made in order, and the
byte count it handed to `UART_write`. -/
structure AdcRun where
  globals : AdcGlobals
  completedADCBuffer : List Nat
  effects : List Effect
  uartWriteCount : Nat
deriving DecidableEq, Repr

/-- The store of `ADCBUFFERSIZE` converted values into the `uint32_t` array
`microVoltBuffer`. -/
def storeMicroVolts (microVoltBuffer converted : List Nat) : List Nat :=
  (List.range ADCBUFFERSIZE).map (fun i => converted.getD i 0 % 2 ^ 32)
    ++ microVoltBuffer.drop ADCBUFFERSIZE

/-- The whole of `adcBufCallback`, with the detector part as a parameter: the
two conversion calls at its head, the detector with its decision and the
`ADCBuf_convertCancel`, then the telemetry step with `buffersCompletedCounter++`.
The locals of the detector are declared and zeroed inside the function, so
nothing but `microVoltBuffer` reaches the detector. -/
def adcBufCallbackRun (detector : List Nat → Nat → Option (DetState × List Effect))
    (drv : AdcDriver) (fuel : Nat) (completedADCBuffer : List Nat)
    (completedChannel : Nat) (g : AdcGlobals) : Option AdcRun :=
  let adjusted := drv.ADCBuf_adjustRawValues completedADCBuffer completedChannel
  let microVoltBuffer := storeMicroVolts g.microVoltBuffer
    (drv.ADCBuf_convertAdjustedToMicroVolts adjusted completedChannel)
  match detector microVoltBuffer fuel with
  | none => none
  | some (_, effects) =>
    match uartTelemetry microVoltBuffer g.buffersCompletedCounter fuel with
    | none => none
    | some (count, _) =>
      some { globals :=
               { pins := applyEffects g.pins effects
                 microVoltBuffer := microVoltBuffer
                 buffersCompletedCounter := (g.buffersCompletedCounter + 1) % 2 ^ 32 }
             completedADCBuffer := adjusted
             effects := effects
             uartWriteCount := count }

/-- The function `adcBufCallback` of `rfEchoTx.c` as a whole. -/
def rfEchoTx.adcBufCallbackRun (drv : AdcDriver) (fuel : Nat)
    (completedADCBuffer : List Nat) (completedChannel : Nat) (g : AdcGlobals) :
    Option AdcRun :=
  Engs86.adcBufCallbackRun rfEchoTx.adcBufCallback drv fuel completedADCBuffer
    completedChannel g

/-- The function `adcBufCallback` of `rfEchoRx.c` as a whole. -/
def rfEchoRx.adcBufCallbackRun (drv : AdcDriver) (fuel : Nat)
    (completedADCBuffer : List Nat) (completedChannel : Nat) (g : AdcGlobals) :
    Option AdcRun :=
  Engs86.adcBufCallbackRun rfEchoRx.adcBufCallback drv fuel completedADCBuffer
    completedChannel g

/-! ## Loop lemmas -/

theorem whileLoop_exit {σ : Type} (cond : σ → Bool) (body : σ → Option σ) (fuel : Nat)
    (s : σ) (h : cond s = false) : whileLoop cond body (fuel + 1) s = some s := by
  simp [whileLoop, h]

theorem whileLoop_step {σ : Type} (cond : σ → Bool) (body : σ → Option σ) (fuel : Nat)
    (s s1 : σ) (h : cond s = true) (hb : body s = some s1) :
    whileLoop cond body (fuel + 1) s = whileLoop cond body fuel s1 := by
  simp [whileLoop, h, hb]

theorem sampleLoop_spec (N : Nat) (buf : List Nat) (a : Nat) (hN : binEnd N a < 65536) :
    ∀ (n b : Nat) (reads : List Nat) (fuel : Nat), b + n = binEnd N a → n < fuel →
      sampleLoop N buf a fuel { b := b, sum := prefixSum buf b % 2 ^ 64, reads := reads }
        = some { b := binEnd N a, sum := prefixSum buf (binEnd N a) % 2 ^ 64,
                 reads := reads ++ List.range' b n } := by
  intro n
  induction n with
  | zero =>
    intro b reads fuel hb hf
    obtain ⟨k, rfl⟩ : ∃ k, fuel = k + 1 := ⟨fuel - 1, by omega⟩
    have hb' : b = binEnd N a := by omega
    subst hb'
    unfold sampleLoop
    rw [whileLoop_exit]
    · simp
    · simp [binEnd]
  | succ n ih =>
    intro b reads fuel hb hf
    obtain ⟨k, rfl⟩ : ∃ k, fuel = k + 1 := ⟨fuel - 1, by omega⟩
    unfold sampleLoop
    rw [whileLoop_step _ _ _ _
      { b := b + 1, sum := prefixSum buf (b + 1) % 2 ^ 64, reads := reads ++ [b] }]
    · have := ih (b + 1) (reads ++ [b]) k (by omega) (by omega)
      unfold sampleLoop at this
      rw [this]
      simp [List.range'_succ]
    · simp [binEnd] at hb ⊢
      omega
    · simp only [sampleBody, prefixSum, Option.some.injEq, SampleAcc.mk.injEq]
      refine ⟨?_, ?_, trivial⟩
      · apply Nat.mod_eq_of_lt
        omega
      · rw [Nat.mod_add_mod]

theorem binBody_spec (N : Nat) (buf : List Nat) (F : Nat) (s : DetState)
    (hN : binEnd N s.a < 65536) (hb : s.b ≤ binEnd N s.a) (hF : binEnd N s.a - s.b < F)
    (hsum : s.sum = prefixSum buf s.b % 2 ^ 64) :
    binBody N buf F s = some (binNext N buf s) := by
  have h := sampleLoop_spec N buf s.a hN (binEnd N s.a - s.b) s.b [] F (by omega) hF
  unfold binBody
  rw [hsum, h]
  simp only [binNext, binRecordOf, track, List.nil_append]
  split <;> rfl

theorem binLoop_iter (N : Nat) (buf : List Nat) (F : Nat) (hN : binEnd N (N / 50) < 65536)
    (hF : 50 < F) :
    ∀ (n k : Nat) (s : DetState), s.a + n = N / 50 → s.b ≤ binEnd N s.a →
      binEnd N s.a - s.b < F → s.sum = prefixSum buf s.b % 2 ^ 64 →
      s.bin_number + n < 65536 → n < k →
      ∃ s1, whileLoop (fun s => decide (s.a < N / 50)) (binBody N buf F) k s = some s1 ∧
        s1.a = N / 50 ∧
        s1.log = s.log ++ binRecords N buf s.run_number n s.a s.b s.bin_number ∧
        (s1.run_max, s1.saved_bin_number)
          = (binRecords N buf s.run_number n s.a s.b s.bin_number).foldl track
              (s.run_max, s.saved_bin_number) ∧
        s1.bin_number = s.bin_number + n ∧ s1.run_number = s.run_number ∧
        s1.total_max = s.total_max := by
  intro n
  induction n with
  | zero =>
    intro k s ha _ _ _ _ hk
    obtain ⟨k, rfl⟩ : ∃ j, k = j + 1 := ⟨k - 1, by omega⟩
    refine ⟨s, ?_, ?_, ?_, ?_, ?_, rfl, rfl⟩
    · apply whileLoop_exit
      simp
      omega
    · omega
    · simp [binRecords]
    · simp [binRecords]
    · rfl
  | succ n ih =>
    intro k s ha hb hFs hsum hbn hk
    obtain ⟨k, rfl⟩ : ∃ j, k = j + 1 := ⟨k - 1, by omega⟩
    have hN' : N / 10 + 50 * (N / 50) < 65536 := hN
    have hmono : binEnd N s.a < 65536 := by
      simp only [binEnd]
      omega
    have hbody := binBody_spec N buf F s hmono hb hFs hsum
    rw [whileLoop_step _ _ _ _ _ (by simp; omega) hbody]
    have ha1 : (binNext N buf s).a = s.a + 1 := by
      simp only [binNext]
      apply Nat.mod_eq_of_lt
      omega
    have hbn1 : (binNext N buf s).bin_number = s.bin_number + 1 := by
      simp only [binNext]
      apply Nat.mod_eq_of_lt
      omega
    have hb1 : (binNext N buf s).b = binEnd N s.a := rfl
    have hs1 : (binNext N buf s).sum = prefixSum buf (binEnd N s.a) % 2 ^ 64 := rfl
    obtain ⟨s1, h1, h2, h3, h4, h5, h6, h7⟩ := ih k (binNext N buf s) (by omega)
      (by rw [ha1, hb1]; simp [binEnd]) (by rw [ha1, hb1]; simp only [binEnd]; omega)
      (by rw [hs1, hb1]) (by omega) (by omega)
    rw [ha1, hb1, hbn1] at h3 h4
    refine ⟨s1, h1, h2, ?_, ?_, ?_, h6, h7⟩
    · rw [h3]
      simp [binRecords, binNext, binRecordOf]
    · rw [h4]
      simp [binRecords, binNext, binRecordOf]
    · rw [h5, hbn1]
      omega

theorem track_fold_fst_le (l : List BinRecord) :
    ∀ p : Nat × Nat, p.1 ≤ (l.foldl track p).1 := by
  induction l with
  | nil => intro p; simp
  | cons r l ih =>
    intro p
    simp only [List.foldl_cons]
    refine Nat.le_trans ?_ (ih _)
    unfold track
    split
    · simp; omega
    · simp

theorem passBody_spec (N : Nat) (buf : List Nat) (F : Nat) (s : DetState)
    (hN : binEnd N (N / 50) < 65536) (hF : 50 < F) (hF1 : N / 10 < F) (hF2 : N / 50 < F)
    (ha : s.a = 0) (hb : s.b = 0) (hsum : s.sum = 0)
    (hbn : s.bin_number + N / 50 < 65536) (hrun : s.run_number + 1 < 65536)
    (htot : s.total_max ≤ s.run_max) :
    ∃ s2, passBody N buf F s = some s2 ∧ s2.a = 0 ∧ s2.b = 0 ∧ s2.sum = 0 ∧
      s2.log = s.log ++ binRecords N buf s.run_number (N / 50) 0 0 s.bin_number ∧
      (s2.run_max, s2.saved_bin_number)
        = (binRecords N buf s.run_number (N / 50) 0 0 s.bin_number).foldl track
            (s.run_max, s.saved_bin_number) ∧
      s2.bin_number = s.bin_number + N / 50 ∧ s2.run_number = s.run_number + 1 ∧
      s2.total_max = s2.run_max := by
  obtain ⟨s1, h1, _, h3, h4, h5, h6, h7⟩ := binLoop_iter N buf F hN hF (N / 50) F s
    (by omega) (by rw [hb]; omega) (by rw [ha, hb]; simp only [binEnd]; omega)
    (by rw [hsum, hb]; rfl) hbn hF2
  rw [ha, hb] at h3 h4
  have hmax : s.run_max ≤ s1.run_max := by
    have := track_fold_fst_le (binRecords N buf s.run_number (N / 50) 0 0 s.bin_number)
      (s.run_max, s.saved_bin_number)
    rw [← h4] at this
    exact this
  refine ⟨{ s1 with
             a := 0
             b := 0
             sum := 0
             bin_average := 0
             total_max := if s1.run_max > s1.total_max then s1.run_max else s1.total_max
             run_number := (s1.run_number + 1) % 2 ^ 16 }, ?_, ?_⟩
  · unfold passBody binLoop
    rw [h1]
  · refine ⟨rfl, rfl, rfl, h3, h4, h5, ?_, ?_⟩
    · simp only [h6]
      apply Nat.mod_eq_of_lt
      omega
    · simp only [h7]
      split <;> omega

theorem passLoop_iter (N : Nat) (buf : List Nat) (F : Nat)
    (hN : binEnd N (N / 50) < 65536) (hF : 50 < F) (hF1 : N / 10 < F) (hF2 : N / 50 < F) :
    ∀ (n k : Nat) (s : DetState), s.run_number + n = 4 → s.a = 0 → s.b = 0 → s.sum = 0 →
      s.bin_number + n * (N / 50) < 65536 → s.total_max ≤ s.run_max → n < k →
      ∃ s1, whileLoop (fun s => decide (s.run_number < 4)) (passBody N buf F) k s = some s1 ∧
        s1.run_number = 4 ∧
        s1.log = s.log ++ passRecords N buf n s.run_number s.bin_number ∧
        (s1.run_max, s1.saved_bin_number)
          = (passRecords N buf n s.run_number s.bin_number).foldl track
              (s.run_max, s.saved_bin_number) ∧
        s1.bin_number = s.bin_number + n * (N / 50) ∧
        (0 < n → s1.total_max = s1.run_max) := by
  intro n
  induction n with
  | zero =>
    intro k s hr _ _ _ _ _ hk
    obtain ⟨k, rfl⟩ : ∃ j, k = j + 1 := ⟨k - 1, by omega⟩
    refine ⟨s, ?_, ?_, ?_, ?_, ?_, ?_⟩
    · apply whileLoop_exit
      simp
      omega
    · omega
    · simp [passRecords]
    · simp [passRecords]
    · simp
    · intro h; omega
  | succ n ih =>
    intro k s hr ha hb hsum hbn htot hk
    obtain ⟨k, rfl⟩ : ∃ j, k = j + 1 := ⟨k - 1, by omega⟩
    have hbn' : s.bin_number + N / 50 + n * (N / 50) < 65536 := by
      have : (n + 1) * (N / 50) = N / 50 + n * (N / 50) := by ring
      omega
    obtain ⟨s2, g1, g2, g3, g4, g5, g6, g7, g8, g9⟩ := passBody_spec N buf F s hN hF hF1 hF2
      ha hb hsum (by omega) (by omega) htot
    rw [whileLoop_step _ _ _ _ _ (by simp; omega) g1]
    obtain ⟨s1, h1, h2, h3, h4, h5, h6⟩ := ih k s2 (by omega) g2 g3 g4 (by omega)
      (by omega) (by omega)
    refine ⟨s1, h1, h2, ?_, ?_, ?_, ?_⟩
    · rw [h3, g5, g8, g7]
      simp [passRecords]
    · rw [h4, g6, g8, g7]
      simp [passRecords]
    · rw [h5, g7]
      ring
    · intro _
      rcases Nat.eq_zero_or_pos n with hn | hn
      · subst hn
        have e1 : s1.run_max = s2.run_max := by
          have := congrArg Prod.fst h4
          simpa [passRecords] using this
        have e2 : s1 = s2 := by
          obtain ⟨j, rfl⟩ : ∃ j, k = j + 1 := ⟨k - 1, by omega⟩
          rw [whileLoop_exit _ _ _ _ (by simp; omega)] at h1
          exact (Option.some.inj h1).symm
        rw [e2]
        exact g9
      · exact h6 hn

/-- The detection loops from the initial state, in closed form. -/
theorem passLoop_spec (N : Nat) (buf : List Nat) (fuel : Nat)
    (hN : binEnd N (N / 50) < 65536) (hbins : 4 * (N / 50) < 65536)
    (hF : 50 < fuel) (hF1 : N / 10 < fuel) (hF2 : N / 50 < fuel) :
    ∃ s, passLoop N buf fuel DetState.init = some s ∧
      s.run_number = 4 ∧ s.bin_number = 4 * (N / 50) ∧
      s.log = passRecords N buf 4 0 0 ∧
      (s.total_max, s.saved_bin_number) = (passRecords N buf 4 0 0).foldl track (0, 0) := by
  obtain ⟨s, h1, h2, h3, h4, h5, h6⟩ := passLoop_iter N buf fuel hN hF hF1 hF2 4 fuel
    DetState.init rfl rfl rfl rfl (by simp [DetState.init]; omega) (by simp [DetState.init])
    (by omega)
  refine ⟨s, h1, h2, ?_, ?_, ?_⟩
  · rw [h5]
    simp [DetState.init]
  · simpa [DetState.init] using h3
  · rw [h6 (by omega)]
    simpa [DetState.init] using h4

/-! ## The single-pass loop -/

theorem dvt_binBody_spec (N : Nat) (buf : List Nat) (F : Nat) (s : dvt.State)
    (hN : binEnd N s.a < 65536) (hb : s.b ≤ binEnd N s.a) (hF : binEnd N s.a - s.b < F)
    (hsum : s.sum = prefixSum buf s.b % 2 ^ 64) :
    dvt.binBody N buf F s = some (dvt.binNext N buf s) := by
  have h := sampleLoop_spec N buf s.a hN (binEnd N s.a - s.b) s.b [] F (by omega) hF
  unfold dvt.binBody
  rw [hsum, h]
  simp only [dvt.binNext, trackMax, List.nil_append]

theorem dvt_binLoop_iter (N : Nat) (buf : List Nat) (F : Nat)
    (hN : binEnd N (N / 50) < 65536) (hF : 50 < F) :
    ∀ (n k : Nat) (s : dvt.State), s.a + n = N / 50 → s.b ≤ binEnd N s.a →
      binEnd N s.a - s.b < F → s.sum = prefixSum buf s.b % 2 ^ 64 → n < k →
      ∃ s1, whileLoop (fun s => decide (s.a < N / 50)) (dvt.binBody N buf F) k s = some s1 ∧
        s1.a = N / 50 ∧
        s1.log = s.log ++ binRecords N buf 0 n s.a s.b s.a ∧
        s1.max = (binRecords N buf 0 n s.a s.b s.a).foldl trackMax s.max := by
  intro n
  induction n with
  | zero =>
    intro k s ha _ _ _ hk
    obtain ⟨k, rfl⟩ : ∃ j, k = j + 1 := ⟨k - 1, by omega⟩
    refine ⟨s, ?_, ?_, ?_, ?_⟩
    · apply whileLoop_exit
      simp
      omega
    · omega
    · simp [binRecords]
    · simp [binRecords]
  | succ n ih =>
    intro k s ha hb hFs hsum hk
    obtain ⟨k, rfl⟩ : ∃ j, k = j + 1 := ⟨k - 1, by omega⟩
    have hN' : N / 10 + 50 * (N / 50) < 65536 := hN
    have hmono : binEnd N s.a < 65536 := by
      simp only [binEnd]
      omega
    have hbody := dvt_binBody_spec N buf F s hmono hb hFs hsum
    rw [whileLoop_step _ _ _ _ _ (by simp; omega) hbody]
    have ha1 : (dvt.binNext N buf s).a = s.a + 1 := by
      simp only [dvt.binNext]
      apply Nat.mod_eq_of_lt
      omega
    have hb1 : (dvt.binNext N buf s).b = binEnd N s.a := rfl
    have hs1 : (dvt.binNext N buf s).sum = prefixSum buf (binEnd N s.a) % 2 ^ 64 := rfl
    obtain ⟨s1, h1, h2, h3, h4⟩ := ih k (dvt.binNext N buf s) (by omega)
      (by rw [ha1, hb1]; simp [binEnd]) (by rw [ha1, hb1]; simp only [binEnd]; omega)
      (by rw [hs1, hb1]) (by omega)
    rw [ha1, hb1] at h3 h4
    refine ⟨s1, h1, h2, ?_, ?_⟩
    · rw [h3]
      simp [binRecords, dvt.binNext]
    · rw [h4]
      simp [binRecords, dvt.binNext]

/-- The single-pass bin loop from the initial state, in closed form. -/
theorem dvt_binLoop_spec (N : Nat) (buf : List Nat) (fuel : Nat)
    (hN : binEnd N (N / 50) < 65536) (hF : 50 < fuel) (hF1 : N / 10 < fuel)
    (hF2 : N / 50 < fuel) :
    ∃ s, dvt.binLoop N buf fuel dvt.State.init = some s ∧
      s.log = binRecords N buf 0 (N / 50) 0 0 0 ∧
      s.max = (binRecords N buf 0 (N / 50) 0 0 0).foldl trackMax 0 := by
  obtain ⟨s, h1, _, h3, h4⟩ := dvt_binLoop_iter N buf fuel hN hF (N / 50) fuel
    dvt.State.init (by simp [dvt.State.init]) (by simp [dvt.State.init])
    (by simp only [dvt.State.init, binEnd]; omega) rfl hF2
  exact ⟨s, h1, by simpa [dvt.State.init] using h3, by simpa [dvt.State.init] using h4⟩

/-! ## The running maximum -/

theorem track_fold_fst (l : List BinRecord) :
    ∀ p : Nat × Nat, (l.foldl track p).1 = l.foldl trackMax p.1 := by
  induction l with
  | nil => intro p; rfl
  | cons r l ih =>
    intro p
    simp only [List.foldl_cons]
    rw [ih]
    congr 1
    unfold track trackMax
    split <;> rfl

theorem trackMax_fold_le (l : List BinRecord) :
    ∀ m : Nat, m ≤ l.foldl trackMax m := by
  induction l with
  | nil => intro m; simp
  | cons r l ih =>
    intro m
    simp only [List.foldl_cons]
    refine Nat.le_trans ?_ (ih _)
    unfold trackMax
    split <;> omega

theorem trackMax_fold_ge (l : List BinRecord) :
    ∀ (m : Nat) (r : BinRecord), r ∈ l → r.bin_average ≤ l.foldl trackMax m := by
  induction l with
  | nil => intro m r hr; simp at hr
  | cons x l ih =>
    intro m r hr
    simp only [List.foldl_cons]
    rcases List.mem_cons.mp hr with h | h
    · subst h
      refine Nat.le_trans ?_ (trackMax_fold_le l _)
      unfold trackMax
      split <;> omega
    · exact ih _ r h

theorem trackMax_fold_mem (l : List BinRecord) :
    ∀ m : Nat, l.foldl trackMax m = m ∨ ∃ r ∈ l, r.bin_average = l.foldl trackMax m := by
  induction l with
  | nil => intro m; left; rfl
  | cons x l ih =>
    intro m
    simp only [List.foldl_cons]
    rcases ih (trackMax m x) with h | ⟨r, hr, h⟩
    · rw [h]
      unfold trackMax
      split
      · right
        exact ⟨x, List.mem_cons_self _ _, rfl⟩
      · left; rfl
    · right
      exact ⟨r, List.mem_cons_of_mem _ hr, h⟩

/-- Either the fold never replaced its start value or it ends on a record of the
list that was strictly larger than the start value. -/
theorem track_fold_mem (l : List BinRecord) :
    ∀ p : Nat × Nat, l.foldl track p = p ∨
      ∃ r ∈ l, (r.bin_average, r.bin_number) = l.foldl track p ∧ p.1 < r.bin_average := by
  induction l with
  | nil => intro p; left; rfl
  | cons x l ih =>
    intro p
    simp only [List.foldl_cons]
    rcases ih (track p x) with h | ⟨r, hr, h, hlt⟩
    · rw [h]
      unfold track
      split
      · right
        exact ⟨x, List.mem_cons_self _ _, rfl, by assumption⟩
      · left; rfl
    · right
      refine ⟨r, List.mem_cons_of_mem _ hr, h, ?_⟩
      have : p.1 ≤ (track p x).1 := by
        unfold track
        split
        · simp; omega
        · simp
      omega

/-- Ties keep the earliest record: when the bin indices of the list increase
and none is below the start index, the recorded index is at most the index of
every record that carries the final maximum. -/
theorem track_fold_first (l : List BinRecord) :
    ∀ p : Nat × Nat, l.Pairwise (fun x y => x.bin_number < y.bin_number) →
      (∀ r ∈ l, p.2 ≤ r.bin_number) →
      ∀ r ∈ l, r.bin_average = (l.foldl track p).1 → (l.foldl track p).2 ≤ r.bin_number := by
  induction l with
  | nil => intro p _ _ r hr; simp at hr
  | cons x l ih =>
    intro p hpw hlow r hr havg
    simp only [List.foldl_cons] at havg ⊢
    have hpw' := List.pairwise_cons.mp hpw
    have hstep : (track p x).1 = p.1 ∧ track p x = p ∨
        (track p x = (x.bin_average, x.bin_number) ∧ p.1 < x.bin_average) := by
      unfold track
      split
      · right; exact ⟨rfl, by assumption⟩
      · left; exact ⟨rfl, rfl⟩
    have hlow' : ∀ r ∈ l, (track p x).2 ≤ r.bin_number := by
      intro y hy
      rcases hstep with ⟨_, h⟩ | ⟨h, _⟩
      · rw [h]; exact hlow y (List.mem_cons_of_mem _ hy)
      · rw [h]; exact Nat.le_of_lt (hpw'.1 y hy)
    rcases List.mem_cons.mp hr with h | h
    · subst h
      rcases track_fold_mem l (track p r) with e | ⟨y, hy, e, hlt⟩
      · rw [e]
        rcases hstep with ⟨_, h⟩ | ⟨h, _⟩
        · rw [h]; exact hlow r (List.mem_cons_self _ _)
        · rw [h]
      · exfalso
        have h1 : y.bin_average = (List.foldl track (track p r) l).1 := by rw [← e]
        have h2 : r.bin_average ≤ (track p r).1 := by
          unfold track
          split
          · exact Nat.le_refl _
          · omega
        omega
    · exact ih _ hpw'.2 hlow' r h havg

theorem passRecords_500 (buf : List Nat) : passRecords 500 buf 4 0 0 = fourPassLog buf := by
  rfl

theorem binRecords_500 (buf : List Nat) : binRecords 500 buf 0 10 0 0 0 = onePassLog buf := by
  rfl

/-- The four-pass detector at `ADCBUFFERSIZE = 500` returns, and its final
locals are given by the closed forms. -/
theorem detectorCallback_500 (t m : Nat) (buf : List Nat) (fuel : Nat) (hf : 50 < fuel) :
    ∃ s, detectorCallback 500 t m buf fuel
        = some (s, alarmStep t m s.total_max s.saved_bin_number
                    ++ [Effect.ADCBuf_convertCancel]) ∧
      s.run_number = 4 ∧ s.bin_number = 40 ∧ s.log = fourPassLog buf ∧
      (s.total_max, s.saved_bin_number) = (fourPassLog buf).foldl track (0, 0) := by
  obtain ⟨s, h1, h2, h3, h4, h5⟩ := passLoop_spec 500 buf fuel (by decide) (by decide) hf
    (by omega) (by omega)
  refine ⟨s, ?_, h2, h3, ?_, ?_⟩
  · unfold detectorCallback
    rw [h1]
  · rw [h4, passRecords_500]
  · rw [h5, passRecords_500]

/-- The single-pass detector at `ADCBUFFERSIZE = 500` returns, and its final
locals are given by the closed forms. -/
theorem dvt_detectorCallback_500 (t : Nat) (buf : List Nat) (fuel : Nat) (hf : 50 < fuel) :
    ∃ s, dvt.detectorCallback 500 t buf fuel = some (s, dvt.alarmStep t s.max) ∧
      s.log = onePassLog buf ∧ s.max = (onePassLog buf).foldl trackMax 0 := by
  obtain ⟨s, h1, h2, h3⟩ := dvt_binLoop_spec 500 buf fuel (by decide) hf (by omega) (by omega)
  refine ⟨s, ?_, ?_, ?_⟩
  · unfold dvt.detectorCallback
    rw [h1]
  · rw [h2, binRecords_500]
  · rw [h3, binRecords_500]

theorem fourPassLog_pairwise (buf : List Nat) :
    (fourPassLog buf).Pairwise (fun x y => x.bin_number < y.bin_number) := by
  unfold fourPassLog
  rw [List.pairwise_map]
  exact List.pairwise_lt_range 40

theorem mem_fourPassLog (buf : List Nat) (r : BinRecord) :
    r ∈ fourPassLog buf ↔ ∃ j, j < 40 ∧ r =
      { run_number := j / 10, a := j % 10, bin_number := j,
        reads := List.range' (50 * (j % 10)) 50, bin_average := binAverage buf (j % 10) } := by
  unfold fourPassLog
  simp only [List.mem_map, List.mem_range]
  constructor
  · rintro ⟨j, hj, rfl⟩
    exact ⟨j, hj, rfl⟩
  · rintro ⟨j, hj, rfl⟩
    exact ⟨j, hj, rfl⟩

/-- What the running maximum over the four passes ends on: the largest bin
average, carried by the record of the recorded index, which is the lowest index
carrying it. -/
theorem fourPass_max (buf : List Nat) :
    (∀ r ∈ fourPassLog buf, r.bin_average ≤ ((fourPassLog buf).foldl track (0, 0)).1) ∧
    (∃ r ∈ fourPassLog buf, r.bin_number = ((fourPassLog buf).foldl track (0, 0)).2 ∧
      r.bin_average = ((fourPassLog buf).foldl track (0, 0)).1) ∧
    (∀ r ∈ fourPassLog buf, r.bin_average = ((fourPassLog buf).foldl track (0, 0)).1 →
      ((fourPassLog buf).foldl track (0, 0)).2 ≤ r.bin_number) := by
  have hge : ∀ r ∈ fourPassLog buf,
      r.bin_average ≤ ((fourPassLog buf).foldl track (0, 0)).1 := by
    intro r hr
    rw [track_fold_fst]
    exact trackMax_fold_ge _ _ r hr
  refine ⟨hge, ?_, ?_⟩
  · rcases track_fold_mem (fourPassLog buf) (0, 0) with h | ⟨r, hr, h, _⟩
    · have h0 : (⟨0, 0, 0, List.range' 0 50, binAverage buf 0⟩ : BinRecord) ∈ fourPassLog buf :=
        (mem_fourPassLog buf _).mpr ⟨0, by omega, rfl⟩
      refine ⟨_, h0, ?_, ?_⟩
      · rw [h]
      · have := hge _ h0
        rw [h] at this ⊢
        simp only at this ⊢
        omega
    · exact ⟨r, hr, by rw [← h], by rw [← h]⟩
  · exact track_fold_first _ _ (fourPassLog_pairwise buf) (fun r _ => Nat.zero_le _)

/-! ## Particular buffers -/

theorem absSample_zero : absSample 0 = 0 := by decide

theorem absSample_of_lt (V : Nat) (h : V < 2 ^ 31) : absSample V = V := by
  have h0 : V < 2147483648 := h
  have h1 : V % 4294967296 = V := Nat.mod_eq_of_lt (by omega)
  unfold absSample toUInt64 abs32 toInt32
  rw [h1]
  simp only [h0, if_true]
  have h2 : ¬ (Int.ofNat V = -2147483648) := by
    simp only [Int.ofNat_eq_coe]
    omega
  have h3 : ¬ (Int.ofNat V < 0) := by
    simp only [Int.ofNat_eq_coe]
    omega
  simp only [h2, h3, if_false, Int.ofNat_eq_coe]
  omega

theorem prefixSum_eq_zero (buf : List Nat) (h : ∀ i, buf.getD i 0 = 0) :
    ∀ n, prefixSum buf n = 0 := by
  intro n
  induction n with
  | zero => rfl
  | succ n ih => rw [prefixSum, ih, h, absSample_zero]

theorem getD_replicate_zero (n i : Nat) : (List.replicate n 0).getD i 0 = 0 := by
  rw [List.getD_eq_getElem?_getD, List.getElem?_replicate]
  split <;> rfl

theorem binAverage_zeros (n a : Nat) : binAverage (List.replicate n 0) a = 0 := by
  unfold binAverage
  rw [prefixSum_eq_zero _ (getD_replicate_zero n)]
  rfl

theorem fourPass_zeros :
    (fourPassLog (List.replicate 500 0)).foldl track (0, 0) = (0, 0) := by
  rcases track_fold_mem (fourPassLog (List.replicate 500 0)) (0, 0) with h | ⟨r, hr, _, hlt⟩
  · exact h
  · exfalso
    obtain ⟨j, _, rfl⟩ := (mem_fourPassLog _ r).mp hr
    simp only [binAverage_zeros] at hlt
    omega

theorem onePass_zeros : (onePassLog (List.replicate 500 0)).foldl trackMax 0 = 0 := by
  rcases trackMax_fold_mem (onePassLog (List.replicate 500 0)) 0 with h | ⟨r, hr, h⟩
  · exact h
  · rw [← h]
    unfold onePassLog at hr
    simp only [List.mem_map, List.mem_range] at hr
    obtain ⟨j, _, rfl⟩ := hr
    exact binAverage_zeros 500 j

/-- On the all-zero buffer the four-pass detector writes 0, whatever its
constants. -/
theorem detectorCallback_zeros (t m fuel : Nat) (hf : 50 < fuel) :
    (detectorCallback 500 t m (List.replicate 500 0) fuel).map Prod.snd
      = some [Effect.PIN_setOutputValue Pin.Board_DIO15 0, Effect.ADCBuf_convertCancel] := by
  obtain ⟨s, h1, _, _, _, h5⟩ := detectorCallback_500 t m (List.replicate 500 0) fuel hf
  rw [fourPass_zeros] at h5
  have e1 : s.total_max = 0 := congrArg Prod.fst h5
  rw [h1, e1]
  simp [alarmStep]

/-- On the all-zero buffer the single-pass detector writes 0, whatever its
threshold. -/
theorem dvt_detectorCallback_zeros (t fuel : Nat) (hf : 50 < fuel) :
    (dvt.detectorCallback 500 t (List.replicate 500 0) fuel).map Prod.snd
      = some [Effect.PIN_setOutputValue Pin.Board_DIO15 0] := by
  obtain ⟨s, h1, _, h3⟩ := dvt_detectorCallback_500 t (List.replicate 500 0) fuel hf
  rw [onePass_zeros] at h3
  rw [h1, h3]
  simp [dvt.alarmStep]

theorem oneBinBuffer_length (k V : Nat) : (oneBinBuffer k V).length = 500 := by
  simp [oneBinBuffer]

theorem oneBinBuffer_getD (k V i : Nat) (hk : k ≤ 9) :
    (oneBinBuffer k V).getD i 0 = if 50 * k ≤ i ∧ i < 50 * k + 50 then V else 0 := by
  unfold oneBinBuffer
  rw [List.getD_eq_getElem?_getD, List.getElem?_map]
  by_cases hi : i < 500
  · rw [List.getElem?_range hi]
    rfl
  · rw [List.getElem?_eq_none (by simp; omega)]
    have : ¬ (50 * k ≤ i ∧ i < 50 * k + 50) := by omega
    simp [this]

theorem prefixSum_oneBin (k V : Nat) (hk : k ≤ 9) :
    ∀ n, prefixSum (oneBinBuffer k V) n
      = absSample V * (min n (50 * k + 50) - min n (50 * k)) := by
  intro n
  induction n with
  | zero => simp [prefixSum]
  | succ n ih =>
    rw [prefixSum, ih, oneBinBuffer_getD k V n hk]
    by_cases h : 50 * k ≤ n ∧ n < 50 * k + 50
    · rw [if_pos h]
      have : min (n + 1) (50 * k + 50) - min (n + 1) (50 * k)
          = (min n (50 * k + 50) - min n (50 * k)) + 1 := by omega
      rw [this, Nat.mul_succ]
    · rw [if_neg h, absSample_zero]
      have : min (n + 1) (50 * k + 50) - min (n + 1) (50 * k)
          = min n (50 * k + 50) - min n (50 * k) := by omega
      rw [this, Nat.add_zero]

theorem binAverage_oneBin (k V a : Nat) (hk : k ≤ 9) (hV : V < 2 ^ 31) :
    binAverage (oneBinBuffer k V) a = if a < k then 0 else V / 10 := by
  unfold binAverage
  rw [prefixSum_oneBin k V hk, absSample_of_lt V hV]
  split
  · have : min (50 * (a + 1)) (50 * k + 50) - min (50 * (a + 1)) (50 * k) = 0 := by omega
    rw [this, Nat.mul_zero]
    rfl
  · have : min (50 * (a + 1)) (50 * k + 50) - min (50 * (a + 1)) (50 * k) = 50 := by omega
    have hV' : V < 2147483648 := hV
    have h1 : V * 50 % 2 ^ 64 = V * 50 := Nat.mod_eq_of_lt (by omega)
    have h2 : V * 50 / 500 = V / 10 := by omega
    have h3 : V / 10 % 2 ^ 32 = V / 10 := Nat.mod_eq_of_lt (by omega)
    rw [this, h1, h2, h3]

/-- On the single-bin buffer the running maximum ends on `V / 10`, recorded at
bin `k` as soon as `V / 10` is positive. -/
theorem fourPass_oneBin (k V : Nat) (hk : k ≤ 9) (hV : V < 2 ^ 31) :
    ((fourPassLog (oneBinBuffer k V)).foldl track (0, 0)).1 = V / 10 ∧
    (10 ≤ V → ((fourPassLog (oneBinBuffer k V)).foldl track (0, 0)).2 = k) := by
  obtain ⟨m1, ⟨r, hr, m2, m3⟩, m4⟩ := fourPass_max (oneBinBuffer k V)
  have hk_mem : (⟨k / 10, k % 10, k, List.range' (50 * (k % 10)) 50,
      binAverage (oneBinBuffer k V) (k % 10)⟩ : BinRecord) ∈ fourPassLog (oneBinBuffer k V) :=
    (mem_fourPassLog _ _).mpr ⟨k, by omega, rfl⟩
  have hkavg : binAverage (oneBinBuffer k V) (k % 10) = V / 10 := by
    rw [binAverage_oneBin k V _ hk hV, if_neg (by omega)]
  have hge := m1 _ hk_mem
  simp only [hkavg] at hge
  obtain ⟨j, hj, rfl⟩ := (mem_fourPassLog _ r).mp hr
  simp only at m2 m3
  have hravg := binAverage_oneBin k V (j % 10) hk hV
  have hmax : ((fourPassLog (oneBinBuffer k V)).foldl track (0, 0)).1 = V / 10 := by
    rw [← m3, hravg]
    rw [← m3, hravg] at hge
    split at hge
    · rw [if_pos (by assumption)]
      omega
    · rw [if_neg (by assumption)]
  refine ⟨hmax, ?_⟩
  intro hV10
  have hle := m4 _ hk_mem (by simp only [hkavg, hmax])
  simp only at hle
  rw [← m2] at hle ⊢
  have hjk : ¬ (j % 10 < k) := by
    intro hlt
    rw [hmax, hravg, if_pos hlt] at m3
    omega
  omega

/-- The callback after its loops: the decision step and the cancel request. -/
theorem detectorCallback_of_passLoop (N t m : Nat) (buf : List Nat) (fuel : Nat)
    (s : DetState) (h : passLoop N buf fuel DetState.init = some s) :
    detectorCallback N t m buf fuel
      = some (s, [Effect.PIN_setOutputValue Pin.Board_DIO15
                    (if s.total_max > t ∧ s.saved_bin_number ≤ m then 1 else 0),
                  Effect.ADCBuf_convertCancel]) := by
  unfold detectorCallback alarmStep
  simp only [h]
  split <;> rfl

/-- Both four-pass callbacks return on every buffer, with the same final
locals. -/
theorem callbacks_500 (buf : List Nat) (fuel : Nat) (hf : 50 < fuel) :
    ∃ s, rfEchoTx.adcBufCallback buf fuel
        = some (s, alarmStep 50000 23 s.total_max s.saved_bin_number
                    ++ [Effect.ADCBuf_convertCancel]) ∧
      rfEchoRx.adcBufCallback buf fuel
        = some (s, alarmStep 15000 23 s.total_max s.saved_bin_number
                    ++ [Effect.ADCBuf_convertCancel]) ∧
      s.run_number = 4 ∧ s.bin_number = 40 ∧ s.log = fourPassLog buf ∧
      (s.total_max, s.saved_bin_number) = (fourPassLog buf).foldl track (0, 0) := by
  obtain ⟨s, h1, h2, h3, h4, h5⟩ := detectorCallback_500 50000 23 buf fuel hf
  have hp : passLoop 500 buf fuel DetState.init = some s := by
    unfold detectorCallback at h1
    cases hq : passLoop 500 buf fuel DetState.init with
    | none => rw [hq] at h1; simp at h1
    | some s0 =>
      rw [hq] at h1
      simp only [Option.some.injEq, Prod.mk.injEq] at h1
      rw [h1.1]
  refine ⟨s, ?_, ?_, h2, h3, h4, h5⟩
  · unfold rfEchoTx.adcBufCallback ADCBUFFERSIZE detectorCallback
    rw [hp]
  · unfold rfEchoRx.adcBufCallback ADCBUFFERSIZE detectorCallback
    rw [hp]

/-- The four-pass detector on the single-bin buffer. -/
theorem detectorCallback_oneBin (k V t m fuel : Nat) (hk : k ≤ 9) (hV : V < 2 ^ 31)
    (hf : 50 < fuel) :
    ∃ s, detectorCallback 500 t m (oneBinBuffer k V) fuel
        = some (s, [Effect.PIN_setOutputValue Pin.Board_DIO15
                      (if V / 10 > t ∧ k ≤ m then 1 else 0),
                    Effect.ADCBuf_convertCancel]) ∧
      s.total_max = V / 10 ∧ (10 ≤ V → s.saved_bin_number = k) := by
  obtain ⟨s, h1, _, _, _, h5⟩ := detectorCallback_500 t m (oneBinBuffer k V) fuel hf
  obtain ⟨g1, g2⟩ := fourPass_oneBin k V hk hV
  have e1 : s.total_max = V / 10 := by
    rw [← g1]
    exact congrArg Prod.fst h5
  have e2 : 10 ≤ V → s.saved_bin_number = k := by
    intro h
    rw [← g2 h]
    exact congrArg Prod.snd h5
  refine ⟨s, ?_, e1, e2⟩
  rw [h1, e1]
  unfold alarmStep
  by_cases hV10 : 10 ≤ V
  · rw [e2 hV10]
    split <;> rfl
  · have h0 : V / 10 = 0 := by omega
    rw [h0]
    simp

theorem binRecords_reads (N : Nat) (buf : List Nat) (run : Nat) :
    ∀ n a b bn, (binRecords N buf run n a b bn).map (fun r => (r.a, r.reads))
      = (List.range n).map fun i =>
          (a + i, if i = 0 then List.range' b (binEnd N a - b)
                  else List.range' (binEnd N (a + i - 1)) 50) := by
  intro n
  induction n with
  | zero => intro a b bn; rfl
  | succ n ih =>
    intro a b bn
    rw [binRecords, List.map_cons, ih, List.range_succ_eq_map, List.map_cons, List.map_map]
    congr 1
    apply List.map_congr_left
    intro i _
    have e1 : binEnd N (a + 1) - binEnd N a = 50 := by
      simp only [binEnd]
      omega
    have e2 : a + 1 + i - 1 = a + (i + 1) - 1 := by omega
    have e3 : a + 1 + i = a + (i + 1) := by omega
    simp only [Function.comp, Nat.succ_eq_add_one, e1, e2, e3]
    by_cases hi : i = 0
    · subst hi
      simp
    · simp [hi]

set_option maxRecDepth 100000 in
theorem passReads_fourPassLog (buf : List Nat) (p : Nat) (hp : p < 4) :
    passReads (fourPassLog buf) p = List.range 500 := by
  interval_cases p <;> rfl

set_option maxRecDepth 100000 in
theorem passReads_onePassLog (buf : List Nat) :
    passReads (onePassLog buf) 0 = List.range 500 := by
  rfl

/-! ## The claims -/

/-- C1: in `adcBufCallback` of `rfEchoTx.c` (threshold 50000) and of `rfEchoRx.c`
(threshold 15000), for every 500-sample buffer and enough fuel the callback
returns having written `Board_DIO15` exactly once, with 1 exactly when
`total_max` exceeds the threshold and `saved_bin_number <= 23`, and with 0
otherwise; `total_max` is the largest bin average evaluated over all passes and
`saved_bin_number` is the index of a bin evaluation that produced it. -/
theorem C1_alarm_written_once (microVoltBuffer : List Nat)
    (_hlen : microVoltBuffer.length = 500) (fuel : Nat) (hfuel : 50 < fuel) :
    ∃ s : DetState,
      rfEchoTx.adcBufCallback microVoltBuffer fuel
        = some (s, [Effect.PIN_setOutputValue Pin.Board_DIO15
                      (if s.total_max > 50000 ∧ s.saved_bin_number ≤ 23 then 1 else 0),
                    Effect.ADCBuf_convertCancel]) ∧
      rfEchoRx.adcBufCallback microVoltBuffer fuel
        = some (s, [Effect.PIN_setOutputValue Pin.Board_DIO15
                      (if s.total_max > 15000 ∧ s.saved_bin_number ≤ 23 then 1 else 0),
                    Effect.ADCBuf_convertCancel]) ∧
      (∀ r ∈ s.log, r.bin_average ≤ s.total_max) ∧
      (∃ r ∈ s.log, r.bin_number = s.saved_bin_number ∧ r.bin_average = s.total_max) := by
  obtain ⟨s, h1, _, _, h4, h5⟩ := detectorCallback_500 50000 23 microVoltBuffer fuel hfuel
  obtain ⟨s2, g1, _, _, _, _⟩ := detectorCallback_500 15000 23 microVoltBuffer fuel hfuel
  have hs : s2 = s := by
    unfold detectorCallback at h1 g1
    cases hp : passLoop 500 microVoltBuffer fuel DetState.init with
    | none => rw [hp] at h1; simp at h1
    | some s0 =>
      rw [hp] at h1 g1
      simp only [Option.some.injEq, Prod.mk.injEq] at h1 g1
      rw [← h1.1, ← g1.1]
  subst hs
  have e1 : s2.total_max = ((fourPassLog microVoltBuffer).foldl track (0, 0)).1 :=
    congrArg Prod.fst h5
  have e2 : s2.saved_bin_number = ((fourPassLog microVoltBuffer).foldl track (0, 0)).2 :=
    congrArg Prod.snd h5
  obtain ⟨m1, m2, _⟩ := fourPass_max microVoltBuffer
  refine ⟨s2, ?_, ?_, ?_, ?_⟩
  · unfold rfEchoTx.adcBufCallback ADCBUFFERSIZE
    rw [h1]
    unfold alarmStep
    split <;> rfl
  · unfold rfEchoRx.adcBufCallback ADCBUFFERSIZE
    rw [g1]
    unfold alarmStep
    split <;> rfl
  · rw [h4, e1]
    exact m1
  · rw [h4, e1, e2]
    exact m2

/-- Witness for C1: the all-zero buffer with fuel 51. -/
theorem C1_alarm_written_once_witness :
    (List.replicate 500 0).length = 500 ∧ 50 < 51 ∧
    ∃ s : DetState,
      rfEchoTx.adcBufCallback (List.replicate 500 0) 51
        = some (s, [Effect.PIN_setOutputValue Pin.Board_DIO15
                      (if s.total_max > 50000 ∧ s.saved_bin_number ≤ 23 then 1 else 0),
                    Effect.ADCBuf_convertCancel]) ∧
      rfEchoRx.adcBufCallback (List.replicate 500 0) 51
        = some (s, [Effect.PIN_setOutputValue Pin.Board_DIO15
                      (if s.total_max > 15000 ∧ s.saved_bin_number ≤ 23 then 1 else 0),
                    Effect.ADCBuf_convertCancel]) ∧
      (∀ r ∈ s.log, r.bin_average ≤ s.total_max) ∧
      (∃ r ∈ s.log, r.bin_number = s.saved_bin_number ∧ r.bin_average = s.total_max) :=
  ⟨List.length_replicate 500 0, by decide,
    C1_alarm_written_once (List.replicate 500 0) (List.length_replicate 500 0) 51 (by decide)⟩

/-- C2 (failing input): on the buffer whose samples 0..49 are 1000000 and whose
other samples are 0, every bin evaluation of the three detectors stores the
average 100000, although the own samples of bins 1..9 are all 0 and their
per-bin average is 0: the running sum is carried from bin to bin. -/
theorem C2_bin_average_accumulates :
    (∃ s eT eR, rfEchoTx.adcBufCallback (oneBinBuffer 0 1000000) 51 = some (s, eT) ∧
      rfEchoRx.adcBufCallback (oneBinBuffer 0 1000000) 51 = some (s, eR) ∧
      s.log.length = 40 ∧ ∀ r ∈ s.log, r.bin_average = 100000) ∧
    (∃ s e, dvt.adcBufCallback (oneBinBuffer 0 1000000) 51 = some (s, e) ∧
      s.log.length = 10 ∧ ∀ r ∈ s.log, r.bin_average = 100000) ∧
    (∀ k, 1 ≤ k → k ≤ 9 → ownBinAverage (oneBinBuffer 0 1000000) k = 0) := by
  refine ⟨?_, ?_, ?_⟩
  · obtain ⟨s, h1, h2, _, _, h5, _⟩ := callbacks_500 (oneBinBuffer 0 1000000) 51 (by decide)
    refine ⟨s, _, _, h1, h2, ?_, ?_⟩
    · rw [h5]
      simp [fourPassLog]
    · intro r hr
      rw [h5] at hr
      obtain ⟨j, _, rfl⟩ := (mem_fourPassLog _ r).mp hr
      simp only
      rw [binAverage_oneBin 0 1000000 _ (by decide) (by decide)]
      rfl
  · obtain ⟨s, h1, h2, _⟩ := dvt_detectorCallback_500 150000 (oneBinBuffer 0 1000000) 51
      (by decide)
    refine ⟨s, _, h1, ?_, ?_⟩
    · rw [h2]
      simp [onePassLog]
    · intro r hr
      rw [h2] at hr
      unfold onePassLog at hr
      simp only [List.mem_map, List.mem_range] at hr
      obtain ⟨j, _, rfl⟩ := hr
      simp only
      rw [binAverage_oneBin 0 1000000 _ (by decide) (by decide)]
      rfl
  · intro k hk1 hk9
    unfold ownBinAverage
    have hz : ((List.range' (50 * k) 50).map
        fun i => absSample ((oneBinBuffer 0 1000000).getD i 0)).sum = 0 := by
      apply List.sum_eq_zero
      intro x hx
      simp only [List.mem_map, List.mem_range'_1] at hx
      obtain ⟨i, hi, rfl⟩ := hx
      rw [oneBinBuffer_getD 0 1000000 i (by decide), if_neg (by omega), absSample_zero]
    rw [hz]

/-- C3 (counterexample): with bin 0 filled with V = 60000 the transmitter node's
detector writes 0 although V > 50000 and the bin index 0 is within the window. -/
theorem C3_counterexample :
    (rfEchoTx.adcBufCallback (oneBinBuffer 0 60000) 51).map Prod.snd
      = some [Effect.PIN_setOutputValue Pin.Board_DIO15 0, Effect.ADCBuf_convertCancel] ∧
    ¬ ((rfEchoTx.adcBufCallback (oneBinBuffer 0 60000) 51).map Prod.snd
        = some [Effect.PIN_setOutputValue Pin.Board_DIO15 1, Effect.ADCBuf_convertCancel]
       ↔ (60000 > 50000 ∧ 0 ≤ 23)) := by
  obtain ⟨s, h1, _, _⟩ := detectorCallback_oneBin 0 60000 50000 23 51 (by decide) (by decide)
    (by decide)
  have h : (rfEchoTx.adcBufCallback (oneBinBuffer 0 60000) 51).map Prod.snd
      = some [Effect.PIN_setOutputValue Pin.Board_DIO15 0, Effect.ADCBuf_convertCancel] := by
    unfold rfEchoTx.adcBufCallback ADCBUFFERSIZE
    rw [h1]
    rfl
  refine ⟨h, ?_⟩
  rw [h]
  intro hiff
  have := hiff.mpr ⟨by decide, by decide⟩
  simp at this

/-- C3 (amended): for every bin index k in 0..9 and every V below 2^31, on the
buffer whose samples 50k..50k+49 equal V and whose other samples are 0, the
detector (threshold and window bound as parameters) returns with maximum
average V / 10, records bin index k whenever V >= 10, and writes 1 exactly when
V / 10 > threshold and k <= max_bin_index. -/
theorem C3_single_bin (k V threshold max_bin_index fuel : Nat) (hk : k ≤ 9)
    (hV : V < 2 ^ 31) (hfuel : 50 < fuel) :
    ∃ s : DetState,
      detectorCallback ADCBUFFERSIZE threshold max_bin_index (oneBinBuffer k V) fuel
        = some (s, [Effect.PIN_setOutputValue Pin.Board_DIO15
                      (if V / 10 > threshold ∧ k ≤ max_bin_index then 1 else 0),
                    Effect.ADCBuf_convertCancel]) ∧
      s.total_max = V / 10 ∧ (10 ≤ V → s.saved_bin_number = k) :=
  detectorCallback_oneBin k V threshold max_bin_index fuel hk hV hfuel

/-- Witness for C3: bin 3 filled with 600000, the constants of `rfEchoTx.c`. -/
theorem C3_single_bin_witness :
    3 ≤ 9 ∧ 600000 < 2 ^ 31 ∧ 50 < 51 ∧
    ∃ s : DetState,
      detectorCallback ADCBUFFERSIZE 50000 23 (oneBinBuffer 3 600000) 51
        = some (s, [Effect.PIN_setOutputValue Pin.Board_DIO15
                      (if 600000 / 10 > 50000 ∧ 3 ≤ 23 then 1 else 0),
                    Effect.ADCBuf_convertCancel]) ∧
      s.total_max = 600000 / 10 ∧ (10 ≤ 600000 → s.saved_bin_number = 3) :=
  ⟨by decide, by decide, by decide,
    C3_single_bin 3 600000 50000 23 51 (by decide) (by decide) (by decide)⟩

/-- C4: on the all-zero 500-sample buffer every detector variant (`rfEchoTx.c`,
`rfEchoRx.c`, `adcBufContinuousSampling.c`) returns having written 0 to
`Board_DIO15`, and so do the four-pass and the single-pass detector with any
positive threshold. -/
theorem C4_all_zero_off (threshold max_bin_index fuel : Nat) (_ht : 0 < threshold)
    (hfuel : 50 < fuel) :
    (rfEchoTx.adcBufCallback (List.replicate 500 0) fuel).map Prod.snd
      = some [Effect.PIN_setOutputValue Pin.Board_DIO15 0, Effect.ADCBuf_convertCancel] ∧
    (rfEchoRx.adcBufCallback (List.replicate 500 0) fuel).map Prod.snd
      = some [Effect.PIN_setOutputValue Pin.Board_DIO15 0, Effect.ADCBuf_convertCancel] ∧
    (dvt.adcBufCallback (List.replicate 500 0) fuel).map Prod.snd
      = some [Effect.PIN_setOutputValue Pin.Board_DIO15 0] ∧
    (detectorCallback ADCBUFFERSIZE threshold max_bin_index (List.replicate 500 0) fuel).map
        Prod.snd
      = some [Effect.PIN_setOutputValue Pin.Board_DIO15 0, Effect.ADCBuf_convertCancel] ∧
    (dvt.detectorCallback ADCBUFFERSIZE threshold (List.replicate 500 0) fuel).map Prod.snd
      = some [Effect.PIN_setOutputValue Pin.Board_DIO15 0] :=
  ⟨detectorCallback_zeros 50000 23 fuel hfuel, detectorCallback_zeros 15000 23 fuel hfuel,
    dvt_detectorCallback_zeros 150000 fuel hfuel,
    detectorCallback_zeros threshold max_bin_index fuel hfuel,
    dvt_detectorCallback_zeros threshold fuel hfuel⟩

/-- Witness for C4: threshold 1, window bound 23, fuel 51. -/
theorem C4_all_zero_off_witness :
    0 < 1 ∧ 50 < 51 ∧
    (rfEchoTx.adcBufCallback (List.replicate 500 0) 51).map Prod.snd
      = some [Effect.PIN_setOutputValue Pin.Board_DIO15 0, Effect.ADCBuf_convertCancel] ∧
    (rfEchoRx.adcBufCallback (List.replicate 500 0) 51).map Prod.snd
      = some [Effect.PIN_setOutputValue Pin.Board_DIO15 0, Effect.ADCBuf_convertCancel] ∧
    (dvt.adcBufCallback (List.replicate 500 0) 51).map Prod.snd
      = some [Effect.PIN_setOutputValue Pin.Board_DIO15 0] ∧
    (detectorCallback ADCBUFFERSIZE 1 23 (List.replicate 500 0) 51).map Prod.snd
      = some [Effect.PIN_setOutputValue Pin.Board_DIO15 0, Effect.ADCBuf_convertCancel] ∧
    (dvt.detectorCallback ADCBUFFERSIZE 1 (List.replicate 500 0) 51).map Prod.snd
      = some [Effect.PIN_setOutputValue Pin.Board_DIO15 0] :=
  ⟨by decide, by decide, C4_all_zero_off 1 23 51 (by decide) (by decide)⟩

/-- C5: with the threshold as a parameter, for every 500-sample buffer, every
window bound and every pair of thresholds t1 <= t2, the detector returns with
both thresholds, and if it writes 0 (OFF) with t1 it writes 0 with t2. -/
theorem C5_threshold_monotone (microVoltBuffer : List Nat)
    (_hlen : microVoltBuffer.length = 500) (max_bin_index t1 t2 fuel : Nat) (ht : t1 ≤ t2)
    (hfuel : 50 < fuel) :
    ∃ (s : DetState) (v1 v2 : Nat),
      detectorCallback ADCBUFFERSIZE t1 max_bin_index microVoltBuffer fuel
        = some (s, [Effect.PIN_setOutputValue Pin.Board_DIO15 v1,
                    Effect.ADCBuf_convertCancel]) ∧
      detectorCallback ADCBUFFERSIZE t2 max_bin_index microVoltBuffer fuel
        = some (s, [Effect.PIN_setOutputValue Pin.Board_DIO15 v2,
                    Effect.ADCBuf_convertCancel]) ∧
      (v1 = 0 → v2 = 0) := by
  obtain ⟨s, hp, _⟩ := passLoop_spec 500 microVoltBuffer fuel (by decide) (by decide) hfuel
    (by omega) (by omega)
  refine ⟨s, if s.total_max > t1 ∧ s.saved_bin_number ≤ max_bin_index then 1 else 0,
    if s.total_max > t2 ∧ s.saved_bin_number ≤ max_bin_index then 1 else 0,
    detectorCallback_of_passLoop 500 t1 max_bin_index microVoltBuffer fuel s hp,
    detectorCallback_of_passLoop 500 t2 max_bin_index microVoltBuffer fuel s hp, ?_⟩
  intro h
  split at h
  · omega
  · rw [if_neg]
    omega

/-- Witness for C5: the all-zero buffer, thresholds 15000 and 50000. -/
theorem C5_threshold_monotone_witness :
    (List.replicate 500 0).length = 500 ∧ 15000 ≤ 50000 ∧ 50 < 51 ∧
    ∃ (s : DetState) (v1 v2 : Nat),
      detectorCallback ADCBUFFERSIZE 15000 23 (List.replicate 500 0) 51
        = some (s, [Effect.PIN_setOutputValue Pin.Board_DIO15 v1,
                    Effect.ADCBuf_convertCancel]) ∧
      detectorCallback ADCBUFFERSIZE 50000 23 (List.replicate 500 0) 51
        = some (s, [Effect.PIN_setOutputValue Pin.Board_DIO15 v2,
                    Effect.ADCBuf_convertCancel]) ∧
      (v1 = 0 → v2 = 0) :=
  ⟨List.length_replicate 500 0, by decide, by decide,
    C5_threshold_monotone (List.replicate 500 0) (List.length_replicate 500 0) 23 15000 50000
      51 (by decide) (by decide)⟩

/-- C6: in the decision step with window bound m, for every maximum average
strictly above the threshold, a recorded bin index equal to m writes 1 (ON) and
a recorded bin index equal to m + 1 writes 0 (OFF). -/
theorem C6_window_boundary (threshold max_bin_index total_max : Nat)
    (h : threshold < total_max) :
    alarmStep threshold max_bin_index total_max max_bin_index
      = [Effect.PIN_setOutputValue Pin.Board_DIO15 1] ∧
    alarmStep threshold max_bin_index total_max (max_bin_index + 1)
      = [Effect.PIN_setOutputValue Pin.Board_DIO15 0] := by
  unfold alarmStep
  constructor
  · rw [if_pos ⟨h, Nat.le_refl _⟩]
  · rw [if_neg]
    omega

/-- Witness for C6: threshold 50000, window bound 23, maximum average 60000. -/
theorem C6_window_boundary_witness :
    50000 < 60000 ∧
    alarmStep 50000 23 60000 23 = [Effect.PIN_setOutputValue Pin.Board_DIO15 1] ∧
    alarmStep 50000 23 60000 (23 + 1) = [Effect.PIN_setOutputValue Pin.Board_DIO15 0] :=
  ⟨by decide, C6_window_boundary 50000 23 60000 (by decide)⟩

/-- C7: for every 500-sample buffer both four-pass callbacks return; the bin
evaluations carry the continuous indices 0..39, `total_max` is the largest bin
average among them, and `saved_bin_number` is the lowest bin index whose
evaluation produced that largest average. -/
theorem C7_ties_keep_lowest_index (microVoltBuffer : List Nat)
    (_hlen : microVoltBuffer.length = 500) (fuel : Nat) (hfuel : 50 < fuel) :
    ∃ (s : DetState) (eT eR : List Effect),
      rfEchoTx.adcBufCallback microVoltBuffer fuel = some (s, eT) ∧
      rfEchoRx.adcBufCallback microVoltBuffer fuel = some (s, eR) ∧
      s.log.map (fun r => r.bin_number) = List.range 40 ∧
      (∀ r ∈ s.log, r.bin_average ≤ s.total_max) ∧
      (∃ r ∈ s.log, r.bin_number = s.saved_bin_number ∧ r.bin_average = s.total_max) ∧
      (∀ r ∈ s.log, r.bin_average = s.total_max → s.saved_bin_number ≤ r.bin_number) := by
  obtain ⟨s, h1, h2, _, _, h5, h6⟩ := callbacks_500 microVoltBuffer fuel hfuel
  have e1 : s.total_max = ((fourPassLog microVoltBuffer).foldl track (0, 0)).1 :=
    congrArg Prod.fst h6
  have e2 : s.saved_bin_number = ((fourPassLog microVoltBuffer).foldl track (0, 0)).2 :=
    congrArg Prod.snd h6
  obtain ⟨m1, m2, m3⟩ := fourPass_max microVoltBuffer
  refine ⟨s, _, _, h1, h2, ?_, ?_, ?_, ?_⟩
  · rw [h5]
    unfold fourPassLog
    rw [List.map_map]
    exact List.map_id _
  · rw [h5, e1]
    exact m1
  · rw [h5, e1, e2]
    exact m2
  · rw [h5, e1, e2]
    exact m3

/-- Witness for C7: the all-zero buffer, where all 40 bin averages tie. -/
theorem C7_ties_keep_lowest_index_witness :
    (List.replicate 500 0).length = 500 ∧ 50 < 51 ∧
    ∃ (s : DetState) (eT eR : List Effect),
      rfEchoTx.adcBufCallback (List.replicate 500 0) 51 = some (s, eT) ∧
      rfEchoRx.adcBufCallback (List.replicate 500 0) 51 = some (s, eR) ∧
      s.log.map (fun r => r.bin_number) = List.range 40 ∧
      (∀ r ∈ s.log, r.bin_average ≤ s.total_max) ∧
      (∃ r ∈ s.log, r.bin_number = s.saved_bin_number ∧ r.bin_average = s.total_max) ∧
      (∀ r ∈ s.log, r.bin_average = s.total_max → s.saved_bin_number ≤ r.bin_number) :=
  ⟨List.length_replicate 500 0, by decide,
    C7_ties_keep_lowest_index (List.replicate 500 0) (List.length_replicate 500 0) 51
      (by decide)⟩

/-- C8: with `ADCBUFFERSIZE = 500`, on every buffer each detector variant
returns; every pass consists of exactly 10 bin evaluations, bin a reading
exactly the indices 50a..50a+49 in increasing order, so that each pass reads
0..499 once each in increasing order and no read is at an index >= 500. -/
theorem C8_bins_partition_buffer (microVoltBuffer : List Nat)
    (_hlen : microVoltBuffer.length = 500) (fuel : Nat) (hfuel : 50 < fuel) :
    ∃ (s : DetState) (d : dvt.State) (eT eR eD : List Effect),
      rfEchoTx.adcBufCallback microVoltBuffer fuel = some (s, eT) ∧
      rfEchoRx.adcBufCallback microVoltBuffer fuel = some (s, eR) ∧
      dvt.adcBufCallback microVoltBuffer fuel = some (d, eD) ∧
      s.log.map (fun r => (r.run_number, r.a, r.reads))
        = (List.range 40).map (fun j => (j / 10, j % 10, List.range' (50 * (j % 10)) 50)) ∧
      d.log.map (fun r => (r.a, r.reads))
        = (List.range 10).map (fun a => (a, List.range' (50 * a) 50)) ∧
      (∀ p, p < 4 → passReads s.log p = List.range 500) ∧
      passReads d.log 0 = List.range 500 ∧
      (∀ r ∈ s.log, ∀ i ∈ r.reads, i < 500) ∧
      (∀ r ∈ d.log, ∀ i ∈ r.reads, i < 500) := by
  obtain ⟨s, h1, h2, _, _, h5, _⟩ := callbacks_500 microVoltBuffer fuel hfuel
  obtain ⟨d, g1, g2, _⟩ := dvt_detectorCallback_500 150000 microVoltBuffer fuel hfuel
  refine ⟨s, d, _, _, _, h1, h2, g1, ?_, ?_, ?_, ?_, ?_, ?_⟩
  · rw [h5]
    rfl
  · rw [g2]
    rfl
  · intro p hp
    rw [h5]
    exact passReads_fourPassLog microVoltBuffer p hp
  · rw [g2]
    exact passReads_onePassLog microVoltBuffer
  · intro r hr i hi
    rw [h5] at hr
    obtain ⟨j, _, rfl⟩ := (mem_fourPassLog _ r).mp hr
    simp only [List.mem_range'_1] at hi
    omega
  · intro r hr i hi
    rw [g2] at hr
    unfold onePassLog at hr
    simp only [List.mem_map, List.mem_range] at hr
    obtain ⟨j, _, rfl⟩ := hr
    simp only [List.mem_range'_1] at hi
    omega

/-- Witness for C8: the all-zero buffer with fuel 51. -/
theorem C8_bins_partition_buffer_witness :
    (List.replicate 500 0).length = 500 ∧ 50 < 51 ∧
    ∃ (s : DetState) (d : dvt.State) (eT eR eD : List Effect),
      rfEchoTx.adcBufCallback (List.replicate 500 0) 51 = some (s, eT) ∧
      rfEchoRx.adcBufCallback (List.replicate 500 0) 51 = some (s, eR) ∧
      dvt.adcBufCallback (List.replicate 500 0) 51 = some (d, eD) ∧
      s.log.map (fun r => (r.run_number, r.a, r.reads))
        = (List.range 40).map (fun j => (j / 10, j % 10, List.range' (50 * (j % 10)) 50)) ∧
      d.log.map (fun r => (r.a, r.reads))
        = (List.range 10).map (fun a => (a, List.range' (50 * a) 50)) ∧
      (∀ p, p < 4 → passReads s.log p = List.range 500) ∧
      passReads d.log 0 = List.range 500 ∧
      (∀ r ∈ s.log, ∀ i ∈ r.reads, i < 500) ∧
      (∀ r ∈ d.log, ∀ i ∈ r.reads, i < 500) :=
  ⟨List.length_replicate 500 0, by decide,
    C8_bins_partition_buffer (List.replicate 500 0) (List.length_replicate 500 0) 51
      (by decide)⟩

/-- C9 (counterexample): with `ADCBUFFERSIZE = 100`, which 50 divides, a pass
visits 2 bins; the first reads the 10 indices 0..9, the second the 50 indices
10..59, and the indices 60..99 are never read. -/
theorem C9_counterexample :
    50 ∣ 100 ∧
    (binLoop 100 (List.replicate 100 0) 51 DetState.init).map
        (fun s => s.log.map (fun r => r.reads))
      = some [List.range' 0 10, List.range' 10 50] := by
  refine ⟨by decide, ?_⟩
  decide!

/-- C9 (amended): with the buffer length as a parameter N (the loop bounds
within the 16-bit counters), a pass of the four-pass and of the single-pass
detector returns after N/50 bins; bin 0 reads the N/10 indices 0..N/10-1 and
each later bin a reads the 50 indices N/10+50(a-1)..N/10+50a-1.  For N = 500
this is the partition into 10 bins of 50 consecutive samples, reading every
index 0..499 exactly once and none >= 500. -/
theorem C9_pass_reads (N : Nat) (microVoltBuffer : List Nat) (fuel : Nat)
    (hN : N / 10 + 50 * (N / 50) < 65536) (hfuel : 50 < fuel) (hfuel1 : N / 10 < fuel)
    (hfuel2 : N / 50 < fuel) :
    ∃ (s : DetState) (d : dvt.State),
      binLoop N microVoltBuffer fuel DetState.init = some s ∧
      dvt.binLoop N microVoltBuffer fuel dvt.State.init = some d ∧
      s.log.map (fun r => (r.a, r.reads))
        = (List.range (N / 50)).map (fun a =>
            (a, if a = 0 then List.range' 0 (N / 10)
                else List.range' (N / 10 + 50 * (a - 1)) 50)) ∧
      d.log.map (fun r => (r.a, r.reads)) = s.log.map (fun r => (r.a, r.reads)) ∧
      (N = 500 →
        s.log.map (fun r => (r.a, r.reads))
          = (List.range 10).map (fun a => (a, List.range' (50 * a) 50)) ∧
        passReads s.log 0 = List.range 500 ∧
        ∀ r ∈ s.log, ∀ i ∈ r.reads, i < 500) := by
  obtain ⟨s, h1, _, h3, _⟩ := binLoop_iter N microVoltBuffer fuel hN hfuel (N / 50) fuel
    DetState.init (by simp [DetState.init]) (by simp [DetState.init])
    (by simp only [DetState.init, binEnd]; omega) rfl
    (by simp only [DetState.init]; omega) hfuel2
  obtain ⟨d, g1, g2, _⟩ := dvt_binLoop_spec N microVoltBuffer fuel hN hfuel hfuel1 hfuel2
  have hs : s.log = binRecords N microVoltBuffer 0 (N / 50) 0 0 0 := by
    simpa [DetState.init] using h3
  have hform : s.log.map (fun r => (r.a, r.reads))
      = (List.range (N / 50)).map (fun a =>
          (a, if a = 0 then List.range' 0 (N / 10)
              else List.range' (N / 10 + 50 * (a - 1)) 50)) := by
    rw [hs, binRecords_reads]
    apply List.map_congr_left
    intro i _
    simp [binEnd]
  refine ⟨s, d, h1, g1, hform, by rw [g2, hs], ?_⟩
  intro h500
  subst h500
  rw [hs, binRecords_500]
  refine ⟨rfl, passReads_onePassLog microVoltBuffer, ?_⟩
  intro r hr i hi
  unfold onePassLog at hr
  simp only [List.mem_map, List.mem_range] at hr
  obtain ⟨j, _, rfl⟩ := hr
  simp only [List.mem_range'_1] at hi
  omega

/-- Witness for C9: `N = 500`, the all-zero buffer, fuel 51. -/
theorem C9_pass_reads_witness :
    500 / 10 + 50 * (500 / 50) < 65536 ∧ 50 < 51 ∧ 500 / 10 < 51 ∧ 500 / 50 < 51 ∧
    ∃ (s : DetState) (d : dvt.State),
      binLoop 500 (List.replicate 500 0) 51 DetState.init = some s ∧
      dvt.binLoop 500 (List.replicate 500 0) 51 dvt.State.init = some d ∧
      s.log.map (fun r => (r.a, r.reads))
        = (List.range (500 / 50)).map (fun a =>
            (a, if a = 0 then List.range' 0 (500 / 10)
                else List.range' (500 / 10 + 50 * (a - 1)) 50)) ∧
      d.log.map (fun r => (r.a, r.reads)) = s.log.map (fun r => (r.a, r.reads)) ∧
      (500 = 500 →
        s.log.map (fun r => (r.a, r.reads))
          = (List.range 10).map (fun a => (a, List.range' (50 * a) 50)) ∧
        passReads s.log 0 = List.range 500 ∧
        ∀ r ∈ s.log, ∀ i ∈ r.reads, i < 500) :=
  ⟨by decide, by decide, by decide, by decide,
    C9_pass_reads 500 (List.replicate 500 0) 51 (by decide) (by decide) (by decide)
      (by decide)⟩

/-- C10: in the four-pass detectors of `rfEchoTx.c` and `rfEchoRx.c` the bin
index is never reset: on every buffer the callbacks return, the a-th bin
(a in 0..9) of pass p (p in 0..3) is the evaluation number 10p + a and is made
with `bin_number = 10p + a`, and `bin_number` is 40 when the passes finish. -/
theorem C10_bin_numbers_continuous (microVoltBuffer : List Nat)
    (_hlen : microVoltBuffer.length = 500) (fuel : Nat) (hfuel : 50 < fuel) :
    ∃ (s : DetState) (eT eR : List Effect),
      rfEchoTx.adcBufCallback microVoltBuffer fuel = some (s, eT) ∧
      rfEchoRx.adcBufCallback microVoltBuffer fuel = some (s, eR) ∧
      s.bin_number = 40 ∧ s.log.length = 40 ∧
      ∀ p a, p < 4 → a < 10 →
        ∃ r, s.log[10 * p + a]? = some r ∧ r.run_number = p ∧ r.a = a ∧
          r.bin_number = 10 * p + a := by
  obtain ⟨s, h1, h2, _, h4, h5, _⟩ := callbacks_500 microVoltBuffer fuel hfuel
  refine ⟨s, _, _, h1, h2, h4, ?_, ?_⟩
  · rw [h5]
    simp [fourPassLog]
  · intro p a hp ha
    rw [h5]
    unfold fourPassLog
    rw [List.getElem?_map, List.getElem?_range (by omega)]
    refine ⟨_, rfl, ?_, ?_, rfl⟩
    · simp only
      omega
    · simp only
      omega

/-- Witness for C10: the all-zero buffer with fuel 51. -/
theorem C10_bin_numbers_continuous_witness :
    (List.replicate 500 0).length = 500 ∧ 50 < 51 ∧
    ∃ (s : DetState) (eT eR : List Effect),
      rfEchoTx.adcBufCallback (List.replicate 500 0) 51 = some (s, eT) ∧
      rfEchoRx.adcBufCallback (List.replicate 500 0) 51 = some (s, eR) ∧
      s.bin_number = 40 ∧ s.log.length = 40 ∧
      ∀ p a, p < 4 → a < 10 →
        ∃ r, s.log[10 * p + a]? = some r ∧ r.run_number = p ∧ r.a = a ∧
          r.bin_number = 10 * p + a :=
  ⟨List.length_replicate 500 0, by decide,
    C10_bin_numbers_continuous (List.replicate 500 0) (List.length_replicate 500 0) 51
      (by decide)⟩

/-! ## Second group of claims: the end-to-end scenario and the foreground loops -/

/-- What the transmitter callback returns determines its log. -/
theorem adcBufCallback_log (buf : List Nat) (fuel : Nat) (hf : 50 < fuel) (s : DetState)
    (e : List Effect) (h : rfEchoTx.adcBufCallback buf fuel = some (s, e)) :
    s.log = fourPassLog buf := by
  obtain ⟨s1, h1, _, _, _, h5, _⟩ := callbacks_500 buf fuel hf
  rw [h1] at h
  simp only [Option.some.injEq, Prod.mk.injEq] at h
  rw [← h.1]
  exact h5

/-- C11 (counterexample): no 500-sample buffer makes the detector see average
60000 at continuous bin 15 and average 0 at every other bin: bin 15 and bin 5
are evaluations of the same samples. -/
theorem C11_counterexample :
    ¬ ∃ (buf : List Nat) (fuel : Nat) (s : DetState) (e : List Effect),
        50 < fuel ∧ rfEchoTx.adcBufCallback buf fuel = some (s, e) ∧
        ∀ r ∈ s.log, r.bin_average = if r.bin_number = 15 then 60000 else 0 := by
  rintro ⟨buf, fuel, s, e, hf, h, hall⟩
  have hlog := adcBufCallback_log buf fuel hf s e h
  rw [hlog] at hall
  have h15 := hall _ ((mem_fourPassLog buf _).mpr ⟨15, by omega, rfl⟩)
  have h5 := hall _ ((mem_fourPassLog buf _).mpr ⟨5, by omega, rfl⟩)
  simp at h15 h5
  omega

/-- C11 (amended): with 500 samples, 4 passes, window bound 23: on the buffer
whose bin-5 samples (indices 250..299) are 600000 and whose other samples are
0 the maximum average is 60000, recorded at bin 5; the alarm is ON with
threshold 50000 and OFF with threshold 70000.  In the decision step a maximum
of 60000 recorded at continuous bin 15 gives ON with threshold 50000 and OFF
with threshold 70000, and recorded at bin 30 it gives OFF for every threshold. -/
theorem C11_end_to_end (fuel : Nat) (hfuel : 50 < fuel) :
    (∃ s : DetState,
      rfEchoTx.adcBufCallback (oneBinBuffer 5 600000) fuel
        = some (s, [Effect.PIN_setOutputValue Pin.Board_DIO15 1,
                    Effect.ADCBuf_convertCancel]) ∧
      s.total_max = 60000 ∧ s.saved_bin_number = 5) ∧
    (∃ s : DetState,
      detectorCallback ADCBUFFERSIZE 70000 23 (oneBinBuffer 5 600000) fuel
        = some (s, [Effect.PIN_setOutputValue Pin.Board_DIO15 0,
                    Effect.ADCBuf_convertCancel]) ∧
      s.total_max = 60000 ∧ s.saved_bin_number = 5) ∧
    alarmStep 50000 23 60000 15 = [Effect.PIN_setOutputValue Pin.Board_DIO15 1] ∧
    alarmStep 70000 23 60000 15 = [Effect.PIN_setOutputValue Pin.Board_DIO15 0] ∧
    (∀ threshold, alarmStep threshold 23 60000 30
      = [Effect.PIN_setOutputValue Pin.Board_DIO15 0]) := by
  refine ⟨?_, ?_, by decide, by decide, ?_⟩
  · obtain ⟨s, h1, h2, h3⟩ := detectorCallback_oneBin 5 600000 50000 23 fuel (by decide)
      (by decide) hfuel
    exact ⟨s, h1, h2, h3 (by decide)⟩
  · obtain ⟨s, h1, h2, h3⟩ := detectorCallback_oneBin 5 600000 70000 23 fuel (by decide)
      (by decide) hfuel
    exact ⟨s, h1, h2, h3 (by decide)⟩
  · intro t
    unfold alarmStep
    rw [if_neg]
    omega

/-- Witness for C11: fuel 51. -/
theorem C11_end_to_end_witness :
    50 < 51 ∧
    (∃ s : DetState,
      rfEchoTx.adcBufCallback (oneBinBuffer 5 600000) 51
        = some (s, [Effect.PIN_setOutputValue Pin.Board_DIO15 1,
                    Effect.ADCBuf_convertCancel]) ∧
      s.total_max = 60000 ∧ s.saved_bin_number = 5) ∧
    (∃ s : DetState,
      detectorCallback ADCBUFFERSIZE 70000 23 (oneBinBuffer 5 600000) 51
        = some (s, [Effect.PIN_setOutputValue Pin.Board_DIO15 0,
                    Effect.ADCBuf_convertCancel]) ∧
      s.total_max = 60000 ∧ s.saved_bin_number = 5) ∧
    alarmStep 50000 23 60000 15 = [Effect.PIN_setOutputValue Pin.Board_DIO15 1] ∧
    alarmStep 70000 23 60000 15 = [Effect.PIN_setOutputValue Pin.Board_DIO15 0] ∧
    (∀ threshold, alarmStep threshold 23 60000 30
      = [Effect.PIN_setOutputValue Pin.Board_DIO15 0]) :=
  ⟨by decide, C11_end_to_end 51 (by decide)⟩

/-- The calls of a transmitter iteration: the prefix, then `ADCBuf_convert`
exactly when both switches and the null check are passed. -/
theorem tx_iteration_trace (c : SdkConsts) (adcBufOpen : Bool) (inp : rfEchoTx.Inputs)
    (s : rfEchoTx.LoopState) :
    (rfEchoTx.iteration c adcBufOpen inp s).trace
      = rfEchoTx.prefixCalls c inp (rfEchoTx.buildPacket inp.rand s)
        ++ (if terminationRecognised c inp.terminationReason = true ∧
              rfEchoTx.statusListed c inp.cmdStatus = true ∧ adcBufOpen = true
            then [Call.ADCBuf_convert] else []) := by
  unfold rfEchoTx.iteration
  by_cases h1 : terminationRecognised c inp.terminationReason = true <;>
  by_cases h2 : rfEchoTx.statusListed c inp.cmdStatus = true <;>
  by_cases h3 : adcBufOpen = true <;>
  by_cases h4 : inp.convertStatus = c.ADCBuf_STATUS_SUCCESS <;>
  simp [h1, h2, h3, h4, Step.trace]

/-- When a transmitter iteration goes on, its next state is the one packet
construction left. -/
theorem tx_iteration_next (c : SdkConsts) (adcBufOpen : Bool) (inp : rfEchoTx.Inputs)
    (s s1 : rfEchoTx.LoopState) (t : List Call)
    (h : rfEchoTx.iteration c adcBufOpen inp s = Step.next s1 t) :
    s1 = rfEchoTx.buildPacket inp.rand s := by
  unfold rfEchoTx.iteration at h
  by_cases h1 : terminationRecognised c inp.terminationReason = true <;>
  by_cases h2 : rfEchoTx.statusListed c inp.cmdStatus = true <;>
  by_cases h3 : adcBufOpen = true <;>
  by_cases h4 : inp.convertStatus = c.ADCBuf_STATUS_SUCCESS <;>
  simp [h1, h2, h3, h4] at h
  exact h.1.symm

/-- A receiver iteration goes on exactly when the termination reason is
recognised and the status is `PROP_DONE_OK` with sampling started correctly, or
another listed status. -/
theorem rx_iteration_halted (c : SdkConsts) (adcBufOpen : Bool) (inp : rfEchoRx.Inputs) :
    (rfEchoRx.iteration c adcBufOpen inp ()).halted = false ↔
      terminationRecognised c inp.terminationReason = true ∧
      ((inp.cmdStatus = c.PROP_DONE_OK ∧ adcBufOpen = true ∧
          inp.convertStatus = c.ADCBuf_STATUS_SUCCESS) ∨
       (inp.cmdStatus ≠ c.PROP_DONE_OK ∧ rfEchoRx.statusListed c inp.cmdStatus = true)) := by
  unfold rfEchoRx.iteration
  by_cases h1 : terminationRecognised c inp.terminationReason = true <;>
  by_cases h2 : inp.cmdStatus = c.PROP_DONE_OK <;>
  by_cases h3 : adcBufOpen = true <;>
  by_cases h4 : inp.convertStatus = c.ADCBuf_STATUS_SUCCESS <;>
  by_cases h5 : rfEchoRx.statusListed c inp.cmdStatus = true <;>
  simp [h1, h2, h3, h4, h5, Step.halted]

/-- The calls of a receiver iteration. -/
theorem rx_iteration_trace (c : SdkConsts) (adcBufOpen : Bool) (inp : rfEchoRx.Inputs) :
    (rfEchoRx.iteration c adcBufOpen inp ()).trace
      = rfEchoRx.prefixCalls
        ++ (if terminationRecognised c inp.terminationReason = true ∧
              inp.cmdStatus = c.PROP_DONE_OK ∧ adcBufOpen = true
            then [Call.ADCBuf_convert] else [])
        ++ (if (rfEchoRx.iteration c adcBufOpen inp ()).halted = false
            then rfEchoRx.echoAndBurst c inp else []) := by
  unfold rfEchoRx.iteration
  by_cases h1 : terminationRecognised c inp.terminationReason = true <;>
  by_cases h2 : inp.cmdStatus = c.PROP_DONE_OK <;>
  by_cases h3 : adcBufOpen = true <;>
  by_cases h4 : inp.convertStatus = c.ADCBuf_STATUS_SUCCESS <;>
  by_cases h5 : rfEchoRx.statusListed c inp.cmdStatus = true <;>
  simp [h1, h2, h3, h4, h5, Step.halted, Step.trace]

theorem pwmCalls_tx (c : SdkConsts) (adcBufOpen : Bool) (inp : rfEchoTx.Inputs)
    (s : rfEchoTx.LoopState) :
    pwmCalls (rfEchoTx.iteration c adcBufOpen inp s).trace
      = [Call.PWM_setDuty (burstDuty c.PWM_DUTY_FRACTION_MAX), Call.PWM_setDuty 0] := by
  rw [tx_iteration_trace]
  split <;> simp [pwmCalls, rfEchoTx.prefixCalls, burst]

theorem pwmCalls_rx (c : SdkConsts) (adcBufOpen : Bool) (inp : rfEchoRx.Inputs) :
    pwmCalls (rfEchoRx.iteration c adcBufOpen inp ()).trace
      = if (rfEchoRx.iteration c adcBufOpen inp ()).halted = false
        then [Call.PWM_setDuty (burstDuty c.PWM_DUTY_FRACTION_MAX), Call.PWM_setDuty 0]
        else [] := by
  rw [rx_iteration_trace]
  split <;> split <;> simp [pwmCalls, rfEchoRx.prefixCalls, rfEchoRx.echoAndBurst, burst]

/-- C12 (counterexample): with the SDK constants, a receiver iteration whose
exchange ended with `RF_EventLastCmdDone` and status `PROP_DONE_RXTIMEOUT`
issues the burst with the nonzero duty, and so does a transmitter iteration
whose exchange ended with `RF_EventCmdCancelled`. -/
theorem C12_counterexample :
    Call.PWM_setDuty 2147483647 ∈
      (rfEchoRx.iteration simplelink true
        { terminationReason := simplelink.RF_EventLastCmdDone,
          cmdStatus := simplelink.PROP_DONE_RXTIMEOUT,
          timeStamp := 0, convertStatus := 0, txPacket := [] } ()).trace ∧
    Call.PWM_setDuty 2147483647 ∈
      (rfEchoTx.iteration simplelink true
        { curtime := 0, rand := [], terminationReason := simplelink.RF_EventCmdCancelled,
          cmdStatus := simplelink.PROP_DONE_STOPPED, convertStatus := 0 }
        rfEchoTx.LoopState.init).trace := by
  constructor <;> decide

/-- C12 (amended): the burst does not depend on the exchange outcome.  In
`rfEchoTx.c` every loop iteration issues the burst (before its exchange is
run); in `rfEchoRx.c` an iteration issues the burst exactly when it does not
halt, that is for every recognised termination reason with a listed status
(the status `PROP_DONE_OK` provided sampling started correctly). -/
theorem C12_burst_every_iteration (c : SdkConsts) (adcBufOpen : Bool)
    (tx : rfEchoTx.Inputs) (s : rfEchoTx.LoopState) (rx : rfEchoRx.Inputs) :
    pwmCalls (rfEchoTx.iteration c adcBufOpen tx s).trace
      = [Call.PWM_setDuty (burstDuty c.PWM_DUTY_FRACTION_MAX), Call.PWM_setDuty 0] ∧
    pwmCalls (rfEchoRx.iteration c adcBufOpen rx ()).trace
      = (if (rfEchoRx.iteration c adcBufOpen rx ()).halted = false
         then [Call.PWM_setDuty (burstDuty c.PWM_DUTY_FRACTION_MAX), Call.PWM_setDuty 0]
         else []) ∧
    ((rfEchoRx.iteration c adcBufOpen rx ()).halted = false ↔
      terminationRecognised c rx.terminationReason = true ∧
      ((rx.cmdStatus = c.PROP_DONE_OK ∧ adcBufOpen = true ∧
          rx.convertStatus = c.ADCBuf_STATUS_SUCCESS) ∨
       (rx.cmdStatus ≠ c.PROP_DONE_OK ∧ rfEchoRx.statusListed c rx.cmdStatus = true))) :=
  ⟨pwmCalls_tx c adcBufOpen tx s, pwmCalls_rx c adcBufOpen rx,
    rx_iteration_halted c adcBufOpen rx⟩

theorem foldl_set_length (f : Nat → Nat) (idx : List Nat) :
    ∀ l : List Nat, (idx.foldl (fun pkt i => pkt.set i (f i)) l).length = l.length := by
  induction idx with
  | nil => intro l; rfl
  | cons i idx ih =>
    intro l
    rw [List.foldl_cons, ih, List.length_set]

theorem foldl_set_getD (f : Nat → Nat) (j : Nat) (idx : List Nat) (hj : ∀ i ∈ idx, i ≠ j) :
    ∀ l : List Nat, (idx.foldl (fun pkt i => pkt.set i (f i)) l).getD j 0 = l.getD j 0 := by
  induction idx with
  | nil => intro l; rfl
  | cons i idx ih =>
    intro l
    rw [List.foldl_cons, ih (fun k hk => hj k (List.mem_cons_of_mem _ hk))]
    rw [List.getD_eq_getElem?_getD, List.getD_eq_getElem?_getD,
      List.getElem?_set_ne (hj i (List.mem_cons_self _ _))]

/-- Packet construction keeps the packet length, advances the counter by one
modulo `2^16`, and stores the old counter big-endian in bytes 0 and 1. -/
theorem buildPacket_spec (rand : List Nat) (s : rfEchoTx.LoopState)
    (hlen : s.txPacket.length = 30) (hseq : s.seqNumber < 65536) :
    (rfEchoTx.buildPacket rand s).txPacket.length = 30 ∧
    (rfEchoTx.buildPacket rand s).seqNumber = (s.seqNumber + 1) % 65536 ∧
    (rfEchoTx.buildPacket rand s).txPacket.getD 0 0 * 256
      + (rfEchoTx.buildPacket rand s).txPacket.getD 1 0 = s.seqNumber := by
  unfold rfEchoTx.buildPacket
  refine ⟨?_, rfl, ?_⟩
  · simp only
    rw [foldl_set_length (fun i => rand.getD (i - 2) 0 % 256)]
    simp [hlen]
  · simp only
    rw [foldl_set_getD (fun i => rand.getD (i - 2) 0 % 256) 0,
      foldl_set_getD (fun i => rand.getD (i - 2) 0 % 256) 1]
    · rw [List.getD_eq_getElem?_getD, List.getD_eq_getElem?_getD,
        List.getElem?_set_ne (by decide),
        List.getElem?_set_self (by rw [hlen]; decide),
        List.getElem?_set_self (by rw [List.length_set, hlen]; decide)]
      simp only [Option.getD_some, Nat.shiftRight_eq_div_pow]
      omega
    · intro i hi
      simp only [PAYLOAD_LENGTH, List.mem_range'_1] at hi
      omega
    · intro i hi
      simp only [PAYLOAD_LENGTH, List.mem_range'_1] at hi
      omega

/-- After a script that did not halt, the counter has advanced by the number
of iterations and the packet still has 30 bytes. -/
theorem tx_runLoop_seq (c : SdkConsts) (adcBufOpen : Bool) :
    ∀ (script : List rfEchoTx.Inputs) (s0 s : rfEchoTx.LoopState) (t : List Call),
      s0.txPacket.length = 30 → s0.seqNumber < 65536 →
      runLoop (rfEchoTx.iteration c adcBufOpen) script s0 = (t, some s) →
      s.seqNumber = (s0.seqNumber + script.length) % 65536 ∧ s.txPacket.length = 30 := by
  intro script
  induction script with
  | nil =>
    intro s0 s t hlen hseq h
    simp only [runLoop, Prod.mk.injEq, Option.some.injEq] at h
    rw [← h.2]
    exact ⟨by simp; omega, hlen⟩
  | cons i rest ih =>
    intro s0 s t hlen hseq h
    unfold runLoop at h
    cases hstep : rfEchoTx.iteration c adcBufOpen i s0 with
    | halt t1 =>
      rw [hstep] at h
      simp at h
    | next s1 t1 =>
      rw [hstep] at h
      simp only [Prod.mk.injEq] at h
      have hs1 := tx_iteration_next c adcBufOpen i s0 s1 t1 hstep
      obtain ⟨b1, b2, _⟩ := buildPacket_spec i.rand s0 hlen hseq
      rw [← hs1] at b1 b2
      have hrec := ih s1 s (runLoop (rfEchoTx.iteration c adcBufOpen) rest s1).1 b1
        (by rw [b2]; omega) (Prod.ext rfl h.2)
      refine ⟨?_, hrec.2⟩
      rw [hrec.1, b2, List.length_cons]
      omega

/-- C13: in the transmitter loop of `rfEchoTx.c`, starting from `seqNumber = 0`,
after any n iterations that went on (whatever their radio outcomes) the counter
is n mod 65536, and the packet built in the next iteration, the one handed to
`RF_runCmd`, has 30 bytes of which the first two are the big-endian encoding of
n mod 65536; the counter then is (n + 1) mod 65536. -/
theorem C13_sequence_number (c : SdkConsts) (adcBufOpen : Bool)
    (script : List rfEchoTx.Inputs) (s : rfEchoTx.LoopState) (inp : rfEchoTx.Inputs)
    (hrun : (rfEchoTx.mainLoop c adcBufOpen script).2 = some s) :
    s.seqNumber = script.length % 65536 ∧
    (rfEchoTx.buildPacket inp.rand s).txPacket.length = PAYLOAD_LENGTH ∧
    (rfEchoTx.buildPacket inp.rand s).txPacket.getD 0 0 * 256
      + (rfEchoTx.buildPacket inp.rand s).txPacket.getD 1 0 = script.length % 65536 ∧
    (rfEchoTx.buildPacket inp.rand s).seqNumber = (script.length + 1) % 65536 ∧
    Call.RF_runCmd (RadioOp.RF_cmdPropTx TriggerType.TRIG_ABSTIME
        ((inp.curtime + rfEchoTx.txOffset) % 2 ^ 32)
        (rfEchoTx.buildPacket inp.rand s).txPacket)
      ∈ (rfEchoTx.iteration c adcBufOpen inp s).trace := by
  obtain ⟨h1, h2⟩ := tx_runLoop_seq c adcBufOpen script rfEchoTx.LoopState.init s
    (rfEchoTx.mainLoop c adcBufOpen script).1
    (by simp [rfEchoTx.LoopState.init, PAYLOAD_LENGTH]) (by simp [rfEchoTx.LoopState.init])
    (Prod.ext rfl hrun)
  have h1' : s.seqNumber = script.length % 65536 := by
    simpa [rfEchoTx.LoopState.init] using h1
  obtain ⟨b1, b2, b3⟩ := buildPacket_spec inp.rand s h2 (by omega)
  refine ⟨h1', b1, by rw [b3, h1'], ?_, ?_⟩
  · rw [b2, h1']
    omega
  · rw [tx_iteration_trace]
    simp [rfEchoTx.prefixCalls]

/-- Witness for C13: two iterations with outcome `RF_EventLastCmdDone` and
status `PROP_DONE_OK`, then a third. -/
theorem C13_sequence_number_witness :
    (rfEchoTx.mainLoop simplelink true
        [{ curtime := 0, rand := [], terminationReason := 2, cmdStatus := 13312,
           convertStatus := 0 },
         { curtime := 0, rand := [], terminationReason := 2, cmdStatus := 13312,
           convertStatus := 0 }]).2
      = some { seqNumber := 2, txPacket := 0 :: 1 :: List.replicate 28 0 } ∧
    (2 = 2 % 65536 ∧
     (rfEchoTx.buildPacket [7, 8]
        { seqNumber := 2, txPacket := 0 :: 1 :: List.replicate 28 0 }).txPacket.length
        = PAYLOAD_LENGTH ∧
     (rfEchoTx.buildPacket [7, 8]
        { seqNumber := 2, txPacket := 0 :: 1 :: List.replicate 28 0 }).txPacket.getD 0 0 * 256
       + (rfEchoTx.buildPacket [7, 8]
        { seqNumber := 2, txPacket := 0 :: 1 :: List.replicate 28 0 }).txPacket.getD 1 0
        = 2 % 65536 ∧
     (rfEchoTx.buildPacket [7, 8]
        { seqNumber := 2, txPacket := 0 :: 1 :: List.replicate 28 0 }).seqNumber
        = (2 + 1) % 65536 ∧
     Call.RF_runCmd (RadioOp.RF_cmdPropTx TriggerType.TRIG_ABSTIME
         ((5 + rfEchoTx.txOffset) % 2 ^ 32)
         (rfEchoTx.buildPacket [7, 8]
           { seqNumber := 2, txPacket := 0 :: 1 :: List.replicate 28 0 }).txPacket)
       ∈ (rfEchoTx.iteration simplelink true
           { curtime := 5, rand := [7, 8], terminationReason := 2, cmdStatus := 13312,
             convertStatus := 0 }
           { seqNumber := 2, txPacket := 0 :: 1 :: List.replicate 28 0 }).trace) :=
  ⟨by decide,
    C13_sequence_number simplelink true
      [{ curtime := 0, rand := [], terminationReason := 2, cmdStatus := 13312,
         convertStatus := 0 },
       { curtime := 0, rand := [], terminationReason := 2, cmdStatus := 13312,
         convertStatus := 0 }]
      { seqNumber := 2, txPacket := 0 :: 1 :: List.replicate 28 0 }
      { curtime := 5, rand := [7, 8], terminationReason := 2, cmdStatus := 13312,
        convertStatus := 0 }
      (by decide)⟩

/-- C14 (failing input): with the SDK constants, the transmitter iteration
whose exchange ended with `RF_EventCmdAborted` and status `PROP_DONE_ABORT`
calls `ADCBuf_convert`; the receiver iteration with the same outcome does not. -/
theorem C14_tx_samples_after_abort :
    startsSampling
      (rfEchoTx.iteration simplelink true
        { curtime := 0, rand := [], terminationReason := simplelink.RF_EventCmdAborted,
          cmdStatus := simplelink.PROP_DONE_ABORT, convertStatus := 0 }
        rfEchoTx.LoopState.init).trace = true ∧
    startsSampling
      (rfEchoRx.iteration simplelink true
        { terminationReason := simplelink.RF_EventCmdAborted,
          cmdStatus := simplelink.PROP_DONE_ABORT, timeStamp := 0, convertStatus := 0,
          txPacket := [] } ()).trace = false := by
  constructor <;> decide

/-- C15: in the foreground loop of both nodes, a termination reason other than
exactly the four recognised events, or a command status outside the listed
cases of the node's switch, makes the iteration halt, and after the
`RF_runCmd` that returned it only the two `PINCC26XX_setMux` calls are made: no
sampling, no further radio operation and no burst. -/
theorem C15_unrecognised_codes_halt (c : SdkConsts) (adcBufOpen : Bool)
    (tx : rfEchoTx.Inputs) (s : rfEchoTx.LoopState) (rx : rfEchoRx.Inputs)
    (htx : (tx.terminationReason ≠ c.RF_EventLastCmdDone ∧
            tx.terminationReason ≠ c.RF_EventCmdCancelled ∧
            tx.terminationReason ≠ c.RF_EventCmdAborted ∧
            tx.terminationReason ≠ c.RF_EventCmdStopped) ∨
           (tx.cmdStatus ≠ c.PROP_DONE_OK ∧ tx.cmdStatus ≠ c.PROP_DONE_STOPPED ∧
            tx.cmdStatus ≠ c.PROP_DONE_ABORT ∧ tx.cmdStatus ≠ c.PROP_ERROR_PAR ∧
            tx.cmdStatus ≠ c.PROP_ERROR_NO_SETUP ∧ tx.cmdStatus ≠ c.PROP_ERROR_NO_FS ∧
            tx.cmdStatus ≠ c.PROP_ERROR_TXUNF))
    (hrx : (rx.terminationReason ≠ c.RF_EventLastCmdDone ∧
            rx.terminationReason ≠ c.RF_EventCmdCancelled ∧
            rx.terminationReason ≠ c.RF_EventCmdAborted ∧
            rx.terminationReason ≠ c.RF_EventCmdStopped) ∨
           (rx.cmdStatus ≠ c.PROP_DONE_OK ∧ rx.cmdStatus ≠ c.PROP_DONE_RXERR ∧
            rx.cmdStatus ≠ c.PROP_DONE_RXTIMEOUT ∧ rx.cmdStatus ≠ c.PROP_DONE_BREAK ∧
            rx.cmdStatus ≠ c.PROP_DONE_ENDED ∧ rx.cmdStatus ≠ c.PROP_DONE_STOPPED ∧
            rx.cmdStatus ≠ c.PROP_DONE_ABORT ∧ rx.cmdStatus ≠ c.PROP_ERROR_RXBUF ∧
            rx.cmdStatus ≠ c.PROP_ERROR_RXFULL ∧ rx.cmdStatus ≠ c.PROP_ERROR_PAR ∧
            rx.cmdStatus ≠ c.PROP_ERROR_NO_SETUP ∧ rx.cmdStatus ≠ c.PROP_ERROR_NO_FS ∧
            rx.cmdStatus ≠ c.PROP_ERROR_RXOVF)) :
    (rfEchoTx.iteration c adcBufOpen tx s).halted = true ∧
    afterRunCmd (rfEchoTx.iteration c adcBufOpen tx s).trace
      = [Call.PINCC26XX_setMux 24, Call.PINCC26XX_setMux 26] ∧
    (rfEchoRx.iteration c adcBufOpen rx ()).halted = true ∧
    afterRunCmd (rfEchoRx.iteration c adcBufOpen rx ()).trace
      = [Call.PINCC26XX_setMux 24, Call.PINCC26XX_setMux 26] := by
  have h1 : terminationRecognised c tx.terminationReason = false ∨
      rfEchoTx.statusListed c tx.cmdStatus = false := by
    rcases htx with h | h
    · left
      simp [terminationRecognised, h]
    · right
      simp [rfEchoTx.statusListed, h]
  have h2 : terminationRecognised c rx.terminationReason = false ∨
      (rx.cmdStatus ≠ c.PROP_DONE_OK ∧ rfEchoRx.statusListed c rx.cmdStatus = false) := by
    rcases hrx with h | h
    · left
      simp [terminationRecognised, h]
    · right
      exact ⟨h.1, by simp [rfEchoRx.statusListed, h]⟩
  refine ⟨?_, ?_, ?_, ?_⟩
  · unfold rfEchoTx.iteration
    rcases h1 with h | h
    · simp [h, Step.halted]
    · by_cases hr : terminationRecognised c tx.terminationReason = true <;>
        simp [h, hr, Step.halted]
  · unfold rfEchoTx.iteration
    rcases h1 with h | h
    · simp [h, Step.trace, rfEchoTx.prefixCalls, burst, afterRunCmd]
    · by_cases hr : terminationRecognised c tx.terminationReason = true <;>
        simp [h, hr, Step.trace, rfEchoTx.prefixCalls, burst, afterRunCmd]
  · unfold rfEchoRx.iteration
    rcases h2 with h | ⟨h, h'⟩
    · simp [h, Step.halted]
    · by_cases hr : terminationRecognised c rx.terminationReason = true <;>
        simp [h, h', hr, Step.halted]
  · unfold rfEchoRx.iteration
    rcases h2 with h | ⟨h, h'⟩
    · simp [h, Step.trace, rfEchoRx.prefixCalls, afterRunCmd]
    · by_cases hr : terminationRecognised c rx.terminationReason = true <;>
        simp [h, h', hr, Step.trace, rfEchoRx.prefixCalls, afterRunCmd]

/-- Witness for C15: with the SDK constants, termination reason 0 on the
transmitter and status 0 on the receiver. -/
theorem C15_unrecognised_codes_halt_witness :
    (rfEchoTx.iteration simplelink true
      { curtime := 0, rand := [], terminationReason := 0, cmdStatus := 13312,
        convertStatus := 0 } rfEchoTx.LoopState.init).halted = true ∧
    afterRunCmd (rfEchoTx.iteration simplelink true
      { curtime := 0, rand := [], terminationReason := 0, cmdStatus := 13312,
        convertStatus := 0 } rfEchoTx.LoopState.init).trace
      = [Call.PINCC26XX_setMux 24, Call.PINCC26XX_setMux 26] ∧
    (rfEchoRx.iteration simplelink true
      { terminationReason := 2, cmdStatus := 0, timeStamp := 0, convertStatus := 0,
        txPacket := [] } ()).halted = true ∧
    afterRunCmd (rfEchoRx.iteration simplelink true
      { terminationReason := 2, cmdStatus := 0, timeStamp := 0, convertStatus := 0,
        txPacket := [] } ()).trace
      = [Call.PINCC26XX_setMux 24, Call.PINCC26XX_setMux 26] :=
  C15_unrecognised_codes_halt simplelink true
    { curtime := 0, rand := [], terminationReason := 0, cmdStatus := 13312,
      convertStatus := 0 } rfEchoTx.LoopState.init
    { terminationReason := 2, cmdStatus := 0, timeStamp := 0, convertStatus := 0,
      txPacket := [] }
    (Or.inl (by decide)) (Or.inr (by decide))

/-- The two float products evaluate to 400000 and 400, and every rounding is
made at the scale at which the significand has 24 bits. -/
theorem float_constants :
    rfEchoRx.TX_DELAY = 400000 ∧ rfEchoTx.txOffset = 400 ∧
    (2 ^ 23 ≤ binary32 1 10 27 ∧ binary32 1 10 27 < 2 ^ 24) ∧
    (2 ^ 23 ≤ binary32 (4000000 * binary32 1 10 27) (2 ^ 27) 5 ∧
      binary32 (4000000 * binary32 1 10 27) (2 ^ 27) 5 < 2 ^ 24) ∧
    (2 ^ 23 ≤ binary32 1 10000 37 ∧ binary32 1 10000 37 < 2 ^ 24) ∧
    (2 ^ 23 ≤ binary32 (4000000 * binary32 1 10000 37) (2 ^ 37) 15 ∧
      binary32 (4000000 * binary32 1 10000 37) (2 ^ 37) 15 < 2 ^ 24) := by
  decide

/-- C18: in the receiver loop of `rfEchoRx.c` every echo transmit is run with
an absolute-time trigger and start time (t + TX_DELAY) mod 2^32, where t is the
receive timestamp and TX_DELAY = 400000; an iteration that does not halt runs
it.  In the transmitter loop of `rfEchoTx.c` the transmit is run with an
absolute-time trigger and start time (current radio time + 400) mod 2^32. -/
theorem C18_start_times (c : SdkConsts) (adcBufOpen : Bool) (rx : rfEchoRx.Inputs)
    (tx : rfEchoTx.Inputs) (s : rfEchoTx.LoopState) :
    rfEchoRx.TX_DELAY = 400000 ∧ rfEchoTx.txOffset = 400 ∧
    (∀ trig st pkt,
      Call.RF_runCmd (RadioOp.RF_cmdPropTx trig st pkt)
          ∈ (rfEchoRx.iteration c adcBufOpen rx ()).trace →
        trig = TriggerType.TRIG_ABSTIME ∧ st = (rx.timeStamp + 400000) % 2 ^ 32) ∧
    ((rfEchoRx.iteration c adcBufOpen rx ()).halted = false →
      Call.RF_runCmd (RadioOp.RF_cmdPropTx TriggerType.TRIG_ABSTIME
          ((rx.timeStamp + 400000) % 2 ^ 32) rx.txPacket)
        ∈ (rfEchoRx.iteration c adcBufOpen rx ()).trace) ∧
    (∀ trig st pkt,
      Call.RF_runCmd (RadioOp.RF_cmdPropTx trig st pkt)
          ∈ (rfEchoTx.iteration c adcBufOpen tx s).trace →
        trig = TriggerType.TRIG_ABSTIME ∧ st = (tx.curtime + 400) % 2 ^ 32) ∧
    Call.RF_runCmd (RadioOp.RF_cmdPropTx TriggerType.TRIG_ABSTIME
        ((tx.curtime + 400) % 2 ^ 32) (rfEchoTx.buildPacket tx.rand s).txPacket)
      ∈ (rfEchoTx.iteration c adcBufOpen tx s).trace := by
  have hd : rfEchoRx.TX_DELAY = 400000 := float_constants.1
  have ho : rfEchoTx.txOffset = 400 := float_constants.2.1
  refine ⟨hd, ho, ?_, ?_, ?_, ?_⟩
  · intro trig st pkt hmem
    rw [rx_iteration_trace] at hmem
    simp only [rfEchoRx.prefixCalls, rfEchoRx.echoAndBurst, burst, hd] at hmem
    split at hmem <;> split at hmem <;> simp at hmem <;> exact ⟨hmem.1, hmem.2.1⟩
  · intro hh
    rw [rx_iteration_trace, if_pos hh]
    simp [rfEchoRx.echoAndBurst, hd]
  · intro trig st pkt hmem
    rw [tx_iteration_trace] at hmem
    simp only [rfEchoTx.prefixCalls, burst, ho] at hmem
    split at hmem <;> simp at hmem <;> exact ⟨hmem.1, hmem.2.1⟩
  · rw [tx_iteration_trace]
    simp [rfEchoTx.prefixCalls, ho]

/-- C19: for every 32-bit `PWM_DUTY_FRACTION_MAX` that is at least 2, the
product by 50 stays below 2^64, the quotient by 100 stays below 2^32, the duty
is `PWM_DUTY_FRACTION_MAX / 2`, nonzero and at most `PWM_DUTY_FRACTION_MAX`;
and the duty writes of an iteration of `rfEchoTx.c` and of `pwmled2.c` are the
pair duty, 0, those of an iteration of `rfEchoRx.c` are that pair or none. -/
theorem C19_burst_duty (c : SdkConsts) (adcBufOpen : Bool) (tx : rfEchoTx.Inputs)
    (s : rfEchoTx.LoopState) (rx : rfEchoRx.Inputs)
    (h32 : c.PWM_DUTY_FRACTION_MAX < 2 ^ 32) (h2 : 2 ≤ c.PWM_DUTY_FRACTION_MAX) :
    c.PWM_DUTY_FRACTION_MAX * 50 < 2 ^ 64 ∧
    c.PWM_DUTY_FRACTION_MAX * 50 / 100 < 2 ^ 32 ∧
    burstDuty c.PWM_DUTY_FRACTION_MAX = c.PWM_DUTY_FRACTION_MAX / 2 ∧
    0 < burstDuty c.PWM_DUTY_FRACTION_MAX ∧
    burstDuty c.PWM_DUTY_FRACTION_MAX ≤ c.PWM_DUTY_FRACTION_MAX ∧
    pwmCalls (rfEchoTx.iteration c adcBufOpen tx s).trace
      = [Call.PWM_setDuty (c.PWM_DUTY_FRACTION_MAX / 2), Call.PWM_setDuty 0] ∧
    (pwmCalls (rfEchoRx.iteration c adcBufOpen rx ()).trace
        = [Call.PWM_setDuty (c.PWM_DUTY_FRACTION_MAX / 2), Call.PWM_setDuty 0] ∨
      pwmCalls (rfEchoRx.iteration c adcBufOpen rx ()).trace = []) ∧
    pwmCalls (pwmled2.iteration c () ()).trace
      = [Call.PWM_setDuty (c.PWM_DUTY_FRACTION_MAX / 2), Call.PWM_setDuty 0] := by
  have h32' : c.PWM_DUTY_FRACTION_MAX < 4294967296 := h32
  have hd : burstDuty c.PWM_DUTY_FRACTION_MAX = c.PWM_DUTY_FRACTION_MAX / 2 := by
    unfold burstDuty
    have e1 : c.PWM_DUTY_FRACTION_MAX * 50 % 2 ^ 64 = c.PWM_DUTY_FRACTION_MAX * 50 :=
      Nat.mod_eq_of_lt (by omega)
    have e2 : c.PWM_DUTY_FRACTION_MAX * 50 / 100 = c.PWM_DUTY_FRACTION_MAX / 2 := by omega
    rw [e1, e2]
    exact Nat.mod_eq_of_lt (by omega)
  refine ⟨by omega, by omega, hd, by rw [hd]; omega, by rw [hd]; omega, ?_, ?_, ?_⟩
  · rw [pwmCalls_tx, hd]
  · rw [pwmCalls_rx, hd]
    split
    · left; rfl
    · right; rfl
  · simp [pwmled2.iteration, Step.trace, pwmCalls, burst, hd]

/-- Witness for C19: the SDK value `PWM_DUTY_FRACTION_MAX = 2^32 - 1`. -/
theorem C19_burst_duty_witness :
    simplelink.PWM_DUTY_FRACTION_MAX < 2 ^ 32 ∧ 2 ≤ simplelink.PWM_DUTY_FRACTION_MAX ∧
    simplelink.PWM_DUTY_FRACTION_MAX * 50 < 2 ^ 64 ∧
    simplelink.PWM_DUTY_FRACTION_MAX * 50 / 100 < 2 ^ 32 ∧
    burstDuty simplelink.PWM_DUTY_FRACTION_MAX = simplelink.PWM_DUTY_FRACTION_MAX / 2 ∧
    0 < burstDuty simplelink.PWM_DUTY_FRACTION_MAX ∧
    burstDuty simplelink.PWM_DUTY_FRACTION_MAX ≤ simplelink.PWM_DUTY_FRACTION_MAX ∧
    pwmCalls (rfEchoTx.iteration simplelink true
        { curtime := 0, rand := [], terminationReason := 2, cmdStatus := 13312,
          convertStatus := 0 } rfEchoTx.LoopState.init).trace
      = [Call.PWM_setDuty (simplelink.PWM_DUTY_FRACTION_MAX / 2), Call.PWM_setDuty 0] ∧
    (pwmCalls (rfEchoRx.iteration simplelink true
        { terminationReason := 2, cmdStatus := 13312, timeStamp := 0, convertStatus := 0,
          txPacket := [] } ()).trace
        = [Call.PWM_setDuty (simplelink.PWM_DUTY_FRACTION_MAX / 2), Call.PWM_setDuty 0] ∨
      pwmCalls (rfEchoRx.iteration simplelink true
        { terminationReason := 2, cmdStatus := 13312, timeStamp := 0, convertStatus := 0,
          txPacket := [] } ()).trace = []) ∧
    pwmCalls (pwmled2.iteration simplelink () ()).trace
      = [Call.PWM_setDuty (simplelink.PWM_DUTY_FRACTION_MAX / 2), Call.PWM_setDuty 0] :=
  ⟨by decide, by decide,
    C19_burst_duty simplelink true
      { curtime := 0, rand := [], terminationReason := 2, cmdStatus := 13312,
        convertStatus := 0 } rfEchoTx.LoopState.init
      { terminationReason := 2, cmdStatus := 13312, timeStamp := 0, convertStatus := 0,
        txPacket := [] }
      (by decide) (by decide)⟩

theorem dutyAfter_append (t1 t2 : List Call) :
    ∀ d, dutyAfter d (t1 ++ t2) = dutyAfter (dutyAfter d t1) t2 := by
  induction t1 with
  | nil => intro d; rfl
  | cons call t1 ih =>
    intro d
    cases call <;> simp [dutyAfter, ih]

theorem radioQuiet_append (t1 t2 : List Call) :
    ∀ d, radioQuiet d (t1 ++ t2) = (radioQuiet d t1 && radioQuiet (dutyAfter d t1) t2) := by
  induction t1 with
  | nil => intro d; simp [radioQuiet, dutyAfter]
  | cons call t1 ih =>
    intro d
    cases call <;> simp [radioQuiet, dutyAfter, ih, Bool.and_assoc]

/-- A loop each of whose iterations is quiet and ends at duty 0 is quiet over
every script and ends at duty 0. -/
theorem runLoop_quiet {ι σ : Type} (body : ι → σ → Step σ)
    (hbody : ∀ i s, radioQuiet 0 (body i s).trace = true ∧ dutyAfter 0 (body i s).trace = 0) :
    ∀ (script : List ι) (s : σ),
      radioQuiet 0 (runLoop body script s).1 = true ∧
      dutyAfter 0 (runLoop body script s).1 = 0 := by
  intro script
  induction script with
  | nil => intro s; simp [runLoop, radioQuiet, dutyAfter]
  | cons i rest ih =>
    intro s
    have hb := hbody i s
    unfold runLoop
    cases hstep : body i s with
    | halt t =>
      rw [hstep] at hb
      exact hb
    | next s1 t =>
      rw [hstep] at hb
      simp only [Step.trace] at hb
      have hr := ih s1
      simp only [radioQuiet_append, dutyAfter_append, hb.1, hb.2, hr.1, hr.2, Bool.and_self,
        and_self]

theorem tx_iteration_quiet (c : SdkConsts) (adcBufOpen : Bool) (inp : rfEchoTx.Inputs)
    (s : rfEchoTx.LoopState) :
    radioQuiet 0 (rfEchoTx.iteration c adcBufOpen inp s).trace = true ∧
    dutyAfter 0 (rfEchoTx.iteration c adcBufOpen inp s).trace = 0 := by
  rw [tx_iteration_trace]
  split <;> simp [rfEchoTx.prefixCalls, burst, radioQuiet, dutyAfter]

theorem rx_iteration_quiet (c : SdkConsts) (adcBufOpen : Bool) (inp : rfEchoRx.Inputs)
    (s : Unit) :
    radioQuiet 0 (rfEchoRx.iteration c adcBufOpen inp s).trace = true ∧
    dutyAfter 0 (rfEchoRx.iteration c adcBufOpen inp s).trace = 0 := by
  rw [rx_iteration_trace]
  split <;> split <;>
    simp [rfEchoRx.prefixCalls, rfEchoRx.echoAndBurst, burst, radioQuiet, dutyAfter]

/-- C20: in the foreground loops of `rfEchoTx.c` and `rfEchoRx.c`, over every
script of radio outcomes, starting from the duty 0 set at `PWM_open`: every
`RF_runCmd` is made while the PWM duty is 0, every nonzero `PWM_setDuty` is made
while the duty is 0, and the duty is 0 after the calls of the script, that is at
the head of every loop iteration. -/
theorem C20_radio_quiet (c : SdkConsts) (adcBufOpen : Bool)
    (scriptTx : List rfEchoTx.Inputs) (scriptRx : List rfEchoRx.Inputs) :
    radioQuiet 0 (rfEchoTx.mainLoop c adcBufOpen scriptTx).1 = true ∧
    dutyAfter 0 (rfEchoTx.mainLoop c adcBufOpen scriptTx).1 = 0 ∧
    radioQuiet 0 (rfEchoRx.mainLoop c adcBufOpen scriptRx).1 = true ∧
    dutyAfter 0 (rfEchoRx.mainLoop c adcBufOpen scriptRx).1 = 0 := by
  have h1 := runLoop_quiet (rfEchoTx.iteration c adcBufOpen) (tx_iteration_quiet c adcBufOpen)
    scriptTx rfEchoTx.LoopState.init
  have h2 := runLoop_quiet (rfEchoRx.iteration c adcBufOpen) (rx_iteration_quiet c adcBufOpen)
    scriptRx ()
  exact ⟨h1.1, h1.2, h2.1, h2.2⟩

/-! ## The radio callbacks -/

theorem memcpy_getD (dst src : List Nat) (n i : Nat) (h : i < n) :
    (memcpy dst src n).getD i 0 = src.getD i 0 := by
  unfold memcpy
  rw [List.getD_eq_getElem?_getD, List.getElem?_append_left (by simp; exact h),
    List.getElem?_map, List.getElem?_range h]
  rfl

theorem memcmp_eq_zero_iff (a b : List Nat) (n : Nat) :
    memcmp a b n = 0 ↔ ∀ i, i < n → a.getD i 0 = b.getD i 0 := by
  unfold memcmp
  cases hfind : (List.range n).find? (fun i => decide (a.getD i 0 ≠ b.getD i 0)) with
  | none =>
    rw [List.find?_eq_none] at hfind
    simp only [true_iff]
    intro i hi
    have := hfind i (List.mem_range.mpr hi)
    simpa using this
  | some i =>
    have hp := List.find?_some hfind
    have hm := List.mem_range.mp (List.mem_of_find?_eq_some hfind)
    have hne : a.getD i 0 ≠ b.getD i 0 := by simpa using hp
    simp only [Int.ofNat_eq_coe]
    constructor
    · intro h0
      exfalso
      apply hne
      omega
    · intro hall
      exact absurd (hall i hm) hne

theorem getD_lt_of_forall (l : List Nat) (i : Nat) (h : ∀ x ∈ l, x < 256) :
    l.getD i 0 < 256 := by
  rw [List.getD_eq_getElem?_getD]
  cases hx : l[i]? with
  | none => simp
  | some x => exact h x (List.getElem?_mem hx)

theorem memcmp_bounds (a b : List Nat) (n : Nat) (ha : ∀ i, a.getD i 0 < 256)
    (hb : ∀ i, i < n → b.getD i 0 < 256) : -255 ≤ memcmp a b n ∧ memcmp a b n ≤ 255 := by
  unfold memcmp
  cases hfind : (List.range n).find? (fun i => decide (a.getD i 0 ≠ b.getD i 0)) with
  | none => simp
  | some i =>
    have h1 := ha i
    have h2 := hb i (List.mem_range.mp (List.mem_of_find?_eq_some hfind))
    simp only [Int.ofNat_eq_coe]
    omega

/-- The comparison of the transmitter callback: the `int16_t` status is 0
exactly when the first `packetLength` payload bytes equal those of `txPacket`. -/
theorem status_eq_zero_iff (txPacket rxPacket data : List Nat)
    (htx : ∀ x ∈ txPacket, x < 256) (hdata : ∀ x ∈ data, x < 256) :
    toInt16 (memcmp txPacket (memcpy rxPacket data.tail (data.headD 0 + 1)) (data.headD 0)) = 0
      ↔ ∀ i, i < data.headD 0 → txPacket.getD i 0 = data.tail.getD i 0 := by
  have hb : ∀ i, i < data.headD 0 →
      (memcpy rxPacket data.tail (data.headD 0 + 1)).getD i 0 < 256 := by
    intro i hi
    rw [memcpy_getD _ _ _ _ (by omega)]
    apply getD_lt_of_forall
    intro y hy
    exact hdata y (List.mem_of_mem_tail hy)
  obtain ⟨b1, b2⟩ := memcmp_bounds txPacket _ (data.headD 0)
    (fun i => getD_lt_of_forall txPacket i htx) hb
  have h16 : toInt16 (memcmp txPacket (memcpy rxPacket data.tail (data.headD 0 + 1))
      (data.headD 0)) = 0 ↔
      memcmp txPacket (memcpy rxPacket data.tail (data.headD 0 + 1)) (data.headD 0) = 0 := by
    unfold toInt16
    omega
  rw [h16, memcmp_eq_zero_iff]
  constructor
  · intro h i hi
    rw [h i hi, memcpy_getD _ _ _ _ (by omega)]
  · intro h i hi
    rw [h i hi, memcpy_getD _ _ _ _ (by omega)]

/-- The pin writes of the transmitter callback in its `RF_EventRxEntryDone`
branch. -/
theorem tx_echoCallback_rx_branch (c : SdkConsts) (e : Nat) (data : List Nat)
    (s : rfEchoTx.CallbackState) (hrx : e &&& c.RF_EventRxEntryDone ≠ 0)
    (hfirst : ¬ (e &&& c.RF_EventCmdDone ≠ 0 ∧ e &&& c.RF_EventLastCmdDone = 0)) :
    (rfEchoTx.echoCallback c e data s).2
      = if toInt16 (memcmp s.txPacket (memcpy s.rxPacket data.tail (data.headD 0 + 1))
            (data.headD 0)) = 0
        then rfEchoTx.toggleLed1 s.pins else rfEchoTx.bothLeds := by
  unfold rfEchoTx.echoCallback
  have h1 : ¬ (eventSet e c.RF_EventCmdDone = true ∧ ¬ eventSet e c.RF_EventLastCmdDone = true) := by
    simpa [eventSet] using hfirst
  have h2 : eventSet e c.RF_EventRxEntryDone = true := by
    simpa [eventSet] using hrx
  rw [if_neg h1, if_pos h2]
  simp only
  split <;> rfl

theorem toggleLed1_ne_bothLeds (p : PinState) : rfEchoTx.toggleLed1 p ≠ rfEchoTx.bothLeds := by
  simp [rfEchoTx.toggleLed1, rfEchoTx.bothLeds]

/-- C16 (counterexample): with the SDK constants, on `RF_EventRxEntryDone`
with length byte 2 and a payload whose first two bytes equal those of
`txPacket` but whose later bytes differ, the echo-confirmed branch is taken
although the payload differs from `txPacket` within the first 30 bytes. -/
theorem C16_counterexample :
    (rfEchoTx.echoCallback simplelink simplelink.RF_EventRxEntryDone
        (2 :: 0 :: 0 :: List.replicate 28 9 ++ [0])
        { pins := { Board_DIO15 := 0, Board_PIN_LED1 := 0, Board_PIN_LED2 := 0 },
          bRxSuccess := false, txPacket := List.replicate 30 0,
          rxPacket := List.replicate 31 0, packetLength := 0 }).2
      = [Effect.PIN_setOutputValue Pin.Board_PIN_LED1 1,
         Effect.PIN_setOutputValue Pin.Board_PIN_LED2 0] ∧
    ¬ (∀ i, i < 30 →
        (List.replicate 30 0).getD i 0
          = (2 :: 0 :: 0 :: List.replicate 28 9 ++ [0]).tail.getD i 0) := by
  constructor <;> decide

/-- A copy of at most as many bytes as the destination holds leaves its size
unchanged. -/
theorem memcpy_length (dst src : List Nat) (n : Nat) (h : n ≤ dst.length) :
    (memcpy dst src n).length = dst.length := by
  unfold memcpy
  simp only [List.length_append, List.length_map, List.length_range, List.length_drop]
  omega

/-- The `rxPacket` the transmitter callback leaves in its `RF_EventRxEntryDone`
branch. -/
theorem tx_echoCallback_rx_packet (c : SdkConsts) (e : Nat) (data : List Nat)
    (s : rfEchoTx.CallbackState) (hrx : e &&& c.RF_EventRxEntryDone ≠ 0)
    (hfirst : ¬ (e &&& c.RF_EventCmdDone ≠ 0 ∧ e &&& c.RF_EventLastCmdDone = 0)) :
    (rfEchoTx.echoCallback c e data s).1.rxPacket
      = memcpy s.rxPacket data.tail (data.headD 0 + 1) := by
  unfold rfEchoTx.echoCallback
  have h1 : ¬ (eventSet e c.RF_EventCmdDone = true ∧ ¬ eventSet e c.RF_EventLastCmdDone = true) := by
    simpa [eventSet] using hfirst
  have h2 : eventSet e c.RF_EventRxEntryDone = true := by
    simpa [eventSet] using hrx
  rw [if_neg h1, if_pos h2]
  simp only
  split <;> rfl

/-- C16 (amended): in the transmitter's `echoCallback`, with `txPacket` of 30
and `rxPacket` of 31 bytes, for every event mask that reaches the
`RF_EventRxEntryDone` branch, every length byte up to `PAYLOAD_LENGTH` = 30 and
every payload, the copy stays within `rxPacket`, and the echo-confirmed writes
(LED1 toggled, LED2 cleared) are made if and only if the received payload
equals `txPacket` byte for byte over the first `packetLength` bytes,
`packetLength` being the received length byte; otherwise both LEDs are set.
With length byte 30 that is the first `PAYLOAD_LENGTH` bytes. -/
theorem C16_echo_compare (c : SdkConsts) (e : Nat) (data : List Nat)
    (s : rfEchoTx.CallbackState)
    (htxlen : s.txPacket.length = PAYLOAD_LENGTH)
    (hrxlen : s.rxPacket.length = PAYLOAD_LENGTH + 1)
    (hlen : data.headD 0 ≤ PAYLOAD_LENGTH)
    (htx : ∀ x ∈ s.txPacket, x < 256) (hdata : ∀ x ∈ data, x < 256)
    (hrx : e &&& c.RF_EventRxEntryDone ≠ 0)
    (hfirst : ¬ (e &&& c.RF_EventCmdDone ≠ 0 ∧ e &&& c.RF_EventLastCmdDone = 0)) :
    (rfEchoTx.echoCallback c e data s).1.rxPacket.length = PAYLOAD_LENGTH + 1 ∧
    data.headD 0 ≤ s.txPacket.length ∧
    ((rfEchoTx.echoCallback c e data s).2 = rfEchoTx.toggleLed1 s.pins ↔
      ∀ i, i < data.headD 0 → s.txPacket.getD i 0 = data.tail.getD i 0) ∧
    ((¬ ∀ i, i < data.headD 0 → s.txPacket.getD i 0 = data.tail.getD i 0) →
      (rfEchoTx.echoCallback c e data s).2 = rfEchoTx.bothLeds) ∧
    (data.headD 0 = PAYLOAD_LENGTH →
      ((rfEchoTx.echoCallback c e data s).2 = rfEchoTx.toggleLed1 s.pins ↔
        ∀ i, i < 30 → s.txPacket.getD i 0 = data.tail.getD i 0)) := by
  have hbranch := tx_echoCallback_rx_branch c e data s hrx hfirst
  have hstat := status_eq_zero_iff s.txPacket s.rxPacket data htx hdata
  have hiff : (rfEchoTx.echoCallback c e data s).2 = rfEchoTx.toggleLed1 s.pins ↔
      ∀ i, i < data.headD 0 → s.txPacket.getD i 0 = data.tail.getD i 0 := by
    rw [hbranch, ← hstat]
    constructor
    · intro h
      by_contra hne
      rw [if_neg hne] at h
      exact toggleLed1_ne_bothLeds s.pins h.symm
    · intro h
      rw [if_pos h]
  refine ⟨?_, ?_, hiff, ?_, ?_⟩
  · rw [tx_echoCallback_rx_packet c e data s hrx hfirst,
      memcpy_length _ _ _ (by rw [hrxlen]; omega), hrxlen]
  · rw [htxlen]
    exact hlen
  · intro hne
    rw [hbranch, if_neg]
    rw [hstat]
    exact hne
  · intro h30
    rw [hiff, h30]
    rfl

/-- Witness for C16: the SDK constants, event `RF_EventRxEntryDone`, length
byte 30 and an all-zero payload against an all-zero `txPacket`. -/
theorem C16_echo_compare_witness :
    (List.replicate 30 0).length = PAYLOAD_LENGTH ∧
    (List.replicate 31 0).length = PAYLOAD_LENGTH + 1 ∧
    (30 :: List.replicate 31 0).headD 0 ≤ PAYLOAD_LENGTH ∧
    (∀ x ∈ List.replicate 30 0, x < 256) ∧
    (∀ x ∈ 30 :: List.replicate 31 0, x < 256) ∧
    8388608 &&& simplelink.RF_EventRxEntryDone ≠ 0 ∧
    ¬ (8388608 &&& simplelink.RF_EventCmdDone ≠ 0 ∧
        8388608 &&& simplelink.RF_EventLastCmdDone = 0) ∧
    ((rfEchoTx.echoCallback simplelink 8388608 (30 :: List.replicate 31 0)
        { pins := { Board_DIO15 := 0, Board_PIN_LED1 := 0, Board_PIN_LED2 := 0 },
          bRxSuccess := false, txPacket := List.replicate 30 0,
          rxPacket := List.replicate 31 0, packetLength := 0 }).2
        = rfEchoTx.toggleLed1 { Board_DIO15 := 0, Board_PIN_LED1 := 0, Board_PIN_LED2 := 0 } ↔
      ∀ i, i < (30 :: List.replicate 31 0).headD 0 →
        (List.replicate 30 0).getD i 0 = (30 :: List.replicate 31 0).tail.getD i 0) :=
  ⟨by decide, by decide, by decide, by decide, by decide, by decide, by decide,
    (C16_echo_compare simplelink 8388608 (30 :: List.replicate 31 0)
      { pins := { Board_DIO15 := 0, Board_PIN_LED1 := 0, Board_PIN_LED2 := 0 },
        bRxSuccess := false, txPacket := List.replicate 30 0,
        rxPacket := List.replicate 31 0, packetLength := 0 }
      (by decide) (by decide) (by decide) (by decide) (by decide) (by decide)
      (by decide)).2.2.1⟩

/-- The transmitter callback writes LED1 and LED2 only. -/
theorem tx_echoCallback_frame (c : SdkConsts) (e : Nat) (data : List Nat)
    (s : rfEchoTx.CallbackState) :
    (rfEchoTx.echoCallback c e data s).1.pins.Board_DIO15 = s.pins.Board_DIO15 ∧
    (rfEchoTx.echoCallback c e data s).1.pins
      = applyEffects s.pins (rfEchoTx.echoCallback c e data s).2 ∧
    (∀ eff ∈ (rfEchoTx.echoCallback c e data s).2,
      ∃ v, eff = Effect.PIN_setOutputValue Pin.Board_PIN_LED1 v ∨
           eff = Effect.PIN_setOutputValue Pin.Board_PIN_LED2 v) := by
  unfold rfEchoTx.echoCallback
  split
  · simp [applyEffects, applyEffect, PinState.set, rfEchoTx.toggleLed1]
  · split
    · simp only
      split <;>
        simp [applyEffects, applyEffect, PinState.set, rfEchoTx.toggleLed1, rfEchoTx.bothLeds]
    · split
      · split <;>
          simp [applyEffects, applyEffect, PinState.set, rfEchoTx.timeoutLeds]
      · simp [applyEffects, applyEffect, PinState.set, rfEchoTx.bothLeds]

/-- The receiver callback writes LED1 and LED2 only. -/
theorem rx_echoCallback_frame (c : SdkConsts) (e : Nat) (data : List Nat)
    (s : rfEchoRx.CallbackState) :
    (rfEchoRx.echoCallback c e data s).1.pins.Board_DIO15 = s.pins.Board_DIO15 ∧
    (rfEchoRx.echoCallback c e data s).1.pins
      = applyEffects s.pins (rfEchoRx.echoCallback c e data s).2 ∧
    (∀ eff ∈ (rfEchoRx.echoCallback c e data s).2,
      ∃ v, eff = Effect.PIN_setOutputValue Pin.Board_PIN_LED1 v ∨
           eff = Effect.PIN_setOutputValue Pin.Board_PIN_LED2 v) := by
  unfold rfEchoRx.echoCallback
  split
  · simp [applyEffects, applyEffect, PinState.set, rfEchoRx.toggleLed2]
  · split <;>
      simp [applyEffects, applyEffect, PinState.set, rfEchoRx.toggleLed2, rfEchoRx.errorLeds]

/-- C17: for every event mask, queue entry and prior state, `echoCallback` of
`rfEchoTx.c` and of `rfEchoRx.c` leaves `Board_DIO15` unchanged and writes only
`Board_PIN_LED1` and `Board_PIN_LED2`; and for every buffer the value that
`adcBufCallback` writes to `Board_DIO15` is fixed by the buffer alone: from
every prior pin state, whatever the callbacks left in it, the pins afterwards
are that state with `Board_DIO15` set to this value. -/
theorem C17_alarm_pin_frame (c : SdkConsts) (e : Nat) (data : List Nat)
    (sT : rfEchoTx.CallbackState) (sR : rfEchoRx.CallbackState)
    (microVoltBuffer : List Nat) (fuel : Nat) (hfuel : 50 < fuel) :
    ((rfEchoTx.echoCallback c e data sT).1.pins.Board_DIO15 = sT.pins.Board_DIO15 ∧
     (rfEchoTx.echoCallback c e data sT).1.pins
       = applyEffects sT.pins (rfEchoTx.echoCallback c e data sT).2 ∧
     (∀ eff ∈ (rfEchoTx.echoCallback c e data sT).2,
       ∃ v, eff = Effect.PIN_setOutputValue Pin.Board_PIN_LED1 v ∨
            eff = Effect.PIN_setOutputValue Pin.Board_PIN_LED2 v)) ∧
    ((rfEchoRx.echoCallback c e data sR).1.pins.Board_DIO15 = sR.pins.Board_DIO15 ∧
     (rfEchoRx.echoCallback c e data sR).1.pins
       = applyEffects sR.pins (rfEchoRx.echoCallback c e data sR).2 ∧
     (∀ eff ∈ (rfEchoRx.echoCallback c e data sR).2,
       ∃ v, eff = Effect.PIN_setOutputValue Pin.Board_PIN_LED1 v ∨
            eff = Effect.PIN_setOutputValue Pin.Board_PIN_LED2 v)) ∧
    (∃ (s : DetState) (vT vR : Nat) (effT effR : List Effect),
      rfEchoTx.adcBufCallback microVoltBuffer fuel = some (s, effT) ∧
      rfEchoRx.adcBufCallback microVoltBuffer fuel = some (s, effR) ∧
      (∀ p : PinState, applyEffects p effT = { p with Board_DIO15 := vT }) ∧
      (∀ p : PinState, applyEffects p effR = { p with Board_DIO15 := vR })) := by
  refine ⟨tx_echoCallback_frame c e data sT, rx_echoCallback_frame c e data sR, ?_⟩
  obtain ⟨s, h1, h2, _⟩ := callbacks_500 microVoltBuffer fuel hfuel
  refine ⟨s, if s.total_max > 50000 ∧ s.saved_bin_number ≤ 23 then 1 else 0,
    if s.total_max > 15000 ∧ s.saved_bin_number ≤ 23 then 1 else 0, _, _, h1, h2, ?_, ?_⟩
  · intro p
    unfold alarmStep
    split <;> simp [applyEffects, applyEffect, PinState.set]
  · intro p
    unfold alarmStep
    split <;> simp [applyEffects, applyEffect, PinState.set]

/-- Witness for C17: the SDK constants, event `RF_EventRxEntryDone`, the
all-zero buffer and fuel 51. -/
theorem C17_alarm_pin_frame_witness :
    50 < 51 ∧
    (rfEchoTx.echoCallback simplelink 8388608 (30 :: List.replicate 31 0)
      { pins := { Board_DIO15 := 1, Board_PIN_LED1 := 0, Board_PIN_LED2 := 0 },
        bRxSuccess := false, txPacket := List.replicate 30 0,
        rxPacket := List.replicate 31 0, packetLength := 0 }).1.pins.Board_DIO15 = 1 ∧
    (rfEchoRx.echoCallback simplelink 8388608 (30 :: List.replicate 31 0)
      { pins := { Board_DIO15 := 1, Board_PIN_LED1 := 0, Board_PIN_LED2 := 0 },
        txPacket := List.replicate 30 0, packetLength := 0 }).1.pins.Board_DIO15 = 1 ∧
    (∃ (s : DetState) (vT vR : Nat) (effT effR : List Effect),
      rfEchoTx.adcBufCallback (List.replicate 500 0) 51 = some (s, effT) ∧
      rfEchoRx.adcBufCallback (List.replicate 500 0) 51 = some (s, effR) ∧
      (∀ p : PinState, applyEffects p effT = { p with Board_DIO15 := vT }) ∧
      (∀ p : PinState, applyEffects p effR = { p with Board_DIO15 := vR })) :=
  ⟨by decide,
    (C17_alarm_pin_frame simplelink 8388608 (30 :: List.replicate 31 0)
      { pins := { Board_DIO15 := 1, Board_PIN_LED1 := 0, Board_PIN_LED2 := 0 },
        bRxSuccess := false, txPacket := List.replicate 30 0,
        rxPacket := List.replicate 31 0, packetLength := 0 }
      { pins := { Board_DIO15 := 1, Board_PIN_LED1 := 0, Board_PIN_LED2 := 0 },
        txPacket := List.replicate 30 0, packetLength := 0 }
      (List.replicate 500 0) 51 (by decide)).1.1,
    (C17_alarm_pin_frame simplelink 8388608 (30 :: List.replicate 31 0)
      { pins := { Board_DIO15 := 1, Board_PIN_LED1 := 0, Board_PIN_LED2 := 0 },
        bRxSuccess := false, txPacket := List.replicate 30 0,
        rxPacket := List.replicate 31 0, packetLength := 0 }
      { pins := { Board_DIO15 := 1, Board_PIN_LED1 := 0, Board_PIN_LED2 := 0 },
        txPacket := List.replicate 30 0, packetLength := 0 }
      (List.replicate 500 0) 51 (by decide)).2.1.1,
    (C17_alarm_pin_frame simplelink 8388608 (30 :: List.replicate 31 0)
      { pins := { Board_DIO15 := 1, Board_PIN_LED1 := 0, Board_PIN_LED2 := 0 },
        bRxSuccess := false, txPacket := List.replicate 30 0,
        rxPacket := List.replicate 31 0, packetLength := 0 }
      { pins := { Board_DIO15 := 1, Board_PIN_LED1 := 0, Board_PIN_LED2 := 0 },
        txPacket := List.replicate 30 0, packetLength := 0 }
      (List.replicate 500 0) 51 (by decide)).2.2⟩

/-! ## Third group of claims: what the detector computes -/

theorem getD_lt_pow31 (buf : List Nat) (i : Nat) (h : ∀ x ∈ buf, x < 2 ^ 31) :
    buf.getD i 0 < 2 ^ 31 := by
  rw [List.getD_eq_getElem?_getD]
  cases hx : buf[i]? with
  | none => simp
  | some x => exact h x (List.getElem?_mem hx)

theorem prefixSum_mono (buf : List Nat) (m n : Nat) (h : m ≤ n) :
    prefixSum buf m ≤ prefixSum buf n := by
  induction n with
  | zero =>
    have : m = 0 := by omega
    rw [this]
  | succ n ih =>
    rcases Nat.lt_or_ge m (n + 1) with hlt | hge
    · have := ih (by omega)
      rw [prefixSum]
      omega
    · have : m = n + 1 := by omega
      rw [this]

theorem prefixSum_le (buf : List Nat) (h : ∀ x ∈ buf, x < 2 ^ 31) :
    ∀ n, prefixSum buf n ≤ n * 2147483647 := by
  intro n
  induction n with
  | zero => simp [prefixSum]
  | succ n ih =>
    have hb := getD_lt_pow31 buf n h
    rw [prefixSum, absSample_of_lt _ hb]
    have hb' : buf.getD n 0 < 2147483648 := hb
    omega

/-- On samples below 2^31 the running sum over the first `n` indices is the
sum of the first `n` samples. -/
theorem prefixSum_eq_sum (buf : List Nat) (h : ∀ x ∈ buf, x < 2 ^ 31) :
    ∀ n, n ≤ buf.length → prefixSum buf n = (buf.take n).sum := by
  intro n
  induction n with
  | zero => intro _; simp [prefixSum]
  | succ n ih =>
    intro hn
    have hlt : n < buf.length := by omega
    rw [prefixSum, ih (by omega), absSample_of_lt _ (getD_lt_pow31 buf n h),
      List.sum_take_succ buf n hlt, List.getD_eq_getElem?_getD, List.getElem?_eq_getElem hlt]
    rfl

/-- On samples below 2^31 no reduction changes a bin average: it is the running
sum divided by 500, and it is below 2^31. -/
theorem binAverage_exact (buf : List Nat) (h : ∀ x ∈ buf, x < 2 ^ 31) (a : Nat)
    (ha : a ≤ 9) :
    binAverage buf a = prefixSum buf (50 * (a + 1)) / 500 ∧ binAverage buf a < 2 ^ 31 := by
  have hle := prefixSum_le buf h (50 * (a + 1))
  have hbound : prefixSum buf (50 * (a + 1)) ≤ 500 * 2147483647 := by
    have : 50 * (a + 1) * 2147483647 ≤ 500 * 2147483647 := by omega
    omega
  have e1 : prefixSum buf (50 * (a + 1)) % 2 ^ 64 = prefixSum buf (50 * (a + 1)) :=
    Nat.mod_eq_of_lt (by omega)
  have e2 : prefixSum buf (50 * (a + 1)) / 500 < 2147483648 := by omega
  unfold binAverage
  rw [e1, Nat.mod_eq_of_lt (by omega)]
  exact ⟨rfl, e2⟩

theorem binAverage_mono (buf : List Nat) (h : ∀ x ∈ buf, x < 2 ^ 31) (a b : Nat)
    (hab : a ≤ b) (hb : b ≤ 9) : binAverage buf a ≤ binAverage buf b := by
  rw [(binAverage_exact buf h a (by omega)).1, (binAverage_exact buf h b hb).1]
  exact Nat.div_le_div_right (prefixSum_mono buf _ _ (by omega))

theorem mem_onePassLog (buf : List Nat) (r : BinRecord) :
    r ∈ onePassLog buf ↔ ∃ j, j < 10 ∧ r =
      { run_number := 0, a := j, bin_number := j,
        reads := List.range' (50 * j) 50, bin_average := binAverage buf j } := by
  unfold onePassLog
  simp only [List.mem_map, List.mem_range]
  constructor
  · rintro ⟨j, hj, rfl⟩
    exact ⟨j, hj, rfl⟩
  · rintro ⟨j, hj, rfl⟩
    exact ⟨j, hj, rfl⟩

/-- A fold over records none of which exceeds the current maximum changes
nothing. -/
theorem track_fold_noop (l : List BinRecord) :
    ∀ p : Nat × Nat, (∀ r ∈ l, r.bin_average ≤ p.1) → l.foldl track p = p := by
  induction l with
  | nil => intro p _; rfl
  | cons x l ih =>
    intro p hp
    have hx := hp x (List.mem_cons_self _ _)
    have hstep : track p x = p := by
      unfold track
      rw [if_neg (by omega)]
    rw [List.foldl_cons, hstep]
    exact ih p (fun r hr => hp r (List.mem_cons_of_mem _ hr))

/-- The log of the four passes is the log of one pass followed by thirty
evaluations of the same bins. -/
theorem fourPassLog_split (buf : List Nat) :
    fourPassLog buf = onePassLog buf ++ (List.range' 10 30).map fun j =>
      { run_number := j / 10, a := j % 10, bin_number := j,
        reads := List.range' (50 * (j % 10)) 50, bin_average := binAverage buf (j % 10) } := by
  rfl

/-- The running maximum over four passes ends where it stood after the first. -/
theorem fourPass_eq_onePass (buf : List Nat) :
    (fourPassLog buf).foldl track (0, 0) = (onePassLog buf).foldl track (0, 0) := by
  rw [fourPassLog_split, List.foldl_append]
  apply track_fold_noop
  intro r hr
  simp only [List.mem_map, List.mem_range'_1] at hr
  obtain ⟨j, hj, rfl⟩ := hr
  simp only
  rw [track_fold_fst]
  exact trackMax_fold_ge (onePassLog buf) 0 _ ((mem_onePassLog buf _).mpr ⟨j % 10, by omega, rfl⟩)

/-- The recorded bin index never exceeds 9. -/
theorem fourPass_saved_le (buf : List Nat) :
    ((fourPassLog buf).foldl track (0, 0)).2 ≤ 9 := by
  rw [fourPass_eq_onePass]
  rcases track_fold_mem (onePassLog buf) (0, 0) with h | ⟨r, hr, h, _⟩
  · rw [h]
    exact Nat.zero_le _
  · obtain ⟨j, hj, rfl⟩ := (mem_onePassLog buf r).mp hr
    rw [← h]
    simp only
    omega

/-- On samples below 2^31 the maximum of the bin averages is the last one, the
running sum over the whole buffer divided by 500. -/
theorem onePass_max (buf : List Nat) (h : ∀ x ∈ buf, x < 2 ^ 31) :
    (onePassLog buf).foldl trackMax 0 = prefixSum buf 500 / 500 := by
  have h9 : binAverage buf 9 = prefixSum buf 500 / 500 := (binAverage_exact buf h 9 (by omega)).1
  have hge := trackMax_fold_ge (onePassLog buf) 0 _ ((mem_onePassLog buf _).mpr ⟨9, by omega, rfl⟩)
  simp only at hge
  rcases trackMax_fold_mem (onePassLog buf) 0 with h0 | ⟨r, hr, hr2⟩
  · rw [h0] at hge ⊢
    omega
  · obtain ⟨j, hj, rfl⟩ := (mem_onePassLog buf r).mp hr
    simp only at hr2
    have := binAverage_mono buf h j 9 (by omega) (by omega)
    omega

/-- The four-pass loops at `ADCBUFFERSIZE = 500`, with `run_max` as well. -/
theorem passLoop_500 (buf : List Nat) (fuel : Nat) (hf : 50 < fuel) :
    ∃ s, passLoop 500 buf fuel DetState.init = some s ∧
      s.run_max = s.total_max ∧ s.log = fourPassLog buf ∧
      s.run_number = 4 ∧ s.bin_number = 40 ∧
      (s.total_max, s.saved_bin_number) = (onePassLog buf).foldl track (0, 0) := by
  obtain ⟨s, h1, h2, h3, h4, h5, h6⟩ := passLoop_iter 500 buf fuel (by decide) hf
    (by omega) (by omega) 4 fuel DetState.init rfl rfl rfl rfl
    (by simp [DetState.init]) (by simp [DetState.init]) (by omega)
  have ht := h6 (by omega)
  have h3' : s.log = passRecords 500 buf 4 0 0 := by simpa [DetState.init] using h3
  have h4' : (s.run_max, s.saved_bin_number) = (passRecords 500 buf 4 0 0).foldl track (0, 0) := by
    simpa [DetState.init] using h4
  have h5' : s.bin_number = 40 := by
    rw [h5]
    simp [DetState.init]
  refine ⟨s, h1, ht.symm, ?_, h2, h5', ?_⟩
  · rw [h3', passRecords_500]
  · rw [ht, h4', passRecords_500, fourPass_eq_onePass]

/-- The state after the first pass alone. -/
theorem passBody_500 (buf : List Nat) (fuel : Nat) (hf : 50 < fuel) :
    ∃ s, passBody 500 buf fuel DetState.init = some s ∧
      s.run_max = s.total_max ∧
      (s.total_max, s.saved_bin_number) = (onePassLog buf).foldl track (0, 0) ∧
      s.run_number = 1 := by
  obtain ⟨s, h1, _, _, _, _, h6, _, h8, h9⟩ := passBody_spec 500 buf fuel DetState.init
    (by decide) hf (by omega) (by omega) rfl rfl rfl (by simp [DetState.init])
    (by simp [DetState.init]) (by simp [DetState.init])
  have h6' : (s.run_max, s.saved_bin_number)
      = (binRecords 500 buf 0 10 0 0 0).foldl track (0, 0) := by
    simpa [DetState.init] using h6
  refine ⟨s, h1, h9.symm, ?_, ?_⟩
  · rw [h9, h6', binRecords_500]
  · rw [h8]
    rfl

/-- All three callbacks on one buffer, in terms of the first pass. -/
theorem three_callbacks (buf : List Nat) (fuel : Nat) (hf : 50 < fuel) :
    ∃ (s : DetState) (d : dvt.State),
      rfEchoTx.adcBufCallback buf fuel
        = some (s, [Effect.PIN_setOutputValue Pin.Board_DIO15
                      (if s.total_max > 50000 then 1 else 0),
                    Effect.ADCBuf_convertCancel]) ∧
      rfEchoRx.adcBufCallback buf fuel
        = some (s, [Effect.PIN_setOutputValue Pin.Board_DIO15
                      (if s.total_max > 15000 then 1 else 0),
                    Effect.ADCBuf_convertCancel]) ∧
      dvt.adcBufCallback buf fuel
        = some (d, [Effect.PIN_setOutputValue Pin.Board_DIO15
                      (if d.max > 150000 then 1 else 0)]) ∧
      d.max = s.total_max ∧ s.saved_bin_number ≤ 9 ∧
      s.total_max = (onePassLog buf).foldl trackMax 0 ∧
      s.log = fourPassLog buf ∧ d.log = onePassLog buf ∧
      s.run_number = 4 ∧ s.bin_number = 40 := by
  obtain ⟨s, h1, _, h3, h4, h5, h6⟩ := passLoop_500 buf fuel hf
  obtain ⟨d, g1, g2, g3⟩ := dvt_detectorCallback_500 150000 buf fuel hf
  have e1 : s.total_max = ((onePassLog buf).foldl track (0, 0)).1 := congrArg Prod.fst h6
  have e2 : s.saved_bin_number = ((onePassLog buf).foldl track (0, 0)).2 :=
    congrArg Prod.snd h6
  have hsaved : s.saved_bin_number ≤ 9 := by
    rw [e2, ← fourPass_eq_onePass]
    exact fourPass_saved_le buf
  have hmax : s.total_max = (onePassLog buf).foldl trackMax 0 := by
    rw [e1, track_fold_fst]
  have hcond : ∀ t, (s.total_max > t ∧ s.saved_bin_number ≤ 23) ↔ s.total_max > t :=
    fun t => ⟨fun h => h.1, fun h => ⟨h, by omega⟩⟩
  refine ⟨s, d, ?_, ?_, ?_, ?_, hsaved, hmax, h3, g2, h4, h5⟩
  · unfold rfEchoTx.adcBufCallback ADCBUFFERSIZE
    rw [detectorCallback_of_passLoop 500 50000 23 buf fuel s h1]
    simp only [hcond]
  · unfold rfEchoRx.adcBufCallback ADCBUFFERSIZE
    rw [detectorCallback_of_passLoop 500 15000 23 buf fuel s h1]
    simp only [hcond]
  · unfold dvt.adcBufCallback ADCBUFFERSIZE
    rw [g1]
    unfold dvt.alarmStep
    split <;> simp_all
  · rw [g3, hmax]

/-- C25: in the four-pass detectors of `rfEchoTx.c` and `rfEchoRx.c`, for every
500-sample buffer `saved_bin_number` is at most 9 when the passes finish, so
the test `saved_bin_number <= 23` holds and the value written is the one the
threshold test alone gives. -/
theorem C25_window_test_always_true (microVoltBuffer : List Nat)
    (_hlen : microVoltBuffer.length = 500) (fuel : Nat) (hfuel : 50 < fuel) :
    ∃ s : DetState,
      rfEchoTx.adcBufCallback microVoltBuffer fuel
        = some (s, [Effect.PIN_setOutputValue Pin.Board_DIO15
                      (if s.total_max > 50000 then 1 else 0),
                    Effect.ADCBuf_convertCancel]) ∧
      rfEchoRx.adcBufCallback microVoltBuffer fuel
        = some (s, [Effect.PIN_setOutputValue Pin.Board_DIO15
                      (if s.total_max > 15000 then 1 else 0),
                    Effect.ADCBuf_convertCancel]) ∧
      s.saved_bin_number ≤ 9 ∧ s.saved_bin_number ≤ 23 ∧
      (∀ threshold, alarmStep threshold 23 s.total_max s.saved_bin_number
        = [Effect.PIN_setOutputValue Pin.Board_DIO15
            (if s.total_max > threshold then 1 else 0)]) := by
  obtain ⟨s, _, h1, h2, _, _, h5, _⟩ := three_callbacks microVoltBuffer fuel hfuel
  refine ⟨s, h1, h2, h5, by omega, ?_⟩
  intro t
  unfold alarmStep
  by_cases ht : s.total_max > t
  · rw [if_pos ⟨ht, by omega⟩, if_pos ht]
  · rw [if_neg (fun h => ht h.1), if_neg ht]

/-- Witness for C25: the all-zero buffer with fuel 51. -/
theorem C25_window_test_always_true_witness :
    (List.replicate 500 0).length = 500 ∧ 50 < 51 ∧
    ∃ s : DetState,
      rfEchoTx.adcBufCallback (List.replicate 500 0) 51
        = some (s, [Effect.PIN_setOutputValue Pin.Board_DIO15
                      (if s.total_max > 50000 then 1 else 0),
                    Effect.ADCBuf_convertCancel]) ∧
      rfEchoRx.adcBufCallback (List.replicate 500 0) 51
        = some (s, [Effect.PIN_setOutputValue Pin.Board_DIO15
                      (if s.total_max > 15000 then 1 else 0),
                    Effect.ADCBuf_convertCancel]) ∧
      s.saved_bin_number ≤ 9 ∧ s.saved_bin_number ≤ 23 ∧
      (∀ threshold, alarmStep threshold 23 s.total_max s.saved_bin_number
        = [Effect.PIN_setOutputValue Pin.Board_DIO15
            (if s.total_max > threshold then 1 else 0)]) :=
  ⟨List.length_replicate 500 0, by decide,
    C25_window_test_always_true (List.replicate 500 0) (List.length_replicate 500 0) 51
      (by decide)⟩

/-- C26: for every 500-sample buffer whose values are all below 2^31, the
maximum the detector reports (`total_max` in `rfEchoTx.c` and `rfEchoRx.c`,
`max` in `adcBufContinuousSampling.c`) is the sum of all 500 samples divided by
500, and each variant writes 1 exactly when that integer mean is strictly
greater than its threshold. -/
theorem C26_max_is_buffer_mean (microVoltBuffer : List Nat)
    (hlen : microVoltBuffer.length = 500) (hval : ∀ x ∈ microVoltBuffer, x < 2 ^ 31)
    (fuel : Nat) (hfuel : 50 < fuel) :
    ∃ (s : DetState) (d : dvt.State),
      rfEchoTx.adcBufCallback microVoltBuffer fuel
        = some (s, [Effect.PIN_setOutputValue Pin.Board_DIO15
                      (if microVoltBuffer.sum / 500 > 50000 then 1 else 0),
                    Effect.ADCBuf_convertCancel]) ∧
      rfEchoRx.adcBufCallback microVoltBuffer fuel
        = some (s, [Effect.PIN_setOutputValue Pin.Board_DIO15
                      (if microVoltBuffer.sum / 500 > 15000 then 1 else 0),
                    Effect.ADCBuf_convertCancel]) ∧
      dvt.adcBufCallback microVoltBuffer fuel
        = some (d, [Effect.PIN_setOutputValue Pin.Board_DIO15
                      (if microVoltBuffer.sum / 500 > 150000 then 1 else 0)]) ∧
      s.total_max = microVoltBuffer.sum / 500 ∧ d.max = microVoltBuffer.sum / 500 := by
  obtain ⟨s, d, h1, h2, h3, h4, _, h6, _⟩ := three_callbacks microVoltBuffer fuel hfuel
  have hsum : prefixSum microVoltBuffer 500 = microVoltBuffer.sum := by
    rw [prefixSum_eq_sum microVoltBuffer hval 500 (by omega),
      List.take_of_length_le (by omega)]
  have hmax : s.total_max = microVoltBuffer.sum / 500 := by
    rw [h6, onePass_max microVoltBuffer hval, hsum]
  have hd : d.max = microVoltBuffer.sum / 500 := by rw [h4, hmax]
  rw [hmax] at h1 h2
  rw [hd] at h3
  exact ⟨s, d, h1, h2, h3, hmax, hd⟩

/-- Witness for C26: the all-zero buffer with fuel 51. -/
theorem C26_max_is_buffer_mean_witness :
    (List.replicate 500 0).length = 500 ∧ (∀ x ∈ List.replicate 500 0, x < 2 ^ 31) ∧
    50 < 51 ∧
    ∃ (s : DetState) (d : dvt.State),
      rfEchoTx.adcBufCallback (List.replicate 500 0) 51
        = some (s, [Effect.PIN_setOutputValue Pin.Board_DIO15
                      (if (List.replicate 500 0).sum / 500 > 50000 then 1 else 0),
                    Effect.ADCBuf_convertCancel]) ∧
      rfEchoRx.adcBufCallback (List.replicate 500 0) 51
        = some (s, [Effect.PIN_setOutputValue Pin.Board_DIO15
                      (if (List.replicate 500 0).sum / 500 > 15000 then 1 else 0),
                    Effect.ADCBuf_convertCancel]) ∧
      dvt.adcBufCallback (List.replicate 500 0) 51
        = some (d, [Effect.PIN_setOutputValue Pin.Board_DIO15
                      (if (List.replicate 500 0).sum / 500 > 150000 then 1 else 0)]) ∧
      s.total_max = (List.replicate 500 0).sum / 500 ∧
      d.max = (List.replicate 500 0).sum / 500 :=
  ⟨List.length_replicate 500 0,
    fun x hx => by rw [(List.mem_replicate.mp hx).2]; decide,
    by decide,
    C26_max_is_buffer_mean (List.replicate 500 0) (List.length_replicate 500 0)
      (fun x hx => by rw [(List.mem_replicate.mp hx).2]; decide) 51 (by decide)⟩

/-- C27: in the detectors of `rfEchoTx.c` and `rfEchoRx.c`, for every 500-sample
buffer the loop over `run_number` returns, and the triple
(`run_max`, `total_max`, `saved_bin_number`) it ends with is the triple the
first pass alone leaves; the decision step therefore writes the same value
after four passes as after one, for every threshold and window bound. -/
theorem C27_later_passes_change_nothing (microVoltBuffer : List Nat)
    (_hlen : microVoltBuffer.length = 500) (fuel : Nat) (hfuel : 50 < fuel) :
    ∃ s4 s1 : DetState,
      passLoop ADCBUFFERSIZE microVoltBuffer fuel DetState.init = some s4 ∧
      passBody ADCBUFFERSIZE microVoltBuffer fuel DetState.init = some s1 ∧
      s4.run_number = 4 ∧ s1.run_number = 1 ∧
      (s4.run_max, s4.total_max, s4.saved_bin_number)
        = (s1.run_max, s1.total_max, s1.saved_bin_number) ∧
      (∀ threshold max_bin_index,
        alarmStep threshold max_bin_index s4.total_max s4.saved_bin_number
          = alarmStep threshold max_bin_index s1.total_max s1.saved_bin_number) ∧
      rfEchoTx.adcBufCallback microVoltBuffer fuel
        = some (s4, alarmStep 50000 23 s1.total_max s1.saved_bin_number
                  ++ [Effect.ADCBuf_convertCancel]) ∧
      rfEchoRx.adcBufCallback microVoltBuffer fuel
        = some (s4, alarmStep 15000 23 s1.total_max s1.saved_bin_number
                  ++ [Effect.ADCBuf_convertCancel]) := by
  obtain ⟨s4, h1, h2, _, h4, _, h6⟩ := passLoop_500 microVoltBuffer fuel hfuel
  obtain ⟨s1, g1, g2, g3, hrun⟩ := passBody_500 microVoltBuffer fuel hfuel
  have e : (s4.total_max, s4.saved_bin_number) = (s1.total_max, s1.saved_bin_number) := by
    rw [h6, g3]
  have et : s4.total_max = s1.total_max := congrArg Prod.fst e
  have es : s4.saved_bin_number = s1.saved_bin_number := congrArg Prod.snd e
  refine ⟨s4, s1, h1, g1, h4, hrun, ?_, ?_, ?_, ?_⟩
  · rw [h2, g2, et, es]
  · intro t m
    rw [et, es]
  · unfold rfEchoTx.adcBufCallback ADCBUFFERSIZE
    rw [detectorCallback_of_passLoop 500 50000 23 microVoltBuffer fuel s4 h1, et, es]
    unfold alarmStep
    split <;> rfl
  · unfold rfEchoRx.adcBufCallback ADCBUFFERSIZE
    rw [detectorCallback_of_passLoop 500 15000 23 microVoltBuffer fuel s4 h1, et, es]
    unfold alarmStep
    split <;> rfl

/-- Witness for C27: the all-zero buffer with fuel 51. -/
theorem C27_later_passes_change_nothing_witness :
    (List.replicate 500 0).length = 500 ∧ 50 < 51 ∧
    ∃ s4 s1 : DetState,
      passLoop ADCBUFFERSIZE (List.replicate 500 0) 51 DetState.init = some s4 ∧
      passBody ADCBUFFERSIZE (List.replicate 500 0) 51 DetState.init = some s1 ∧
      s4.run_number = 4 ∧ s1.run_number = 1 ∧
      (s4.run_max, s4.total_max, s4.saved_bin_number)
        = (s1.run_max, s1.total_max, s1.saved_bin_number) ∧
      (∀ threshold max_bin_index,
        alarmStep threshold max_bin_index s4.total_max s4.saved_bin_number
          = alarmStep threshold max_bin_index s1.total_max s1.saved_bin_number) ∧
      rfEchoTx.adcBufCallback (List.replicate 500 0) 51
        = some (s4, alarmStep 50000 23 s1.total_max s1.saved_bin_number
                  ++ [Effect.ADCBuf_convertCancel]) ∧
      rfEchoRx.adcBufCallback (List.replicate 500 0) 51
        = some (s4, alarmStep 15000 23 s1.total_max s1.saved_bin_number
                  ++ [Effect.ADCBuf_convertCancel]) :=
  ⟨List.length_replicate 500 0, by decide,
    C27_later_passes_change_nothing (List.replicate 500 0) (List.length_replicate 500 0) 51
      (by decide)⟩

/-- C28: for every 500-sample buffer the value `max` computed in
`adcBufContinuousSampling.c` equals the value `total_max` computed in
`rfEchoTx.c` and in `rfEchoRx.c`; each of the three variants writes 1 exactly
when that one magnitude is greater than its threshold (150000, 50000, 15000), so
whenever the single-pass variant writes 1 the transmitter writes 1, and whenever
the transmitter writes 1 the receiver writes 1. -/
theorem C28_variants_same_magnitude (microVoltBuffer : List Nat)
    (_hlen : microVoltBuffer.length = 500) (fuel : Nat) (hfuel : 50 < fuel) :
    ∃ (s : DetState) (d : dvt.State) (vD vT vR : Nat),
      dvt.adcBufCallback microVoltBuffer fuel
        = some (d, [Effect.PIN_setOutputValue Pin.Board_DIO15 vD]) ∧
      rfEchoTx.adcBufCallback microVoltBuffer fuel
        = some (s, [Effect.PIN_setOutputValue Pin.Board_DIO15 vT,
                    Effect.ADCBuf_convertCancel]) ∧
      rfEchoRx.adcBufCallback microVoltBuffer fuel
        = some (s, [Effect.PIN_setOutputValue Pin.Board_DIO15 vR,
                    Effect.ADCBuf_convertCancel]) ∧
      d.max = s.total_max ∧
      vD = (if s.total_max > 150000 then 1 else 0) ∧
      vT = (if s.total_max > 50000 then 1 else 0) ∧
      vR = (if s.total_max > 15000 then 1 else 0) ∧
      (vD = 1 → vT = 1) ∧ (vT = 1 → vR = 1) := by
  obtain ⟨s, d, h1, h2, h3, h4, _⟩ := three_callbacks microVoltBuffer fuel hfuel
  rw [h4] at h3
  refine ⟨s, d, _, _, _, h3, h1, h2, h4, rfl, rfl, rfl, ?_, ?_⟩
  · intro h
    by_cases hc : s.total_max > 150000
    · rw [if_pos (by omega)]
    · rw [if_neg hc] at h
      exact absurd h (by decide)
  · intro h
    by_cases hc : s.total_max > 50000
    · rw [if_pos (by omega)]
    · rw [if_neg hc] at h
      exact absurd h (by decide)

/-- Witness for C28: the all-zero buffer with fuel 51. -/
theorem C28_variants_same_magnitude_witness :
    (List.replicate 500 0).length = 500 ∧ 50 < 51 ∧
    ∃ (s : DetState) (d : dvt.State) (vD vT vR : Nat),
      dvt.adcBufCallback (List.replicate 500 0) 51
        = some (d, [Effect.PIN_setOutputValue Pin.Board_DIO15 vD]) ∧
      rfEchoTx.adcBufCallback (List.replicate 500 0) 51
        = some (s, [Effect.PIN_setOutputValue Pin.Board_DIO15 vT,
                    Effect.ADCBuf_convertCancel]) ∧
      rfEchoRx.adcBufCallback (List.replicate 500 0) 51
        = some (s, [Effect.PIN_setOutputValue Pin.Board_DIO15 vR,
                    Effect.ADCBuf_convertCancel]) ∧
      d.max = s.total_max ∧
      vD = (if s.total_max > 150000 then 1 else 0) ∧
      vT = (if s.total_max > 50000 then 1 else 0) ∧
      vR = (if s.total_max > 15000 then 1 else 0) ∧
      (vD = 1 → vT = 1) ∧ (vT = 1 → vR = 1) :=
  ⟨List.length_replicate 500 0, by decide,
    C28_variants_same_magnitude (List.replicate 500 0) (List.length_replicate 500 0) 51
      (by decide)⟩

/-- On samples below 2^31, one step of the sample loop at an index below 500
stores the unreduced successor of `b` and the unreduced sum. -/
theorem sampleBody_exact (buf : List Nat) (h : ∀ x ∈ buf, x < 2 ^ 31) (t : SampleAcc)
    (hb : t.b < 500) (hsum : t.sum = prefixSum buf t.b) :
    sampleBody buf t
      = some { b := t.b + 1, sum := t.sum + buf.getD t.b 0, reads := t.reads ++ [t.b] } ∧
    t.sum + buf.getD t.b 0 = prefixSum buf (t.b + 1) ∧
    t.sum + buf.getD t.b 0 ≤ 2 ^ 64 - 1 := by
  have hx := getD_lt_pow31 buf t.b h
  have hx2 : buf.getD t.b 0 < 2147483648 := hx
  have hle := prefixSum_le buf h t.b
  have hle2 : t.b * 2147483647 ≤ 500 * 2147483647 := by omega
  have e1 : (t.b + 1) % 2 ^ 16 = t.b + 1 := Nat.mod_eq_of_lt (by omega)
  have e2 : (t.sum + buf.getD t.b 0) % 2 ^ 64 = t.sum + buf.getD t.b 0 :=
    Nat.mod_eq_of_lt (by omega)
  refine ⟨?_, ?_, by omega⟩
  · unfold sampleBody
    rw [absSample_of_lt _ hx, e1, e2]
  · rw [prefixSum, absSample_of_lt _ hx, hsum]

/-- On a 500-sample buffer below 2^31 every record of a pass holds the exact
quotient, and the counters it was entered with are in range. -/
theorem record_exact (buf : List Nat) (hlen : buf.length = 500)
    (h : ∀ x ∈ buf, x < 2 ^ 31) (r : BinRecord) (j : Nat) (hj : j < 40)
    (hr : r = { run_number := j / 10, a := j % 10, bin_number := j,
                reads := List.range' (50 * (j % 10)) 50,
                bin_average := binAverage buf (j % 10) }) :
    r.bin_average = (buf.take (50 * (r.a + 1))).sum / 500 ∧ r.bin_average ≤ 2 ^ 32 - 1 ∧
    r.a + 1 ≤ 10 ∧ r.bin_number + 1 ≤ 40 ∧ r.run_number + 1 ≤ 4 ∧
    ∀ i ∈ r.reads, i + 1 ≤ 500 := by
  subst hr
  simp only
  obtain ⟨e1, e2⟩ := binAverage_exact buf h (j % 10) (by omega)
  have e2' : binAverage buf (j % 10) < 2147483648 := e2
  refine ⟨?_, by omega, by omega, by omega, by omega, ?_⟩
  · rw [e1, prefixSum_eq_sum buf h _ (by omega)]
  · intro i hi
    rw [List.mem_range'_1] at hi
    omega

/-- C29: for every 500-sample buffer of values below 2^31 the detector's
fixed-width arithmetic loses nothing: `abs` returns each sample itself; the
running sum over any prefix is the sum of those samples and is at most 2^64-1,
and each step of the sample loop stores the unreduced sum and the unreduced
successor of `b`; every evaluated bin stores the exact quotient of the running
sum by 500, which is at most 2^32-1; and the counters `a`, `b`, `bin_number`
and `run_number` are stored at values not above 10, 500, 40 and 4, the loops
ending with `run_number = 4` and `bin_number = 40`. -/
theorem C29_arithmetic_never_wraps (microVoltBuffer : List Nat)
    (hlen : microVoltBuffer.length = 500) (hval : ∀ x ∈ microVoltBuffer, x < 2 ^ 31)
    (fuel : Nat) (hfuel : 50 < fuel) :
    (∀ x ∈ microVoltBuffer, absSample x = x) ∧
    (∀ n, n ≤ 500 → prefixSum microVoltBuffer n = (microVoltBuffer.take n).sum ∧
      (microVoltBuffer.take n).sum ≤ 2 ^ 64 - 1) ∧
    (∀ t : SampleAcc, t.b < 500 → t.sum = prefixSum microVoltBuffer t.b →
      sampleBody microVoltBuffer t
        = some { b := t.b + 1, sum := t.sum + microVoltBuffer.getD t.b 0,
                 reads := t.reads ++ [t.b] } ∧
      t.sum + microVoltBuffer.getD t.b 0 = prefixSum microVoltBuffer (t.b + 1) ∧
      t.sum + microVoltBuffer.getD t.b 0 ≤ 2 ^ 64 - 1) ∧
    ∃ (s : DetState) (d : dvt.State) (effT effR effD : List Effect),
      rfEchoTx.adcBufCallback microVoltBuffer fuel = some (s, effT) ∧
      rfEchoRx.adcBufCallback microVoltBuffer fuel = some (s, effR) ∧
      dvt.adcBufCallback microVoltBuffer fuel = some (d, effD) ∧
      s.log.length = 40 ∧ d.log.length = 10 ∧
      (∀ r ∈ s.log,
        r.bin_average = (microVoltBuffer.take (50 * (r.a + 1))).sum / 500 ∧
        r.bin_average ≤ 2 ^ 32 - 1 ∧
        r.a + 1 ≤ 10 ∧ r.bin_number + 1 ≤ 40 ∧ r.run_number + 1 ≤ 4 ∧
        ∀ i ∈ r.reads, i + 1 ≤ 500) ∧
      (∀ r ∈ d.log,
        r.bin_average = (microVoltBuffer.take (50 * (r.a + 1))).sum / 500 ∧
        r.bin_average ≤ 2 ^ 32 - 1 ∧
        r.a + 1 ≤ 10 ∧ ∀ i ∈ r.reads, i + 1 ≤ 500) ∧
      s.run_number = 4 ∧ s.bin_number = 40 := by
  refine ⟨fun x hx => absSample_of_lt x (hval x hx), ?_,
    fun t hb hsum => sampleBody_exact microVoltBuffer hval t hb hsum, ?_⟩
  · intro n hn
    have e := prefixSum_eq_sum microVoltBuffer hval n (by omega)
    have hle := prefixSum_le microVoltBuffer hval n
    have hle2 : n * 2147483647 ≤ 500 * 2147483647 := by omega
    refine ⟨e, ?_⟩
    rw [← e]
    omega
  · obtain ⟨s, d, h1, h2, h3, _, _, _, h7, h8, h9, h10⟩ :=
      three_callbacks microVoltBuffer fuel hfuel
    refine ⟨s, d, _, _, _, h1, h2, h3, ?_, ?_, ?_, ?_, h9, h10⟩
    · rw [h7]
      simp [fourPassLog]
    · rw [h8]
      simp [onePassLog]
    · intro r hr
      rw [h7] at hr
      obtain ⟨j, hj, hrj⟩ := (mem_fourPassLog microVoltBuffer r).mp hr
      exact record_exact microVoltBuffer hlen hval r j hj hrj
    · intro r hr
      rw [h8] at hr
      obtain ⟨j, hj, hrj⟩ := (mem_onePassLog microVoltBuffer r).mp hr
      have hj10 : j % 10 = j := Nat.mod_eq_of_lt hj
      have hj0 : j / 10 = 0 := Nat.div_eq_of_lt hj
      obtain ⟨g1, g2, g3, _, _, g6⟩ := record_exact microVoltBuffer hlen hval r j (by omega)
        (by rw [hj10, hj0]; exact hrj)
      exact ⟨g1, g2, g3, g6⟩

/-- Witness for C29: the all-zero buffer with fuel 51. -/
theorem C29_arithmetic_never_wraps_witness :
    (List.replicate 500 0).length = 500 ∧ (∀ x ∈ List.replicate 500 0, x < 2 ^ 31) ∧
    50 < 51 ∧
    (∀ x ∈ List.replicate 500 0, absSample x = x) ∧
    (∀ t : SampleAcc, t.b < 500 → t.sum = prefixSum (List.replicate 500 0) t.b →
      sampleBody (List.replicate 500 0) t
        = some { b := t.b + 1, sum := t.sum + (List.replicate 500 0).getD t.b 0,
                 reads := t.reads ++ [t.b] } ∧
      t.sum + (List.replicate 500 0).getD t.b 0 = prefixSum (List.replicate 500 0) (t.b + 1) ∧
      t.sum + (List.replicate 500 0).getD t.b 0 ≤ 2 ^ 64 - 1) :=
  ⟨List.length_replicate 500 0,
    fun x hx => by rw [(List.mem_replicate.mp hx).2]; decide,
    by decide,
    (C29_arithmetic_never_wraps (List.replicate 500 0) (List.length_replicate 500 0)
      (fun x hx => by rw [(List.mem_replicate.mp hx).2]; decide) 51 (by decide)).1,
    (C29_arithmetic_never_wraps (List.replicate 500 0) (List.length_replicate 500 0)
      (fun x hx => by rw [(List.mem_replicate.mp hx).2]; decide) 51 (by decide)).2.2.1⟩

/-- Copying `n` bytes from a source that starts with the `n`-byte packet `P`
into an `n`-byte array leaves exactly `P`. -/
theorem memcpy_packet (dst P tl : List Nat) (n : Nat) (hP : P.length = n)
    (hdst : dst.length = n) : memcpy dst (P ++ tl) n = P := by
  unfold memcpy
  rw [List.drop_eq_nil_of_le (by omega), List.append_nil]
  apply List.ext_getElem
  · simp [hP]
  · intro i h1 h2
    have hi : i < P.length := h2
    simp [List.getD_eq_getElem?_getD, List.getElem?_append_left hi, List.getElem?_eq_getElem hi]

/-- The transmitter callback in its `RF_EventRxEntryDone` branch sets
`bRxSuccess`. -/
theorem tx_echoCallback_rx_flag (c : SdkConsts) (e : Nat) (data : List Nat)
    (s : rfEchoTx.CallbackState) (hrx : e &&& c.RF_EventRxEntryDone ≠ 0)
    (hfirst : ¬ (e &&& c.RF_EventCmdDone ≠ 0 ∧ e &&& c.RF_EventLastCmdDone = 0)) :
    (rfEchoTx.echoCallback c e data s).1.bRxSuccess = true := by
  unfold rfEchoTx.echoCallback
  have h1 : ¬ (eventSet e c.RF_EventCmdDone = true ∧ ¬ eventSet e c.RF_EventLastCmdDone = true) := by
    simpa [eventSet] using hfirst
  have h2 : eventSet e c.RF_EventRxEntryDone = true := by
    simpa [eventSet] using hrx
  rw [if_neg h1, if_pos h2]
  simp only
  split <;> rfl

/-- C24: for every 30-byte packet `P` held in the transmitter's `txPacket`, when
the receiver's `echoCallback` handles `RF_EventRxEntryDone` for an entry with
length byte 30 and payload `P`, the receiver's `txPacket` becomes `P`; and when
the transmitter's `echoCallback` then handles `RF_EventRxEntryDone` for an
entry with length byte 30 carrying the receiver's `txPacket`, the comparison
status is 0, the writes are those of the echo-confirmed branch (LED1 toggled,
LED2 cleared) and not those of the error branch, and `bRxSuccess` is set. -/
theorem C24_echo_round_trip (c : SdkConsts) (eR eT : Nat) (P tailR tailT : List Nat)
    (sR : rfEchoRx.CallbackState) (sT : rfEchoTx.CallbackState)
    (hP : P.length = PAYLOAD_LENGTH) (hbytes : ∀ x ∈ P, x < 256)
    (htail : ∀ x ∈ tailT, x < 256)
    (hheld : sT.txPacket = P) (hR : sR.txPacket.length = PAYLOAD_LENGTH)
    (heR : eR &&& c.RF_EventRxEntryDone ≠ 0)
    (heT : eT &&& c.RF_EventRxEntryDone ≠ 0)
    (hfirst : ¬ (eT &&& c.RF_EventCmdDone ≠ 0 ∧ eT &&& c.RF_EventLastCmdDone = 0)) :
    (rfEchoRx.echoCallback c eR (30 :: P ++ tailR) sR).1.txPacket = P ∧
    toInt16 (memcmp sT.txPacket
      (memcpy sT.rxPacket
        ((rfEchoRx.echoCallback c eR (30 :: P ++ tailR) sR).1.txPacket ++ tailT) 31) 30) = 0 ∧
    (rfEchoTx.echoCallback c eT
      (30 :: (rfEchoRx.echoCallback c eR (30 :: P ++ tailR) sR).1.txPacket ++ tailT) sT).2
      = rfEchoTx.toggleLed1 sT.pins ∧
    (rfEchoTx.echoCallback c eT
      (30 :: (rfEchoRx.echoCallback c eR (30 :: P ++ tailR) sR).1.txPacket ++ tailT) sT).2
      ≠ rfEchoTx.bothLeds ∧
    (rfEchoTx.echoCallback c eT
      (30 :: (rfEchoRx.echoCallback c eR (30 :: P ++ tailR) sR).1.txPacket ++ tailT)
      sT).1.bRxSuccess = true := by
  have hrx : (rfEchoRx.echoCallback c eR (30 :: P ++ tailR) sR).1.txPacket = P := by
    unfold rfEchoRx.echoCallback
    have h2 : eventSet eR c.RF_EventRxEntryDone = true := by
      simpa [eventSet] using heR
    rw [if_pos h2]
    exact memcpy_packet sR.txPacket P tailR 30 hP hR
  rw [hrx]
  have hdata : ∀ x ∈ (30 :: P ++ tailT), x < 256 := by
    intro x hx
    simp only [List.cons_append, List.mem_cons, List.mem_append] at hx
    rcases hx with h | h | h
    · omega
    · exact hbytes x h
    · exact htail x h
  have hstat := status_eq_zero_iff sT.txPacket sT.rxPacket (30 :: P ++ tailT)
    (by rw [hheld]; exact hbytes) hdata
  have hzero : toInt16 (memcmp sT.txPacket (memcpy sT.rxPacket (P ++ tailT) 31) 30) = 0 := by
    apply hstat.mpr
    intro i hi
    have hi30 : i < 30 := hi
    have hiP : i < P.length := by rw [hP]; exact hi30
    rw [hheld]
    simp [List.getD_eq_getElem?_getD, List.getElem?_append_left hiP]
  have hbranch := tx_echoCallback_rx_branch c eT (30 :: P ++ tailT) sT heT hfirst
  have heff : (rfEchoTx.echoCallback c eT (30 :: P ++ tailT) sT).2
      = rfEchoTx.toggleLed1 sT.pins := by
    rw [hbranch]
    exact if_pos hzero
  refine ⟨rfl, hzero, heff, ?_, tx_echoCallback_rx_flag c eT _ sT heT hfirst⟩
  rw [heff]
  exact toggleLed1_ne_bothLeds sT.pins

/-- Witness for C24: the SDK constants, both events `RF_EventRxEntryDone`, the
packet of thirty bytes 5, and one status byte after each payload. -/
theorem C24_echo_round_trip_witness :
    (List.replicate 30 5).length = PAYLOAD_LENGTH ∧
    (∀ x ∈ List.replicate 30 5, x < 256) ∧
    8388608 &&& simplelink.RF_EventRxEntryDone ≠ 0 ∧
    ¬ (8388608 &&& simplelink.RF_EventCmdDone ≠ 0 ∧
        8388608 &&& simplelink.RF_EventLastCmdDone = 0) ∧
    (rfEchoRx.echoCallback simplelink 8388608 (30 :: List.replicate 30 5 ++ [0])
      { pins := { Board_DIO15 := 0, Board_PIN_LED1 := 0, Board_PIN_LED2 := 0 },
            txPacket := List.replicate 30 0, packetLength := 0 }).1.txPacket = List.replicate 30 5 ∧
    (rfEchoTx.echoCallback simplelink 8388608
      (30 :: (rfEchoRx.echoCallback simplelink 8388608 (30 :: List.replicate 30 5 ++ [0])
        { pins := { Board_DIO15 := 0, Board_PIN_LED1 := 0, Board_PIN_LED2 := 0 },
            txPacket := List.replicate 30 0, packetLength := 0 }).1.txPacket ++ [0])
      { pins := { Board_DIO15 := 0, Board_PIN_LED1 := 0, Board_PIN_LED2 := 0 },
            bRxSuccess := false, txPacket := List.replicate 30 5,
            rxPacket := List.replicate 31 0, packetLength := 0 }).2
      = rfEchoTx.toggleLed1 { Board_DIO15 := 0, Board_PIN_LED1 := 0, Board_PIN_LED2 := 0 } :=
  ⟨by decide, by decide, by decide, by decide,
    (C24_echo_round_trip simplelink 8388608 8388608 (List.replicate 30 5) [0] [0]
      { pins := { Board_DIO15 := 0, Board_PIN_LED1 := 0, Board_PIN_LED2 := 0 },
            txPacket := List.replicate 30 0, packetLength := 0 }
      { pins := { Board_DIO15 := 0, Board_PIN_LED1 := 0, Board_PIN_LED2 := 0 },
            bRxSuccess := false, txPacket := List.replicate 30 5,
            rxPacket := List.replicate 31 0, packetLength := 0 }
      (by decide) (by decide) (by decide) rfl (by decide) (by decide) (by decide)
      (by decide)).1,
    (C24_echo_round_trip simplelink 8388608 8388608 (List.replicate 30 5) [0] [0]
      { pins := { Board_DIO15 := 0, Board_PIN_LED1 := 0, Board_PIN_LED2 := 0 },
            txPacket := List.replicate 30 0, packetLength := 0 }
      { pins := { Board_DIO15 := 0, Board_PIN_LED1 := 0, Board_PIN_LED2 := 0 },
            bRxSuccess := false, txPacket := List.replicate 30 5,
            rxPacket := List.replicate 31 0, packetLength := 0 }
      (by decide) (by decide) (by decide) rfl (by decide) (by decide) (by decide)
      (by decide)).2.2.1⟩

/-- C22 (failing inputs): with every other open call succeeding, `RF_open`
returning a null handle lets the start-up of `rfEchoTx.c` and of `rfEchoRx.c`
run to the main loop, handing the null handle to `RF_postCmd` on the way; and
`UART_open` returning a null handle lets the start-up of all three programs run
on, after which `adcBufCallback` hands the null handle to `UART_write`.  A null
`PIN_open` or `PWM_open` result, in contrast, halts before any use. -/
theorem C22_null_handle_used :
    rfEchoTx.setup
      { pinHandle := true, pwm2 := true, adcBuf := true, uart := true,
            rfHandle := false, defineQueueFails := false, convertFails := false }
      = ([SetupCall.opened Capability.PWM, SetupCall.used Capability.PWM true,
          SetupCall.opened Capability.UART, SetupCall.opened Capability.ADCBuf,
          SetupCall.opened Capability.PIN, SetupCall.opened Capability.RF,
          SetupCall.used Capability.RF false], SetupEnd.running) ∧
    rfEchoRx.setup
      { pinHandle := true, pwm2 := true, adcBuf := true, uart := true,
            rfHandle := false, defineQueueFails := false, convertFails := false }
      = ([SetupCall.opened Capability.PIN, SetupCall.opened Capability.UART,
          SetupCall.opened Capability.ADCBuf, SetupCall.opened Capability.PWM,
          SetupCall.used Capability.PWM true, SetupCall.opened Capability.RF,
          SetupCall.used Capability.RF false], SetupEnd.running) ∧
    (rfEchoTx.setup
      { pinHandle := true, pwm2 := true, adcBuf := true, uart := false,
            rfHandle := true, defineQueueFails := false, convertFails := false }).2 = SetupEnd.running ∧
    (rfEchoRx.setup
      { pinHandle := true, pwm2 := true, adcBuf := true, uart := false,
            rfHandle := true, defineQueueFails := false, convertFails := false }).2 = SetupEnd.running ∧
    (dvt.setup
      { pinHandle := true, pwm2 := true, adcBuf := true, uart := false,
            rfHandle := true, defineQueueFails := false, convertFails := false }).2 = SetupEnd.running ∧
    SetupCall.used Capability.UART false ∈ adcBufCallbackUses
      { pinHandle := true, pwm2 := true, adcBuf := true, uart := false,
            rfHandle := true, defineQueueFails := false, convertFails := false } ∧
    (∀ r : OpenResults, r.pinHandle = false →
      (rfEchoTx.setup r).2 = SetupEnd.halted ∧
      (rfEchoRx.setup r).2 = SetupEnd.halted ∧
      (dvt.setup r).2 = SetupEnd.halted ∧
      SetupCall.used Capability.PIN false ∉ (rfEchoTx.setup r).1 ∧
      SetupCall.used Capability.PIN false ∉ (rfEchoRx.setup r).1 ∧
      SetupCall.used Capability.PIN false ∉ (dvt.setup r).1) ∧
    (∀ r : OpenResults, r.pwm2 = false →
      (rfEchoTx.setup r).2 = SetupEnd.halted ∧
      (rfEchoRx.setup r).2 = SetupEnd.halted ∧
      SetupCall.used Capability.PWM false ∉ (rfEchoTx.setup r).1 ∧
      SetupCall.used Capability.PWM false ∉ (rfEchoRx.setup r).1) := by
  refine ⟨by decide, by decide, by decide, by decide, by decide, by decide, ?_, ?_⟩
  · intro r h
    unfold rfEchoTx.setup rfEchoRx.setup dvt.setup
    rw [h]
    cases r.pwm2 <;> simp
  · intro r h
    unfold rfEchoTx.setup rfEchoRx.setup
    rw [h]
    cases r.pinHandle <;> simp

/-- C23 (failing input): on the buffer whose 500 values are all 1000000, with
`buffersCompletedCounter = 0`, the telemetry step returns, every store into
`uartTxBuffer` is at an index below `UARTBUFFERSIZE`, and the byte count handed
to `UART_write` is 506, more than `UARTBUFFERSIZE`. -/
theorem C23_uart_write_count_exceeds :
    (uartTelemetry (List.replicate 500 1000000) 0 501).map Prod.fst = some 506 ∧
    (uartTelemetry (List.replicate 500 1000000) 0 501).map
        (fun r => r.2.all fun st => decide (st.1 ≤ st.2 ∧ st.2 < UARTBUFFERSIZE)) = some true ∧
    UARTBUFFERSIZE < 506 := by
  decide

/-- C30 (failing input): with the SDK constants, a cycle whose second callback
carries `RF_EventRxEntryDone` together with `RF_EventLastCmdDone` (mask 8388611)
ends with `bRxSuccess = true`, so the flag is true when the next cycle begins;
the next cycle, which ends with `RF_EventLastCmdDone` without
`RF_EventRxEntryDone` (mask 3) and handles no `RF_EventRxEntryDone`, makes no
pin write in that callback and leaves LED1 = 1, LED2 = 0, whereas the same
cycle entered with `bRxSuccess = false` writes LED1 = 0, LED2 = 1. -/
theorem C30_stale_rx_flag :
    (rfEchoTx.echoCallbacks simplelink
      [(1, []), (8388611, 30 :: List.replicate 31 0)]
      { pins := { Board_DIO15 := 0, Board_PIN_LED1 := 0, Board_PIN_LED2 := 0 },
            bRxSuccess := false, txPacket := List.replicate 30 0,
            rxPacket := List.replicate 31 0, packetLength := 0 }).1.bRxSuccess = true ∧
    (rfEchoTx.echoCallbacks simplelink
      [(1, []), (8388611, 30 :: List.replicate 31 0), (1, []), (3, [])]
      { pins := { Board_DIO15 := 0, Board_PIN_LED1 := 0, Board_PIN_LED2 := 0 },
            bRxSuccess := false, txPacket := List.replicate 30 0,
            rxPacket := List.replicate 31 0, packetLength := 0 }).2
      = [[Effect.PIN_setOutputValue Pin.Board_PIN_LED1 1,
          Effect.PIN_setOutputValue Pin.Board_PIN_LED2 0],
         [Effect.PIN_setOutputValue Pin.Board_PIN_LED1 0,
          Effect.PIN_setOutputValue Pin.Board_PIN_LED2 0],
         [Effect.PIN_setOutputValue Pin.Board_PIN_LED1 1,
          Effect.PIN_setOutputValue Pin.Board_PIN_LED2 0],
         []] ∧
    (rfEchoTx.echoCallbacks simplelink
      [(1, []), (8388611, 30 :: List.replicate 31 0), (1, []), (3, [])]
      { pins := { Board_DIO15 := 0, Board_PIN_LED1 := 0, Board_PIN_LED2 := 0 },
            bRxSuccess := false, txPacket := List.replicate 30 0,
            rxPacket := List.replicate 31 0, packetLength := 0 }).1.pins
      = { Board_DIO15 := 0, Board_PIN_LED1 := 1, Board_PIN_LED2 := 0 } ∧
    (rfEchoTx.echoCallbacks simplelink [(1, []), (3, [])]
      { pins := { Board_DIO15 := 0, Board_PIN_LED1 := 0, Board_PIN_LED2 := 0 },
            bRxSuccess := false, txPacket := List.replicate 30 0,
            rxPacket := List.replicate 31 0, packetLength := 0 }).2
      = [[Effect.PIN_setOutputValue Pin.Board_PIN_LED1 1,
          Effect.PIN_setOutputValue Pin.Board_PIN_LED2 0],
         [Effect.PIN_setOutputValue Pin.Board_PIN_LED1 0,
          Effect.PIN_setOutputValue Pin.Board_PIN_LED2 1]] ∧
    3 &&& simplelink.RF_EventLastCmdDone ≠ 0 ∧ 3 &&& simplelink.RF_EventRxEntryDone = 0 ∧
    1 &&& simplelink.RF_EventRxEntryDone = 0 := by
  decide

/-! ## The whole of `adcBufCallback`: what a second run writes -/

/-- The value loop of the telemetry step returns: `i` grows by one each turn. -/
theorem uartLoop_returns (buf : List Nat) :
    ∀ (n fuel : Nat) (u : UartState), 500 ≤ u.i + n → n < fuel →
      ∃ u1, whileLoop
        (fun u => decide (u.i < ADCBUFFERSIZE ∧ u.uartTxBufferOffset < UARTBUFFERSIZE))
        (uartBody buf) fuel u = some u1 := by
  intro n
  induction n with
  | zero =>
    intro fuel u hu hf
    obtain ⟨f, rfl⟩ : ∃ f, fuel = f + 1 := ⟨fuel - 1, by omega⟩
    refine ⟨u, whileLoop_exit _ _ f u ?_⟩
    simp only [ADCBUFFERSIZE, decide_eq_false_iff_not]
    omega
  | succ n ih =>
    intro fuel u hu hf
    obtain ⟨f, rfl⟩ : ∃ f, fuel = f + 1 := ⟨fuel - 1, by omega⟩
    by_cases hc : u.i < ADCBUFFERSIZE ∧ u.uartTxBufferOffset < UARTBUFFERSIZE
    · rw [whileLoop_step
        (fun u => decide (u.i < ADCBUFFERSIZE ∧ u.uartTxBufferOffset < UARTBUFFERSIZE))
        (uartBody buf) f u _ (by simpa using hc) rfl]
      exact ih f _ (by simp only; omega) (by omega)
    · exact ⟨u, whileLoop_exit _ _ f u (by simpa using hc)⟩

/-- The telemetry step returns for every buffer and counter. -/
theorem uartTelemetry_returns (buf : List Nat) (counter fuel : Nat) (hf : 500 < fuel) :
    ∃ r, uartTelemetry buf counter fuel = some r := by
  unfold uartTelemetry
  simp only
  by_cases h : 19 + decimalLength 9 (counter % 2 ^ 32) < UARTBUFFERSIZE
  · obtain ⟨u1, h1⟩ := uartLoop_returns buf 500 fuel
      { i := 0, uartTxBufferOffset := 19 + decimalLength 9 (counter % 2 ^ 32) + 14,
        stores := snprintfStores 0 UARTBUFFERSIZE (19 + decimalLength 9 (counter % 2 ^ 32)) ++
          snprintfStores (19 + decimalLength 9 (counter % 2 ^ 32))
            (UARTBUFFERSIZE - (19 + decimalLength 9 (counter % 2 ^ 32))) 14 }
      (by simp) hf
    rw [if_pos h, h1]
    simp only
    split <;> exact ⟨_, rfl⟩
  · rw [if_neg h]
    simp only
    split <;> exact ⟨_, rfl⟩

/-- The conversion overwrites all of the 500-entry `microVoltBuffer`. -/
theorem storeMicroVolts_of_length (microVoltBuffer converted : List Nat)
    (h : microVoltBuffer.length = ADCBUFFERSIZE) :
    storeMicroVolts microVoltBuffer converted = storeMicroVolts [] converted := by
  unfold storeMicroVolts
  rw [List.drop_eq_nil_of_le (by omega), List.drop_nil]

theorem storeMicroVolts_length (converted : List Nat) :
    (storeMicroVolts [] converted).length = ADCBUFFERSIZE := by
  simp [storeMicroVolts]

/-- One run of the whole callback, given what its detector part returns on the
converted buffer. -/
theorem adcBufCallbackRun_spec (detector : List Nat → Nat → Option (DetState × List Effect))
    (drv : AdcDriver) (fuel : Nat) (hf : 500 < fuel) (buf : List Nat) (ch : Nat)
    (g : AdcGlobals) (hg : g.microVoltBuffer.length = ADCBUFFERSIZE)
    (s : DetState) (effects : List Effect)
    (hdet : detector (storeMicroVolts []
      (drv.ADCBuf_convertAdjustedToMicroVolts (drv.ADCBuf_adjustRawValues buf ch) ch)) fuel
        = some (s, effects)) :
    ∃ count, adcBufCallbackRun detector drv fuel buf ch g = some
      { globals :=
          { pins := applyEffects g.pins effects
            microVoltBuffer := storeMicroVolts []
              (drv.ADCBuf_convertAdjustedToMicroVolts (drv.ADCBuf_adjustRawValues buf ch) ch)
            buffersCompletedCounter := (g.buffersCompletedCounter + 1) % 2 ^ 32 }
        completedADCBuffer := drv.ADCBuf_adjustRawValues buf ch
        effects := effects
        uartWriteCount := count } := by
  obtain ⟨⟨count, stores⟩, hu⟩ := uartTelemetry_returns (storeMicroVolts []
    (drv.ADCBuf_convertAdjustedToMicroVolts (drv.ADCBuf_adjustRawValues buf ch) ch))
    g.buffersCompletedCounter fuel hf
  refine ⟨count, ?_⟩
  unfold adcBufCallbackRun
  simp only [storeMicroVolts_of_length _ _ hg, hdet, hu]

/-- One run of the whole callback of `rfEchoTx.c` and of `rfEchoRx.c`: it
returns, leaves the sample buffer adjusted, and writes `Board_DIO15` once, with
the value the maximum over the converted buffer gives. -/
theorem adcBufCallbackRun_both (drv : AdcDriver) (fuel : Nat) (hf : 500 < fuel)
    (buf : List Nat) (ch : Nat) (g : AdcGlobals)
    (hg : g.microVoltBuffer.length = ADCBUFFERSIZE) :
    (∃ r, rfEchoTx.adcBufCallbackRun drv fuel buf ch g = some r ∧
      r.effects = [Effect.PIN_setOutputValue Pin.Board_DIO15
          (if (onePassLog (storeMicroVolts [] (drv.ADCBuf_convertAdjustedToMicroVolts
                (drv.ADCBuf_adjustRawValues buf ch) ch))).foldl trackMax 0 > 50000
            then 1 else 0),
        Effect.ADCBuf_convertCancel] ∧
      r.globals.pins = applyEffects g.pins r.effects ∧
      r.completedADCBuffer = drv.ADCBuf_adjustRawValues buf ch ∧
      r.globals.microVoltBuffer.length = ADCBUFFERSIZE) ∧
    (∃ r, rfEchoRx.adcBufCallbackRun drv fuel buf ch g = some r ∧
      r.effects = [Effect.PIN_setOutputValue Pin.Board_DIO15
          (if (onePassLog (storeMicroVolts [] (drv.ADCBuf_convertAdjustedToMicroVolts
                (drv.ADCBuf_adjustRawValues buf ch) ch))).foldl trackMax 0 > 15000
            then 1 else 0),
        Effect.ADCBuf_convertCancel] ∧
      r.globals.pins = applyEffects g.pins r.effects ∧
      r.completedADCBuffer = drv.ADCBuf_adjustRawValues buf ch ∧
      r.globals.microVoltBuffer.length = ADCBUFFERSIZE) := by
  obtain ⟨s, _, h1, h2, _, _, _, h6, _⟩ := three_callbacks (storeMicroVolts []
    (drv.ADCBuf_convertAdjustedToMicroVolts (drv.ADCBuf_adjustRawValues buf ch) ch)) fuel
    (by omega)
  rw [h6] at h1 h2
  constructor
  · obtain ⟨count, hrun⟩ := adcBufCallbackRun_spec rfEchoTx.adcBufCallback drv fuel hf buf ch g
      hg s _ h1
    exact ⟨_, hrun, rfl, rfl, rfl, storeMicroVolts_length _⟩
  · obtain ⟨count, hrun⟩ := adcBufCallbackRun_spec rfEchoRx.adcBufCallback drv fuel hf buf ch g
      hg s _ h2
    exact ⟨_, hrun, rfl, rfl, rfl, storeMicroVolts_length _⟩

/-- On a buffer of 500 equal values below 2^31 the maximum is that value. -/
theorem onePass_const (V : Nat) (hV : V < 2 ^ 31) :
    (onePassLog (List.replicate 500 V)).foldl trackMax 0 = V := by
  have hval : ∀ x ∈ List.replicate 500 V, x < 2 ^ 31 := by
    intro x hx
    rw [(List.mem_replicate.mp hx).2]
    exact hV
  rw [onePass_max _ hval, prefixSum_eq_sum _ hval 500 (by rw [List.length_replicate]),
    List.take_of_length_le (by rw [List.length_replicate]), List.sum_replicate, smul_eq_mul]
  omega

theorem storeMicroVolts_replicate (V : Nat) :
    storeMicroVolts [] (List.replicate 500 V) = List.replicate 500 (V % 2 ^ 32) := by
  unfold storeMicroVolts ADCBUFFERSIZE
  rw [List.drop_nil, List.append_nil]
  apply List.ext_getElem
  · simp only [List.length_map, List.length_range, List.length_replicate]
  · intro i h1 h2
    have hi : i < 500 := by
      simpa only [List.length_map, List.length_range] using h1
    rw [List.getElem_map, List.getElem_range, List.getElem_replicate,
      List.getD_eq_getElem?_getD, List.getElem?_replicate, if_pos hi]
    rfl

/-- Two runs of a callback that writes `Board_DIO15` once, with a value fixed by
the adjusted buffer: a second run handed the same contents repeats the write,
and so does a second run on the buffer as the first left it when the
adjustment leaves that buffer unchanged. -/
theorem second_run (adjust : List Nat → List Nat)
    (run : List Nat → AdcGlobals → Option AdcRun) (val : List Nat → Nat)
    (hspec : ∀ buf g, g.microVoltBuffer.length = ADCBUFFERSIZE →
      ∃ r, run buf g = some r ∧
        r.effects = [Effect.PIN_setOutputValue Pin.Board_DIO15 (val (adjust buf)),
                     Effect.ADCBuf_convertCancel] ∧
        r.globals.pins = applyEffects g.pins r.effects ∧
        r.completedADCBuffer = adjust buf ∧
        r.globals.microVoltBuffer.length = ADCBUFFERSIZE)
    (buf : List Nat) (g : AdcGlobals) (hg : g.microVoltBuffer.length = ADCBUFFERSIZE) :
    ∃ r, run buf g = some r ∧
      r.effects = [Effect.PIN_setOutputValue Pin.Board_DIO15 (val (adjust buf)),
                   Effect.ADCBuf_convertCancel] ∧
      r.globals.pins = { g.pins with Board_DIO15 := val (adjust buf) } ∧
      r.completedADCBuffer = adjust buf ∧
      r.globals.microVoltBuffer.length = ADCBUFFERSIZE ∧
      (∃ r2, run buf r.globals = some r2 ∧
        r2.effects = r.effects ∧ r2.globals.pins = r.globals.pins) ∧
      (adjust (adjust buf) = adjust buf →
        ∃ r2, run r.completedADCBuffer r.globals = some r2 ∧
          r2.effects = r.effects ∧ r2.globals.pins = r.globals.pins) := by
  obtain ⟨r, h1, h2, h3, h4, h5⟩ := hspec buf g hg
  have hp : r.globals.pins = { g.pins with Board_DIO15 := val (adjust buf) } := by
    rw [h3, h2]
    rfl
  refine ⟨r, h1, h2, hp, h4, h5, ?_, ?_⟩
  · obtain ⟨r2, k1, k2, k3, _⟩ := hspec buf r.globals h5
    refine ⟨r2, k1, by rw [k2, h2], ?_⟩
    rw [k3, k2, hp]
    rfl
  · intro hidem
    obtain ⟨r2, k1, k2, k3, _⟩ := hspec r.completedADCBuffer r.globals h5
    rw [h4, hidem] at k2
    rw [h4] at k1
    refine ⟨r2, by rw [h4]; exact k1, by rw [k2, h2], ?_⟩
    rw [k3, k2, hp]
    rfl

/-- C21 (counterexample): with the sample driver, the whole `adcBufCallback` of
`rfEchoTx.c` run on a sample buffer of 500 values 30 writes `Board_DIO15 = 0`
and leaves the buffer adjusted in place to 500 values 45; run a second time on
that same buffer, from the statics the first run left, it writes
`Board_DIO15 = 1`. -/
theorem C21_counterexample :
    (rfEchoTx.adcBufCallbackRun gainDriver 501 (List.replicate 500 30) 0
        { pins := { Board_DIO15 := 0, Board_PIN_LED1 := 0, Board_PIN_LED2 := 0 },
          microVoltBuffer := List.replicate 500 0, buffersCompletedCounter := 0 }).map
      (fun r => (r.globals.pins.Board_DIO15, r.completedADCBuffer))
      = some (0, List.replicate 500 45) ∧
    ((rfEchoTx.adcBufCallbackRun gainDriver 501 (List.replicate 500 30) 0
        { pins := { Board_DIO15 := 0, Board_PIN_LED1 := 0, Board_PIN_LED2 := 0 },
          microVoltBuffer := List.replicate 500 0, buffersCompletedCounter := 0 }).bind
      (fun r1 => rfEchoTx.adcBufCallbackRun gainDriver 501 r1.completedADCBuffer 0
        r1.globals)).map
      (fun r => r.globals.pins.Board_DIO15) = some 1 := by
  have hadj1 : gainDriver.ADCBuf_adjustRawValues (List.replicate 500 30) 0
      = List.replicate 500 45 := by
    unfold gainDriver
    simp only [List.map_replicate]
    exact congrArg (List.replicate 500) (by decide)
  have hadj2 : gainDriver.ADCBuf_adjustRawValues (List.replicate 500 45) 0
      = List.replicate 500 68 := by
    unfold gainDriver
    simp only [List.map_replicate]
    exact congrArg (List.replicate 500) (by decide)
  have hcv1 : gainDriver.ADCBuf_convertAdjustedToMicroVolts (List.replicate 500 45) 0
      = List.replicate 500 47253 := by
    unfold gainDriver
    simp only [List.map_replicate]
  have hcv2 : gainDriver.ADCBuf_convertAdjustedToMicroVolts (List.replicate 500 68) 0
      = List.replicate 500 71404 := by
    unfold gainDriver
    simp only [List.map_replicate]
  obtain ⟨⟨r1, h1, e1, p1, b1, l1⟩, _⟩ := adcBufCallbackRun_both gainDriver 501 (by decide)
    (List.replicate 500 30) 0
    { pins := { Board_DIO15 := 0, Board_PIN_LED1 := 0, Board_PIN_LED2 := 0 },
          microVoltBuffer := List.replicate 500 0, buffersCompletedCounter := 0 }
    (List.length_replicate 500 0)
  rw [hadj1, hcv1, storeMicroVolts_replicate, onePass_const _ (by decide)] at e1
  rw [hadj1] at b1
  obtain ⟨⟨r2, h2, e2, p2, _⟩, _⟩ := adcBufCallbackRun_both gainDriver 501 (by decide)
    r1.completedADCBuffer 0 r1.globals l1
  rw [b1, hadj2, hcv2, storeMicroVolts_replicate, onePass_const _ (by decide)] at e2
  rw [h1, Option.map_some', Option.some_bind, h2, Option.map_some', p1, e1, b1, p2, e2]
  exact ⟨rfl, rfl⟩

/-- C21 (amended): in the whole `adcBufCallback` of `rfEchoTx.c` and of
`rfEchoRx.c`, for every driver, sample buffer, channel and fuel above 500 there
is one value per program such that, from every prior state of the pins and
statics, the callback returns having made the single write of that value to
`Board_DIO15` followed by `ADCBuf_convertCancel` and no further pin call, with
the other pins as before and the sample buffer adjusted in place.  A second run
handed the same buffer contents repeats the write and leaves the pins as the
first run left them; a second run on the buffer as the first run left it does
so when the adjustment leaves the adjusted buffer unchanged. -/
theorem C21_alarm_fixed_by_contents (drv : AdcDriver) (completedADCBuffer : List Nat)
    (completedChannel fuel : Nat) (hfuel : 500 < fuel) :
    ∃ vT vR : Nat,
      (∀ g : AdcGlobals, g.microVoltBuffer.length = ADCBUFFERSIZE →
        ∃ r, rfEchoTx.adcBufCallbackRun drv fuel completedADCBuffer completedChannel g = some r ∧
          r.effects = [Effect.PIN_setOutputValue Pin.Board_DIO15 vT,
                       Effect.ADCBuf_convertCancel] ∧
          r.globals.pins = { g.pins with Board_DIO15 := vT } ∧
          r.completedADCBuffer = drv.ADCBuf_adjustRawValues completedADCBuffer completedChannel ∧
          r.globals.microVoltBuffer.length = ADCBUFFERSIZE ∧
          (∃ r2, rfEchoTx.adcBufCallbackRun drv fuel completedADCBuffer completedChannel r.globals
              = some r2 ∧
            r2.effects = r.effects ∧ r2.globals.pins = r.globals.pins) ∧
          (drv.ADCBuf_adjustRawValues (drv.ADCBuf_adjustRawValues completedADCBuffer completedChannel) completedChannel
              = drv.ADCBuf_adjustRawValues completedADCBuffer completedChannel →
            ∃ r2, rfEchoTx.adcBufCallbackRun drv fuel r.completedADCBuffer completedChannel r.globals
                = some r2 ∧
              r2.effects = r.effects ∧ r2.globals.pins = r.globals.pins)) ∧
      (∀ g : AdcGlobals, g.microVoltBuffer.length = ADCBUFFERSIZE →
        ∃ r, rfEchoRx.adcBufCallbackRun drv fuel completedADCBuffer completedChannel g = some r ∧
          r.effects = [Effect.PIN_setOutputValue Pin.Board_DIO15 vR,
                       Effect.ADCBuf_convertCancel] ∧
          r.globals.pins = { g.pins with Board_DIO15 := vR } ∧
          r.completedADCBuffer = drv.ADCBuf_adjustRawValues completedADCBuffer completedChannel ∧
          r.globals.microVoltBuffer.length = ADCBUFFERSIZE ∧
          (∃ r2, rfEchoRx.adcBufCallbackRun drv fuel completedADCBuffer completedChannel r.globals
              = some r2 ∧
            r2.effects = r.effects ∧ r2.globals.pins = r.globals.pins) ∧
          (drv.ADCBuf_adjustRawValues (drv.ADCBuf_adjustRawValues completedADCBuffer completedChannel) completedChannel
              = drv.ADCBuf_adjustRawValues completedADCBuffer completedChannel →
            ∃ r2, rfEchoRx.adcBufCallbackRun drv fuel r.completedADCBuffer completedChannel r.globals
                = some r2 ∧
              r2.effects = r.effects ∧ r2.globals.pins = r.globals.pins)) := by
  refine ⟨if (onePassLog (storeMicroVolts [] (drv.ADCBuf_convertAdjustedToMicroVolts
      (drv.ADCBuf_adjustRawValues completedADCBuffer completedChannel)
      completedChannel))).foldl trackMax 0 > 50000 then 1 else 0,
    if (onePassLog (storeMicroVolts [] (drv.ADCBuf_convertAdjustedToMicroVolts
      (drv.ADCBuf_adjustRawValues completedADCBuffer completedChannel)
      completedChannel))).foldl trackMax 0 > 15000 then 1 else 0, ?_, ?_⟩
  · intro g hg
    exact second_run (fun b => drv.ADCBuf_adjustRawValues b completedChannel)
      (fun b g => rfEchoTx.adcBufCallbackRun drv fuel b completedChannel g)
      (fun a => if (onePassLog (storeMicroVolts []
          (drv.ADCBuf_convertAdjustedToMicroVolts a completedChannel))).foldl trackMax 0
            > 50000 then 1 else 0)
      (fun b g hg => (adcBufCallbackRun_both drv fuel hfuel b completedChannel g hg).1)
      completedADCBuffer g hg
  · intro g hg
    exact second_run (fun b => drv.ADCBuf_adjustRawValues b completedChannel)
      (fun b g => rfEchoRx.adcBufCallbackRun drv fuel b completedChannel g)
      (fun a => if (onePassLog (storeMicroVolts []
          (drv.ADCBuf_convertAdjustedToMicroVolts a completedChannel))).foldl trackMax 0
            > 15000 then 1 else 0)
      (fun b g hg => (adcBufCallbackRun_both drv fuel hfuel b completedChannel g hg).2)
      completedADCBuffer g hg

/-- Witness for C21: the sample driver, a sample buffer of 500 full-scale
values 4095, which the adjustment leaves as it is once adjusted, channel 0 and
fuel 501. -/
theorem C21_alarm_fixed_by_contents_witness :
    500 < 501 ∧
    gainDriver.ADCBuf_adjustRawValues
        (gainDriver.ADCBuf_adjustRawValues (List.replicate 500 4095) 0) 0
      = gainDriver.ADCBuf_adjustRawValues (List.replicate 500 4095) 0 ∧
    ∃ vT vR : Nat,
      (∀ g : AdcGlobals, g.microVoltBuffer.length = ADCBUFFERSIZE →
        ∃ r, rfEchoTx.adcBufCallbackRun gainDriver 501 (List.replicate 500 4095) 0 g = some r ∧
          r.effects = [Effect.PIN_setOutputValue Pin.Board_DIO15 vT,
                       Effect.ADCBuf_convertCancel] ∧
          r.globals.pins = { g.pins with Board_DIO15 := vT } ∧
          r.completedADCBuffer = gainDriver.ADCBuf_adjustRawValues (List.replicate 500 4095) 0 ∧
          r.globals.microVoltBuffer.length = ADCBUFFERSIZE ∧
          (∃ r2, rfEchoTx.adcBufCallbackRun gainDriver 501 (List.replicate 500 4095) 0 r.globals
              = some r2 ∧
            r2.effects = r.effects ∧ r2.globals.pins = r.globals.pins) ∧
          (gainDriver.ADCBuf_adjustRawValues (gainDriver.ADCBuf_adjustRawValues (List.replicate 500 4095) 0) 0
              = gainDriver.ADCBuf_adjustRawValues (List.replicate 500 4095) 0 →
            ∃ r2, rfEchoTx.adcBufCallbackRun gainDriver 501 r.completedADCBuffer 0 r.globals
                = some r2 ∧
              r2.effects = r.effects ∧ r2.globals.pins = r.globals.pins)) ∧
      (∀ g : AdcGlobals, g.microVoltBuffer.length = ADCBUFFERSIZE →
        ∃ r, rfEchoRx.adcBufCallbackRun gainDriver 501 (List.replicate 500 4095) 0 g = some r ∧
          r.effects = [Effect.PIN_setOutputValue Pin.Board_DIO15 vR,
                       Effect.ADCBuf_convertCancel] ∧
          r.globals.pins = { g.pins with Board_DIO15 := vR } ∧
          r.completedADCBuffer = gainDriver.ADCBuf_adjustRawValues (List.replicate 500 4095) 0 ∧
          r.globals.microVoltBuffer.length = ADCBUFFERSIZE ∧
          (∃ r2, rfEchoRx.adcBufCallbackRun gainDriver 501 (List.replicate 500 4095) 0 r.globals
              = some r2 ∧
            r2.effects = r.effects ∧ r2.globals.pins = r.globals.pins) ∧
          (gainDriver.ADCBuf_adjustRawValues (gainDriver.ADCBuf_adjustRawValues (List.replicate 500 4095) 0) 0
              = gainDriver.ADCBuf_adjustRawValues (List.replicate 500 4095) 0 →
            ∃ r2, rfEchoRx.adcBufCallbackRun gainDriver 501 r.completedADCBuffer 0 r.globals
                = some r2 ∧
              r2.effects = r.effects ∧ r2.globals.pins = r.globals.pins)) :=
  ⟨by decide,
    by
      unfold gainDriver
      simp only [List.map_replicate]
      exact congrArg (List.replicate 500) (by decide),
    C21_alarm_fixed_by_contents gainDriver (List.replicate 500 4095) 0 501 (by decide)⟩

end Engs86
